import Mathlib

/-!
Native container-network adaptor (`adaptor_native.c`).

A shallow embedding of the conflict engine, the allocators and the conflist
builder of `src/daemon/modules/network/native/adaptor_native.c`, with the
theorems that settle the specification's statements about them.

Conventions of the embedding

* a C string is a Lean `String`; a `NULL`-able string is an `Option String`;
* a byte is a `Nat` below 256, an address is the list of its bytes;
* an `int` status is an `Int` (`0`, `1`, `-1` as in the source);
* allocation failures (`Out of memory` branches) are not modelled;
* the helpers of `utils_network.c` / `utils_string.c` are not part of the
  sources at hand; each is modelled from the specification and says so.
-/

namespace NativeNet

/-! ## Data model -/

/-- Mirror of `struct ipnet`: raw address bytes and an equally sized mask.
`ip_len` and `ip_mask_len` are the lengths of the two lists. -/
structure ipnet where
  ip : List Nat
  ip_mask : List Nat
  deriving DecidableEq, Repr

/-! ## IPNet utilities (modelled from the specification, section 4.1) -/

/-- Value of a decimal digit character. -/
def digit_value (c : Char) : Option Nat :=
  if 48 ≤ c.toNat ∧ c.toNat ≤ 57 then some (c.toNat - 48) else none

/-- Left-to-right accumulation of decimal digits. -/
def parse_digits : List Char → Nat → Option Nat
  | [], acc => some acc
  | c :: cs, acc =>
    match digit_value c with
    | none => none
    | some d => parse_digits cs (acc * 10 + d)

/-- Canonical unsigned decimal: at least one digit, no sign, no leading zero. -/
def parse_uint (cs : List Char) : Option Nat :=
  match cs with
  | [] => none
  | [c] => digit_value c
  | c :: cs => if c = '0' then none else parse_digits (c :: cs) 0

/-- One address byte in text form: a canonical decimal not above 255. -/
def parse_byte (cs : List Char) : Option Nat :=
  match parse_uint cs with
  | some n => if n ≤ 255 then some n else none
  | none => none

/-- Split a character list at every occurrence of `sep`. -/
def split_on (sep : Char) : List Char → List (List Char)
  | [] => [[]]
  | c :: cs =>
    if c = sep then [] :: split_on sep cs
    else
      match split_on sep cs with
      | [] => [[c]]
      | w :: ws => (c :: w) :: ws

/-- Dotted-quad text to four bytes. -/
def parse_ipv4_chars (cs : List Char) : Option (List Nat) :=
  match split_on '.' cs with
  | [a, b, c, d] =>
    match parse_byte a, parse_byte b, parse_byte c, parse_byte d with
    | some a, some b, some c, some d => some [a, b, c, d]
    | _, _, _, _ => none
  | _ => none

/-- Modelled from the spec: `util_parse_ip_from_str` of `utils_network.c`, the
"Parse" of an address (section 4.1). The model reads the IPv4 dotted-decimal
form; any other text, IPv6 text included, is a parse failure. -/
def util_parse_ip_from_str (s : String) : Option (List Nat) :=
  parse_ipv4_chars s.data

/-- The byte of index `i` of the network mask with `p` leading one bits. -/
def mask_byte (p i : Nat) : Nat :=
  256 - 2 ^ (8 - min 8 (p - 8 * i))

/-- The `len`-byte network mask with `p` leading one bits. -/
def cidr_mask (p len : Nat) : List Nat :=
  (List.range len).map (mask_byte p)

/-- Modelled from the spec: `util_parse_ipnet_from_str` of `utils_network.c`,
"Parse CIDR string → IpNet; fails with ParseError on malformed input"
(section 4.1). The text is cut at the first `/`; the address part is kept as
written (host bits are not cleared, "Reduce" is a separate operation) and the
prefix length becomes a mask of the same size as the address. -/
def util_parse_ipnet_from_str (s : String) : Option ipnet :=
  match s.data.span (fun c => c != '/') with
  | (addr, _ :: len) =>
    match parse_ipv4_chars addr, parse_uint len with
    | some ip, some p => if p ≤ 8 * ip.length then some ⟨ip, cidr_mask p ip.length⟩ else none
    | _, _ => none
  | (_, []) => none

/-- Byte-wise AND of two byte strings. -/
def bytes_and (a b : List Nat) : List Nat :=
  List.zipWith (fun x y => x &&& y) a b

/-- Network (base) address of a net: `ip[i] & ip_mask[i]`. -/
def network_address (net : ipnet) : List Nat :=
  bytes_and net.ip net.ip_mask

/-- Broadcast address of a net: `ip[i] | ~ip_mask[i]` on bytes. -/
def broadcast_address (net : ipnet) : List Nat :=
  List.zipWith (fun x m => x ||| (255 - m)) net.ip net.ip_mask

/-- Modelled from the spec: `util_net_contain_ip` of `utils_network.c`,
"Contains(net, ip, inclusive_boundary): true iff `ip & net.mask == net.ip &
net.mask`; when `inclusive_boundary` is false, the network and broadcast
addresses are excluded" (section 4.1). The comparison is byte-wise, so an
address of another family (another length) is never contained. -/
def util_net_contain_ip (net : ipnet) (ip : List Nat) (critical : Bool) : Bool :=
  if net.ip.length ≠ ip.length ∨ net.ip_mask.length ≠ ip.length then false
  else if bytes_and ip net.ip_mask ≠ bytes_and net.ip net.ip_mask then false
  else if critical then true
  else decide (ip ≠ network_address net ∧ ip ≠ broadcast_address net)

/-- Modelled from the spec: `util_reduce_ip_by_mask` of `utils_network.c`,
"Reduce: zero the host bits of an IpNet" (section 4.1). -/
def util_reduce_ip_by_mask (net : ipnet) : ipnet :=
  ⟨bytes_and net.ip net.ip_mask, net.ip_mask⟩

/-- Text of a byte string as dotted decimals. -/
def ip_chars : List Nat → List Char
  | [] => []
  | [b] => (Nat.repr b).data
  | b :: bs => (Nat.repr b).data ++ '.' :: ip_chars bs

/-- Modelled from the spec: `util_ip_to_string` of `utils_network.c`, the
"Format" of an address (section 4.1); four bytes give the dotted-decimal
text, any other length is outside the model. -/
def util_ip_to_string (ip : List Nat) : Option String :=
  if ip.length = 4 then some (String.mk (ip_chars ip)) else none

/-- Number of leading one bits of a mask, when the mask is a network mask. -/
def mask_size (mask : List Nat) : Option Nat :=
  (List.range (8 * mask.length + 1)).find? (fun p => cidr_mask p mask.length = mask)

/-- Modelled from the spec: `util_ipnet_to_string` of `utils_network.c`,
"Format IpNet → canonical CIDR string" (section 4.1): the address, a slash
and the prefix length of the mask. -/
def util_ipnet_to_string (net : ipnet) : Option String :=
  if net.ip.length = 4 ∧ net.ip_mask.length = 4 then
    match mask_size net.ip_mask with
    | some p => some (String.mk (ip_chars net.ip ++ '/' :: (Nat.repr p).data))
    | none => none
  else none

/-! ## Conflict engine -/

/-- Source: `net_conflict` (adaptor_native.c:662). Returns 0 (no conflict) or
1 (conflict). -/
def net_conflict (net ipnet : ipnet) : Int :=
  if net.ip.length ≠ ipnet.ip.length ∨ net.ip_mask.length ≠ ipnet.ip_mask.length then 0
  else
    let first_net := bytes_and net.ip net.ip_mask
    let first_ipnet := bytes_and ipnet.ip ipnet.ip_mask
    if util_net_contain_ip net first_ipnet true || util_net_contain_ip ipnet first_net true then 1
    else 0

/-- First loop of `check_subnet_available`: the stored CIDR strings. -/
def check_subnets_loop (net : ipnet) : List String → Int
  | [] => 0
  | s :: rest =>
    match util_parse_ipnet_from_str s with
    | none => check_subnets_loop net rest
    | some tmp =>
      let ret := net_conflict tmp net
      if ret ≠ 0 then ret else check_subnets_loop net rest

/-- Second loop of `check_subnet_available`: the host addresses. -/
def check_host_ip_loop (net : ipnet) : List String → Int
  | [] => 0
  | h :: rest =>
    match util_parse_ip_from_str h with
    | none => check_host_ip_loop net rest
    | some ip =>
      if ip.length = 0 then check_host_ip_loop net rest
      else if util_net_contain_ip net ip true then 1
      else check_host_ip_loop net rest

/-- Source: `check_subnet_available` (adaptor_native.c:710). Returns 0
(available), 1 (not available) or -1 (the candidate does not parse). -/
def check_subnet_available (subnet : String) (subnets host_ip : List String) : Int :=
  match util_parse_ipnet_from_str subnet with
  | none => -1
  | some net =>
    let ret := check_subnets_loop net subnets
    if ret ≠ 0 then ret else check_host_ip_loop net host_ip

/-! ## Allocators -/

/-- Result of an allocator: the returned string (`NULL` is `none`) and the
text handed to `isulad_set_error_message`, when the call sets one. -/
structure alloc_result where
  value : Option String
  message : Option String
  deriving DecidableEq, Repr

/-- Source: `#define MAX_BRIDGE_ID 1024` (adaptor_native.c:33). -/
def MAX_BRIDGE_ID : Nat := 1024

/-- Source: `bridge_name_prefix` of `find_bridge_name` (adaptor_native.c:819). -/
def bridge_name_pre : String := "isula-br"

/-- Modelled from the spec: `util_int_to_string` of `utils_convert.c`, the
decimal text of a non-negative `int`. -/
def util_int_to_string (i : Nat) : String :=
  Nat.repr i

/-- Modelled from the spec: `util_string_append` of `utils_string.c`. The
call `util_string_append(num, bridge_name_prefix)` yields the number followed
by the prefix ("the source constructs candidates as `<number><prefix>`",
sections 4.5 and 9). -/
def util_string_append (first second : String) : String :=
  first ++ second

/-- Modelled from the spec: `util_string_array_contain` of `utils_array.c`,
exact (case-sensitive) membership of a string in a string array. -/
def util_string_array_contain (array : List String) (element : String) : Bool :=
  array.contains element

/-- Candidate bridge name of loop index `i` (adaptor_native.c:842-846). -/
def bridge_name_candidate (i : Nat) : String :=
  util_string_append (util_int_to_string i) bridge_name_pre

/-- The `for (i = 0; i < MAX_BRIDGE_ID; i++)` loop of `find_bridge_name`
(adaptor_native.c:836-860); `todo` is the number of indices left,
`MAX_BRIDGE_ID - i`. -/
def find_bridge_name_loop (net_names bridge_names host_net_names : List String) :
    Nat → Nat → Option String
  | 0, _ => none
  | todo + 1, i =>
    let name := bridge_name_candidate i
    if util_string_array_contain net_names name then
      find_bridge_name_loop net_names bridge_names host_net_names todo (i + 1)
    else if util_string_array_contain bridge_names name then
      find_bridge_name_loop net_names bridge_names host_net_names todo (i + 1)
    else if util_string_array_contain host_net_names name then
      find_bridge_name_loop net_names bridge_names host_net_names todo (i + 1)
    else some name

/-- Source: `find_bridge_name` (adaptor_native.c:810), as a function of the
three name sets it collects (stored network names, stored bridge names, host
interface names). -/
def find_bridge_name (net_names bridge_names host_net_names : List String) : alloc_result :=
  match find_bridge_name_loop net_names bridge_names host_net_names MAX_BRIDGE_ID 0 with
  | some name => ⟨some name, none⟩
  | none => ⟨none, some "Too many network bridges"⟩

/-- Mirror of `struct subnet_scope` (the fields `begin` and `end`). -/
structure subnet_scope where
  begin_ : String
  end_ : String
  deriving DecidableEq, Repr

/-- Source: `g_private_networks` (adaptor_native.c:43). -/
def g_private_networks : List subnet_scope :=
  [ ⟨"192.168.0.0/24", "192.168.255.0/24"⟩,
    ⟨"172.16.0.0/24", "172.31.255.0/24"⟩,
    ⟨"10.0.0.0/24", "10.255.255.0/24"⟩ ]

/-- The loop `for (i = 0; i < len - 1; i++)` of `find_private_network`
(adaptor_native.c:887): the begin of the stripe after the one that ends at
`subnet`. -/
def stripe_jump (subnet : String) : List subnet_scope → Option String
  | a :: b :: rest =>
    if subnet = a.end_ then some b.begin_ else stripe_jump subnet (b :: rest)
  | _ => none

/-- Packing of bytes into a `uint32_t` (adaptor_native.c:898-903):
`x <<= 8; x += byte`, both modulo 2^32. -/
def pack_u32 (bytes : List Nat) : Nat :=
  bytes.foldl (fun acc b => ((acc * 256) % 2 ^ 32 + b) % 2 ^ 32) 0

/-- Writing a `uint32_t` back into `len` bytes, last byte first
(adaptor_native.c:906-910). -/
def unpack_u32 : Nat → Nat → List Nat
  | 0, _ => []
  | len + 1, x => unpack_u32 len (x / 256) ++ [x % 256]

/-- Source: `find_private_network` (adaptor_native.c:873). -/
def find_private_network (subnet : Option String) : Option String :=
  match subnet with
  | none => (g_private_networks.head?).map (fun s => s.begin_)
  | some subnet =>
    match stripe_jump subnet g_private_networks with
    | some nx => some nx
    | none =>
      match util_parse_ipnet_from_str subnet with
      | none => none
      | some ipnet =>
        let ip := pack_u32 ipnet.ip
        let mask := pack_u32 ipnet.ip_mask
        let mask := ((2 ^ 32 - 1 - mask) + 1) % 2 ^ 32
        let ip := (ip + mask) % 2 ^ 32
        util_ipnet_to_string ⟨unpack_u32 ipnet.ip.length ip, ipnet.ip_mask⟩

/-- The `end` of the last private stripe (adaptor_native.c:926). -/
def private_networks_end : String :=
  match g_private_networks.getLast? with
  | some s => s.end_
  | none => ""

/-- Outcome of the `do … while` loop of `find_subnet`. -/
inductive subnet_search where
  /-- A candidate passed the check: `goto out` with `subnet` set. -/
  | found (subnet : String)
  /-- The loop ran past the last stripe end: message, `NULL`. -/
  | exhausted
  /-- The successor or the check failed: `NULL` without a message. -/
  | failed
  /-- The model ran out of steps before the loop ended. -/
  | out_of_fuel
  deriving DecidableEq, Repr

/-- The `do … while (strcmp(subnet, end) != 0)` loop of `find_subnet`
(adaptor_native.c:938-960). `subnet` is the candidate of the previous
round (`NULL` at entry); `continue` jumps to the loop condition. -/
def find_subnet_loop (config_subnet host_ip : List String) :
    Nat → Option String → subnet_search
  | 0, _ => subnet_search.out_of_fuel
  | fuel + 1, subnet =>
    match find_private_network subnet with
    | none => subnet_search.failed
    | some nx_subnet =>
      let nret := check_subnet_available nx_subnet config_subnet host_ip
      if nret = 0 then subnet_search.found nx_subnet
      else if nret = 1 then
        if nx_subnet ≠ private_networks_end then
          find_subnet_loop config_subnet host_ip fuel (some nx_subnet)
        else subnet_search.exhausted
      else subnet_search.failed

/-- Source: `find_subnet` (adaptor_native.c:918), as a function of the stored
subnets and the host addresses it collects; `fuel` bounds the number of
rounds of the loop. -/
def find_subnet (fuel : Nat) (config_subnet host_ip : List String) : alloc_result :=
  match find_subnet_loop config_subnet host_ip fuel none with
  | subnet_search.found subnet => ⟨some subnet, none⟩
  | subnet_search.exhausted => ⟨none, some "Cannot find avaliable subnet by default"⟩
  | subnet_search.failed => ⟨none, none⟩
  | subnet_search.out_of_fuel => ⟨none, none⟩

/-- Number of candidates of the three private stripes: 256 + 4096 + 65536. -/
def private_candidate_count : Nat := 69888

/-- The bytes computed by `find_gateway` (adaptor_native.c:997-1000):
`ip[i] & ip_mask[i]`, then the lowest bit of the last byte set. -/
def first_host_ip (ipnet : ipnet) : List Nat :=
  let first_ip := bytes_and ipnet.ip ipnet.ip_mask
  first_ip.set (ipnet.ip.length - 1) (first_ip.getD (ipnet.ip.length - 1) 0 ||| 0x01)

/-- Source: `find_gateway` (adaptor_native.c:972). -/
def find_gateway (subnet : String) : alloc_result :=
  match util_parse_ipnet_from_str subnet with
  | none => ⟨none, none⟩
  | some ipnet =>
    if ipnet.ip_mask.getD (ipnet.ip_mask.length - 1) 0 = 0xff then
      ⟨none, some ("No avaliable gateway in " ++ subnet)⟩
    else ⟨util_ip_to_string (first_host_ip ipnet), none⟩

/-! ## Conflists, records and the store -/

/-- Mirror of `cni_net_conf_ipam_ranges_element`: one entry of the IPAM
`ranges` table. -/
structure cni_net_conf_ipam_ranges_element where
  subnet : Option String
  gateway : Option String
  deriving DecidableEq, Repr

/-- Mirror of `cni_net_conf_ipam`; `routes` holds the `dst` of each route. -/
structure cni_net_conf_ipam where
  type : String
  routes : List String
  ranges : List (List cni_net_conf_ipam_ranges_element)
  deriving DecidableEq, Repr

/-- Mirror of `cni_net_conf`, one plugin of a conflist (the fields the
adaptor reads or writes). -/
structure cni_net_conf where
  type : String
  bridge : Option String
  is_gateway : Bool
  ip_masq : Bool
  hairpin_mode : Bool
  ipam : Option cni_net_conf_ipam
  capabilities : List (String × Bool)
  domain_name : Option String
  deriving DecidableEq, Repr

/-- Mirror of `cni_net_conf_list`; `plugins_len` is the length of `plugins`. -/
structure cni_net_conf_list where
  cni_version : String
  name : String
  plugins : List cni_net_conf
  deriving DecidableEq, Repr

/-- Mirror of `struct cni_network_list_conf`: the conflist and its JSON text. -/
structure cni_network_list_conf where
  list : cni_net_conf_list
  bytes : Option String
  deriving DecidableEq, Repr

/-- Mirror of `native_network` (adaptor_native.c:52); the lock is not part of
the sequential model. -/
structure native_network where
  conflist : cni_network_list_conf
  containers_list : List String
  deriving DecidableEq, Repr

/-- Mirror of `native_store` (adaptor_native.c:62): `name_to_network` is the
map as the list of its key/value pairs. -/
structure native_store where
  name_to_network : List (String × native_network)
  network_len : Nat
  conf_dir : String
  bin_paths : List String
  deriving DecidableEq, Repr

/-- Mirror of `network_create_request`. -/
structure network_create_request where
  name : Option String
  driver : Option String
  subnet : Option String
  gateway : Option String
  internal : Bool
  deriving DecidableEq, Repr

/-- The process state the adaptor works on: the global `g_store` and the part
of the host it reads and writes. `interface_names` and `host_net_ip` are the
answers of `get_interface_name` (adaptor_native.c:557) and `get_host_net_ip`
(adaptor_native.c:596), `none` when `getifaddrs` fails; `files` and `dirs`
are the paths for which `util_file_exists` and `util_dir_exists` hold. -/
structure world where
  g_store : native_store
  files : List String
  dirs : List String
  interface_names : Option (List String)
  host_net_ip : Option (List String)
  deriving DecidableEq, Repr

/-- Failures of the operating system that a call may meet. -/
structure io_faults where
  mkdir_fails : Bool
  write_fails : Bool
  exec_fails : Bool
  unlink_fails : Bool
  deriving DecidableEq, Repr

/-- Constants and codecs that the adaptor takes from headers and libraries
outside the sources at hand: the native file-name prefix, the CNI version,
the DNS domain, the (non-zero) status `EINVALIDARGS`, and the JSON generator
of conflists. -/
structure build_consts where
  ISULAD_CNI_NETWORK_CONF_FILE_PRE : String
  CURRENT_VERSION : String
  ISULAD_DNS_DOMAIN_NAME : String
  EINVALIDARGS : Int
  EINVALIDARGS_ne_zero : EINVALIDARGS ≠ 0
  cni_net_conf_list_generate_json : cni_net_conf_list → Option String

/-- The value of `PATH_MAX` on Linux (`limits.h`). -/
def PATH_MAX : Nat := 4096

/-- Response codes written to `*cc`. -/
inductive isulad_cc where
  | ISULAD_ERR_EXEC
  | ISULAD_ERR_INPUT
  deriving DecidableEq, Repr

/-- Modelled from the spec: `map_search` of `utils/cutils/map`, exact-match
lookup of a key ("lookup by name is exact match over the map", section 4.8). -/
def map_search (m : List (String × native_network)) (key : String) : Option native_network :=
  match m with
  | [] => none
  | (k, v) :: rest => if k = key then some v else map_search rest key

/-- Modelled from the spec: `map_replace` of `utils/cutils/map`, which stores
the value under the key, in place of an entry with the same key when there is
one ("keys unique", section 3). -/
def map_replace (m : List (String × native_network)) (key : String) (value : native_network) :
    List (String × native_network) :=
  match m with
  | [] => [(key, value)]
  | (k, v) :: rest =>
    if k = key then (key, value) :: rest else (k, v) :: map_replace rest key value

/-- Source: `get_config_net_name` (adaptor_native.c:448). -/
def get_config_net_name (list : cni_net_conf_list) : List String :=
  [list.name]

/-- Source: `get_config_bridge_name` (adaptor_native.c:457). -/
def get_config_bridge_name (list : cni_net_conf_list) : List String :=
  list.plugins.filterMap (fun plugin =>
    if plugin.type ≠ "bridge" then none else plugin.bridge)

/-- The subnet advertised by one plugin: `ipam->ranges[0][0]->subnet`, when
every link of that chain is present (adaptor_native.c:493-500). -/
def plugin_subnet (plugin : cni_net_conf) : Option String :=
  match plugin.ipam with
  | none => none
  | some ipam =>
    match ipam.ranges with
    | (element :: _) :: _ => element.subnet
    | _ => none

/-- Source: `get_config_subnet` (adaptor_native.c:480). -/
def get_config_subnet (list : cni_net_conf_list) : List String :=
  list.plugins.filterMap plugin_subnet

/-- Source: `get_cni_config` (adaptor_native.c:509): the callback applied to
every stored conflist; an empty array when `network_len` is 0. -/
def get_cni_config (store : native_store) (cb : cni_net_conf_list → List String) : List String :=
  if store.network_len = 0 then []
  else (store.name_to_network.map (fun kv => cb kv.2.conflist.list)).flatten

/-- Source: `check_bridge` (adaptor_native.c:763): the status and the error
message it sets. -/
def check_bridge (k : build_consts) (w : world) (request : network_create_request) :
    Int × Option String :=
  let name_used :=
    match request.name with
    | none => false
    | some name => util_string_array_contain (get_cni_config w.g_store get_config_net_name) name
  if name_used then
    (k.EINVALIDARGS, some ("Network name \"" ++ request.name.getD "" ++ "\" has been used"))
  else
    match request.subnet with
    | none => (0, none)
    | some subnet =>
      let subnets := get_cni_config w.g_store get_config_subnet
      match w.host_net_ip with
      | none => (-1, none)
      | some host_ip =>
        let ret := check_subnet_available subnet subnets host_ip
        if ret = 1 then
          (k.EINVALIDARGS,
            some ("Subnet \"" ++ subnet ++ "\" conflict with CNI config or host network"))
        else (ret, none)

/-- Source: `find_bridge_name` (adaptor_native.c:810) on the process state. -/
def find_bridge_name_in (w : world) : alloc_result :=
  let net_names := get_cni_config w.g_store get_config_net_name
  let bridge_names := get_cni_config w.g_store get_config_bridge_name
  match w.interface_names with
  | none => ⟨none, none⟩
  | some host_net_names => find_bridge_name net_names bridge_names host_net_names

/-- Source: `find_subnet` (adaptor_native.c:918) on the process state. -/
def find_subnet_in (w : world) : alloc_result :=
  let config_subnet := get_cni_config w.g_store get_config_subnet
  match w.host_net_ip with
  | none => ⟨none, none⟩
  | some host_ip => find_subnet private_candidate_count config_subnet host_ip

/-- Source: `conf_bridge_plugin_ipam` (adaptor_native.c:1009): the IPAM block
(`NULL` is `none`) and the error message set on the way. -/
def conf_bridge_plugin_ipam (w : world) (request : network_create_request) :
    Option cni_net_conf_ipam × Option String :=
  let subnet : alloc_result :=
    match request.subnet with
    | some s =>
      match util_parse_ipnet_from_str s with
      | none => ⟨none, none⟩
      | some ipnet => ⟨util_ipnet_to_string (util_reduce_ip_by_mask ipnet), none⟩
    | none => find_subnet_in w
  match subnet.value with
  | none => (none, subnet.message)
  | some subnet_str =>
    let gateway : alloc_result :=
      match request.gateway with
      | some g => ⟨some g, none⟩
      | none => find_gateway subnet_str
    match gateway.value with
    | none => (none, gateway.message)
    | some gateway_str =>
      (some ⟨"host-local", ["0.0.0.0/0"], [[⟨some subnet_str, some gateway_str⟩]]⟩, none)

/-- Source: `conf_bridge_plugin` (adaptor_native.c:1109). -/
def conf_bridge_plugin (_k : build_consts) (w : world) (request : network_create_request) :
    Option cni_net_conf × Option String :=
  let bridge := find_bridge_name_in w
  match bridge.value with
  | none => (none, bridge.message)
  | some bridge_name =>
    let is_gateway := if request.internal then false else true
    let ip_masq := if request.internal then false else true
    match conf_bridge_plugin_ipam w request with
    | (none, msg) => (none, msg)
    | (some ipam, msg) =>
      (some ⟨"bridge", some bridge_name, is_gateway, ip_masq, true, some ipam, [], none⟩, msg)

/-- Source: `conf_portmap_plugin` (adaptor_native.c:1148). -/
def conf_portmap_plugin (_k : build_consts) (_w : world) (_request : network_create_request) :
    Option cni_net_conf × Option String :=
  (some ⟨"portmap", none, false, false, false, none, [("portMappings", true)], none⟩, none)

/-- Source: `conf_firewall_plugin` (adaptor_native.c:1186). -/
def conf_firewall_plugin (_k : build_consts) (_w : world) (_request : network_create_request) :
    Option cni_net_conf × Option String :=
  (some ⟨"firewall", none, false, false, false, none, [], none⟩, none)

/-- Source: `conf_dnsname_plugin` (adaptor_native.c:1200). -/
def conf_dnsname_plugin (k : build_consts) (_w : world) (_request : network_create_request) :
    Option cni_net_conf × Option String :=
  (some ⟨"dnsname", none, false, false, false, none, [("aliases", true)],
    some k.ISULAD_DNS_DOMAIN_NAME⟩, none)

/-- Mirror of `struct plugin_op` (adaptor_native.c:134). -/
structure plugin_op where
  plugin : String
  op : build_consts → world → network_create_request → Option cni_net_conf × Option String

/-- Source: `g_bridge_plugin` (adaptor_native.c:144). -/
def g_bridge_plugin : plugin_op := ⟨"bridge", conf_bridge_plugin⟩

/-- Source: `g_portmap_plugin` (adaptor_native.c:149). -/
def g_portmap_plugin : plugin_op := ⟨"portmap", conf_portmap_plugin⟩

/-- Source: `g_firewall_plugin` (adaptor_native.c:154). -/
def g_firewall_plugin : plugin_op := ⟨"firewall", conf_firewall_plugin⟩

/-- Source: `g_dnsname_plugin` (adaptor_native.c:159). -/
def g_dnsname_plugin : plugin_op := ⟨"dnsname", conf_dnsname_plugin⟩

/-- Source: `g_bridge_driver_plugins` (adaptor_native.c:165). -/
def g_bridge_driver_plugins : List plugin_op :=
  [g_bridge_plugin, g_portmap_plugin, g_firewall_plugin, g_dnsname_plugin]

/-- Modelled from the spec: `util_path_join` of `path.c`, a directory and an
entry name joined by a slash. -/
def util_path_join (dir name : String) : String :=
  dir ++ "/" ++ name

/-- Source: `cni_bin_detect` (adaptor_native.c:1239). -/
def cni_bin_detect (w : world) (cni : String) : Bool :=
  w.g_store.bin_paths.any (fun dir => w.files.contains (util_path_join dir cni))

/-- Outcome of the assembly loop of `conf_bridge`: the plugins emitted so far
and the `missing` array, or the failure of a plugin builder with its
message. -/
inductive plugins_result where
  | built (plugins : List cni_net_conf) (missing : List String)
  | failed (missing : List String) (message : Option String)
  deriving DecidableEq, Repr

/-- The loop `for (i = 0; i < BRIDGE_DRIVER_PLUGINS_LEN; i++)` of
`conf_bridge` (adaptor_native.c:1280-1302). Only the last table entry
(`dnsname`) can be skipped, so the emitted plugins fill `plugins[0..]` without
a gap and are kept here as a list. -/
def conf_bridge_loop (k : build_consts) (w : world) (request : network_create_request) :
    List plugin_op → List cni_net_conf → List String → plugins_result
  | [], plugins, missing => plugins_result.built plugins missing
  | p :: rest, plugins, missing =>
    if !cni_bin_detect w p.plugin && p.plugin = g_dnsname_plugin.plugin then
      conf_bridge_loop k w request rest plugins missing
    else
      let missing := if !cni_bin_detect w p.plugin then missing ++ [p.plugin] else missing
      match p.op k w request with
      | (none, msg) => plugins_result.failed missing msg
      | (some plugin, _) => conf_bridge_loop k w request rest (plugins ++ [plugin]) missing

/-- Result of `conf_bridge`: the conflist (`NULL` is `none`), the `missing`
array and the error message set on the way. -/
structure conf_result where
  list : Option cni_net_conf_list
  missing : List String
  message : Option String
  deriving DecidableEq, Repr

/-- Source: `conf_bridge` (adaptor_native.c:1263). -/
def conf_bridge (k : build_consts) (w : world) (request : network_create_request) : conf_result :=
  match conf_bridge_loop k w request g_bridge_driver_plugins [] [] with
  | plugins_result.failed missing msg => ⟨none, missing, msg⟩
  | plugins_result.built plugins missing =>
    let name :=
      match request.name with
      | some name => name
      | none =>
        match plugins.head? with
        | some first => first.bridge.getD ""
        | none => ""
    ⟨some ⟨k.CURRENT_VERSION, name, plugins⟩, missing, none⟩

/-- Source: `remove_interface` (adaptor_native.c:1810). The command
`ip link delete <ifa>` run by `util_exec_cmd` is modelled from the spec
(section 4.10): it fails on an execution fault, otherwise the interface
leaves the host. -/
def remove_interface (f : io_faults) (w : world) (ifa : String) : Int × world :=
  match w.interface_names with
  | none => (-1, w)
  | some interfaces =>
    if interfaces.length = 0 then (0, w)
    else if !util_string_array_contain interfaces ifa then (0, w)
    else if f.exec_fails then (-1, w)
    else (0, ⟨w.g_store, w.files, w.dirs, some (interfaces.filter (fun i => i ≠ ifa)), w.host_net_ip⟩)

/-- Source: `remove_bridge` (adaptor_native.c:1859). -/
def remove_bridge (f : io_faults) (w : world) (list : cni_net_conf_list) : Int × world :=
  match list.plugins.find? (fun plugin => plugin.type = "bridge" ∧ plugin.bridge ≠ none) with
  | none => (0, w)
  | some plugin =>
    let r := remove_interface f w (plugin.bridge.getD "")
    if r.1 ≠ 0 then (-1, r.2) else (0, r.2)

/-- Mirror of `struct net_driver_ops` (adaptor_native.c:167); a `NULL`
function pointer is `none`. -/
structure net_driver_ops where
  conf : Option (build_consts → world → network_create_request → conf_result)
  check : Option (build_consts → world → network_create_request → Int × Option String)
  remove : Option (io_faults → world → cni_net_conf_list → Int × world)

/-- Source: `g_bridge_ops` (adaptor_native.c:177). -/
def g_bridge_ops : net_driver_ops := ⟨some conf_bridge, some check_bridge, some remove_bridge⟩

/-- Source: `g_macvlan_ops` (adaptor_native.c:183). -/
def g_macvlan_ops : net_driver_ops := ⟨none, none, none⟩

/-- Mirror of `struct net_driver` (adaptor_native.c:189). -/
structure net_driver where
  driver : String
  ops : net_driver_ops

/-- Source: `g_drivers` (adaptor_native.c:194). -/
def g_drivers : List net_driver := [⟨"bridge", g_bridge_ops⟩, ⟨"macvlan", g_macvlan_ops⟩]

/-- Source: `get_ops_by_driver` (adaptor_native.c:207). -/
def get_ops_by_driver (driver : Option String) : Option net_driver :=
  match driver with
  | none => g_drivers.head?
  | some driver => g_drivers.find? (fun d => driver = d.driver)

/-- Source: `get_file_path_by_name` (adaptor_native.c:1884) and the same
`snprintf` of `create_conflist_file` (adaptor_native.c:1336): the path of the
conflist file of a network, `none` when it does not fit `PATH_MAX` bytes. -/
def get_file_path_by_name (k : build_consts) (w : world) (name : String) : Option String :=
  let conflist_file :=
    w.g_store.conf_dir ++ "/" ++ k.ISULAD_CNI_NETWORK_CONF_FILE_PRE ++ name ++ ".conflist"
  if conflist_file.utf8ByteSize ≥ PATH_MAX then none else some conflist_file

/-- Source: `create_conflist_file` (adaptor_native.c:1319): status, error
message, the conflist with its `bytes`, and the process state after it. -/
def create_conflist_file (k : build_consts) (f : io_faults) (w : world)
    (conflist : cni_network_list_conf) : Int × Option String × cni_network_list_conf × world :=
  if !w.dirs.contains w.g_store.conf_dir && f.mkdir_fails then
    (-1, some ("Failed to create network config directory " ++ w.g_store.conf_dir), conflist, w)
  else
    let w1 : world :=
      if !w.dirs.contains w.g_store.conf_dir then
        ⟨w.g_store, w.files, w.dirs ++ [w.g_store.conf_dir], w.interface_names, w.host_net_ip⟩
      else w
    match get_file_path_by_name k w1 conflist.list.name with
    | none => (-1, none, conflist, w1)
    | some conflist_file =>
      match k.cni_net_conf_list_generate_json conflist.list with
      | none => (-1, none, conflist, w1)
      | some conflist_json =>
        if w1.files.contains conflist_file then
          (-1, some ("File " ++ conflist_file ++ " exist"), conflist, w1)
        else if f.write_fails then
          (-1, some ("Failed write " ++ conflist_file), conflist, w1)
        else
          (0, none, ⟨conflist.list, some conflist_json⟩,
            ⟨w1.g_store, w1.files ++ [conflist_file], w1.dirs, w1.interface_names, w1.host_net_ip⟩)

/-- Source: `native_network_init` (adaptor_native.c:285). -/
def native_network_init (conflist : cni_network_list_conf) : native_network :=
  ⟨conflist, []⟩

/-- Source: `native_store_add_network` (adaptor_native.c:311). -/
def native_store_add_network (store : native_store) (conflist : cni_network_list_conf) :
    native_store :=
  let network := native_network_init conflist
  ⟨map_replace store.name_to_network network.conflist.list.name network,
    store.network_len + 1, store.conf_dir, store.bin_paths⟩

/-- Modelled from the spec: `util_string_join` of `utils_string.c`, the parts
joined by the separator (the `<csv>` of section 6). -/
def util_string_join (sep : String) (parts : List String) : String :=
  sep.intercalate parts

/-- Source: `set_missing_plugin_err_msg` (adaptor_native.c:1373): the message
it sets, if any. -/
def set_missing_plugin_err_msg (w : world) (missing : List String) : Option String :=
  if missing = [] then none
  else
    some ("WARN:cannot find cni plugin \"" ++ util_string_join "," missing ++ "\" in dir \"" ++
      util_string_join "," w.g_store.bin_paths ++ "\"")

/-- What `native_config_create` hands back: the status, `*name`, `*cc` and
the error message of the response. -/
structure create_result where
  ret : Int
  name : Option String
  cc : Option isulad_cc
  message : Option String
  deriving DecidableEq, Repr

/-- Source: `native_config_create` (adaptor_native.c:1406). -/
def native_config_create (k : build_consts) (f : io_faults) (w : world)
    (request : network_create_request) : create_result × world :=
  let unsupported : create_result × world :=
    (⟨-1, none, some isulad_cc.ISULAD_ERR_INPUT,
      some ("Cannot support driver: " ++ request.driver.getD "(null)")⟩, w)
  match get_ops_by_driver request.driver with
  | none => unsupported
  | some pnet =>
    if pnet.driver ≠ "bridge" then unsupported
    else
      match pnet.ops.check, pnet.ops.conf with
      | some check, some conf =>
        let checked := check k w request
        if checked.1 ≠ 0 then (⟨-1, none, some isulad_cc.ISULAD_ERR_INPUT, checked.2⟩, w)
        else
          let built := conf k w request
          match built.list with
          | none => (⟨-1, none, some isulad_cc.ISULAD_ERR_EXEC, built.message⟩, w)
          | some list =>
            let name := list.name
            match create_conflist_file k f w ⟨list, none⟩ with
            | (ret, msg, conflist, w1) =>
              if ret ≠ 0 then (⟨ret, some name, some isulad_cc.ISULAD_ERR_EXEC, msg⟩, w1)
              else
                let w2 : world :=
                  ⟨native_store_add_network w1.g_store conflist, w1.files, w1.dirs,
                    w1.interface_names, w1.host_net_ip⟩
                (⟨0, some name, none, set_missing_plugin_err_msg w2 built.missing⟩, w2)
      | _, _ => (⟨-1, none, none, none⟩, w)

/-- A run of `Create` calls, one after another, each of which succeeds
(returns 0); `none` as soon as one of them fails. -/
def create_all (k : build_consts) (w : world) :
    List (io_faults × network_create_request) → Option world
  | [] => some w
  | (f, request) :: rest =>
    let r := native_config_create k f w request
    if r.1.ret = 0 then create_all k r.2 rest else none

/-- The subnet advertised by the bridge plugin of a record. -/
def bridge_subnets (network : native_network) : List String :=
  (network.conflist.list.plugins.filter (fun plugin => plugin.type = "bridge")).filterMap
    plugin_subnet

/-- The gateway advertised by one plugin: `ipam->ranges[0][0]->gateway`. -/
def plugin_gateway (plugin : cni_net_conf) : Option String :=
  match plugin.ipam with
  | none => none
  | some ipam =>
    match ipam.ranges with
    | (element :: _) :: _ => element.gateway
    | _ => none

/-! ## Specification-side notions -/

/-- The candidate of index `i` is in one of the three name sets. -/
def bridge_name_taken (net_names bridge_names host_net_names : List String) (i : Nat) : Prop :=
  bridge_name_candidate i ∈ net_names ∨ bridge_name_candidate i ∈ bridge_names ∨
    bridge_name_candidate i ∈ host_net_names

instance (net_names bridge_names host_net_names : List String) (i : Nat) :
    Decidable (bridge_name_taken net_names bridge_names host_net_names i) := by
  unfold bridge_name_taken
  infer_instance

/-- The upper 24 bits (the three leading bytes) of the private candidate of
index `k`: the stripes 192.168.0.0 … 192.168.255.0 (256 networks),
172.16.0.0 … 172.31.255.0 (4096 networks) and 10.0.0.0 … 10.255.255.0
(65536 networks), each in increasing order. -/
def private_candidate_value (k : Nat) : Nat :=
  if k < 256 then (192 * 256 + 168) * 256 + k
  else if k < 4352 then (172 * 256 + 16) * 256 + (k - 256)
  else 10 * 256 * 256 + (k - 4352)

/-- The address bytes `a.b.c.0` of the private candidate of index `k`. -/
def private_candidate_bytes (k : Nat) : List Nat :=
  [private_candidate_value k / 65536, private_candidate_value k / 256 % 256,
    private_candidate_value k % 256, 0]

/-- The text `a.b.c.0/24` of the private candidate of index `k`, for `k`
below `private_candidate_count`. -/
def private_candidate (k : Nat) : String :=
  String.mk (ip_chars (private_candidate_bytes k) ++ '/' :: (Nat.repr 24).data)

/-- The candidate tested before the one of index `k` (`NULL` before the
first). -/
def previous_candidate : Nat → Option String
  | 0 => none
  | k + 1 => some (private_candidate k)

/-- Two records do not overlap: no bridge-plugin subnet of the one conflicts
(`net_conflict`) with a bridge-plugin subnet of the other. -/
def no_overlap (r1 r2 : native_network) : Prop :=
  ∀ s1 ∈ bridge_subnets r1, ∀ s2 ∈ bridge_subnets r2, ∀ n1 n2,
    util_parse_ipnet_from_str s1 = some n1 → util_parse_ipnet_from_str s2 = some n2 →
    net_conflict n1 n2 = 0

/-- A record advertises exactly one subnet, that of its bridge plugin, and
the subnet parses. -/
def one_bridge_subnet (r : native_network) : Prop :=
  ∃ s n, get_config_subnet r.conflist.list = [s] ∧ bridge_subnets r = [s] ∧
    util_parse_ipnet_from_str s = some n

/-- The store invariant kept by `Create`: the counter is not 0 while the map
has entries, the records pairwise do not overlap, and each advertises one
parsing bridge subnet. -/
def subnets_disjoint (store : native_store) : Prop :=
  (store.network_len = 0 → store.name_to_network = []) ∧
  store.name_to_network.Pairwise (fun a b => no_overlap a.2 b.2) ∧
  ∀ kv ∈ store.name_to_network, one_bridge_subnet kv.2

/-- Build constants for the concrete runs of the examples. -/
def sample_consts : build_consts :=
  ⟨"isulad-", "0.4.0", "dns.isulad", 125, by decide, fun list => some list.name⟩

/-- A call that meets no operating-system failure. -/
def no_faults : io_faults := ⟨false, false, false, false⟩

/-! ## Remove -/

/-- Modelled from the spec: `map_remove` of `utils/cutils/map`, which drops
the entry stored under the key and tells whether there was one ("drop the map
entry", section 4.10). -/
def map_remove (m : List (String × native_network)) (key : String) :
    Bool × List (String × native_network) :=
  (m.any (fun kv => kv.1 = key), m.filter (fun kv => kv.1 ≠ key))

/-- Source: `get_network_by_name` (adaptor_native.c:1704): the record whose
conflist name is `name`, and the error message set when there is none. -/
def get_network_by_name (store : native_store) (name : String) :
    Option native_network × Option String :=
  if store.network_len = 0 then (none, some ("Cannot find network " ++ name))
  else
    match store.name_to_network.find? (fun kv => kv.2.conflist.list.name = name) with
    | some kv => (some kv.2, none)
    | none => (none, some ("Cannot find network " ++ name))

/-- Source: `has_connected_container` (adaptor_native.c:1743). -/
def has_connected_container (network : native_network) : Bool :=
  !network.containers_list.isEmpty

/-- Source: `get_ops_by_conflist` (adaptor_native.c:1778): the driver of the
first plugin whose type is in the driver table. -/
def get_ops_by_conflist (conflist : cni_net_conf_list) : Option net_driver :=
  conflist.plugins.findSome? (fun plugin => get_ops_by_driver (some plugin.type))

/-- Modelled from the spec: `isulad_append_error_message` of `err_msg.c`,
which appends a text to the message of the response (section 4.10). -/
def isulad_append_error_message (message : Option String) (text : String) : Option String :=
  match message with
  | none => some text
  | some m => some (m ++ text)

/-- Modelled from the spec: `util_force_remove_file` of `utils_file.c`, the
deletion of the on-disk conflist file (section 4.10). It fails on a deletion
fault or when there is no such file; otherwise the file is gone. -/
def util_force_remove_file (f : io_faults) (files : List String) (path : String) :
    Bool × List String :=
  if f.unlink_fails || !files.contains path then (false, files)
  else (true, files.filter (fun p => p ≠ path))

/-- What `native_config_remove` hands back: the status, `*res_name` and the
error or warning message of the response. -/
structure remove_result where
  ret : Int
  res_name : Option String
  message : Option String
  deriving DecidableEq, Repr

/-- The first effect of `native_config_remove` (adaptor_native.c:1935-1944):
the remove operation of the driver of the conflist, with the warning appended
when it is absent or fails. -/
def remove_driver_step (f : io_faults) (w : world) (list : cni_net_conf_list)
    (message : Option String) : Option String × world :=
  match get_ops_by_conflist list with
  | none => (message, w)
  | some pnet =>
    match pnet.ops.remove with
    | none =>
      (isulad_append_error_message message
        ("net type: " ++ pnet.driver ++ " unsupport remove. "), w)
    | some remove =>
      let r := remove f w list
      if r.1 ≠ 0 then
        (isulad_append_error_message message
          ("Failed to remove " ++ pnet.driver ++ " interface. "), r.2)
      else (message, r.2)

/-- The second effect of `native_config_remove` (adaptor_native.c:1946-1954):
the deletion of the conflist file, with the warning appended when the path
cannot be built or the deletion fails; the files left on disk. -/
def remove_file_step (k : build_consts) (f : io_faults) (w : world) (name : String)
    (message : Option String) : Option String × List String :=
  match get_file_path_by_name k w name with
  | none =>
    (isulad_append_error_message message ("Failed to get " ++ name ++ " file path. "), w.files)
  | some path =>
    let d := util_force_remove_file f w.files path
    if !d.1 then (isulad_append_error_message message ("Failed to delete " ++ path ++ "."), d.2)
    else (message, d.2)

/-- The third effect of `native_config_remove` (adaptor_native.c:1956-1962):
the map entry is dropped and the counter decremented, or the warning is
appended when the map has no such key. -/
def remove_entry_step (store : native_store) (name : String) (message : Option String) :
    Option String × native_store :=
  let removed := map_remove store.name_to_network name
  if !removed.1 then
    (isulad_append_error_message message ("remove network failed: " ++ name ++ ". "), store)
  else (message, ⟨removed.2, store.network_len - 1, store.conf_dir, store.bin_paths⟩)

/-- Source: `native_config_remove` (adaptor_native.c:1902). The message is
cleared (`DAEMON_CLEAR_ERRMSG`) before the three effects run. -/
def native_config_remove (k : build_consts) (f : io_faults) (w : world) (name : String) :
    remove_result × world :=
  match get_network_by_name w.g_store name with
  | (none, msg) => (⟨-1, none, msg⟩, w)
  | (some network, _) =>
    if has_connected_container network then
      (⟨-1, none, some ("network " ++ network.conflist.list.name ++ " has connected containers")⟩,
        w)
    else
      let step1 := remove_driver_step f w network.conflist.list none
      let step2 := remove_file_step k f step1.2 network.conflist.list.name step1.1
      let step3 := remove_entry_step step1.2.g_store network.conflist.list.name step2.1
      (⟨0, some name, step3.1⟩,
        ⟨step3.2, step2.2, step1.2.dirs, step1.2.interface_names, step1.2.host_net_ip⟩)

/-! ## Attach and detach -/

/-- Mirror of `struct attach_net_conf`: one entry of `extral_nets`. -/
structure attach_net_conf where
  name : Option String
  interface : Option String
  deriving DecidableEq, Repr

/-- Mirror of `network_api_conf`. -/
structure network_api_conf where
  pod_id : String
  netns_path : String
  args : List (String × String)
  annotations : Option (List (String × String))
  extral_nets : List attach_net_conf
  deriving DecidableEq, Repr

/-- Mirror of `struct cni_manager`, what is handed to the CNI invoker. -/
structure cni_manager where
  id : String
  netns_path : String
  cni_args : List (String × String)
  ifname : String
  annotations : Option (List (String × String))
  deriving DecidableEq, Repr

/-- Mirror of `struct network_api_result`: a CNI result tagged with the
network name and the interface; the result itself is kept as text. -/
structure network_api_result where
  name : String
  interface : String
  result : String
  deriving DecidableEq, Repr

/-- The external CNI invoker (`cni_operate.h`), outside the adaptor: the four
operations the adaptor calls. The operations on a network plane answer with a
status and a result (`NULL` is `none`); their first argument is the index of
the entry of `extral_nets` being processed, so that every call of one
traversal may answer on its own. -/
structure cni_invoker where
  attach_loopback : String → String → Int
  detach_loopback : String → String → Int
  attach_network_plane : Nat → cni_manager → cni_network_list_conf → Int × Option String
  detach_network_plane : Nat → cni_manager → cni_network_list_conf → Int × Option String

/-- Outcome of `do_foreach_network_op`: the status, the accumulated results,
the error message set, and the managers handed to the invoker, in order. -/
structure foreach_result where
  ret : Int
  list : List network_api_result
  message : Option String
  calls : List cni_manager
  deriving DecidableEq, Repr

/-- The loop of `do_foreach_network_op` (adaptor_native.c:2012-2061) from the
entry of index `i` on; `use_annotations` is the flag of the source. The
conversion of a CNI result into an API result (`network_parse_to_api_result`)
is taken to succeed. -/
def do_foreach_network_op_loop (store : native_store) (conf : network_api_conf)
    (ignore_nofound : Bool)
    (op : Nat → cni_manager → cni_network_list_conf → Int × Option String) :
    List attach_net_conf → Nat → Bool → List network_api_result → List cni_manager →
      foreach_result
  | [], _, _, list, calls => ⟨0, list, none, calls⟩
  | e :: rest, i, use_annotations, list, calls =>
    match e.name, e.interface with
    | some name, some interface =>
      match map_search store.name_to_network name with
      | none =>
        if ignore_nofound then
          do_foreach_network_op_loop store conf ignore_nofound op rest (i + 1) use_annotations
            list calls
        else ⟨-1, list, some ("Cannot found net: " ++ name), calls⟩
      | some network =>
        let manager : cni_manager :=
          ⟨conf.pod_id, conf.netns_path, conf.args, interface,
            if !use_annotations then conf.annotations else none⟩
        let r := op i manager network.conflist
        if r.1 ≠ 0 then ⟨-1, list, none, calls ++ [manager]⟩
        else
          let list :=
            match r.2 with
            | none => list
            | some cni_result => list ++ [⟨name, interface, cni_result⟩]
          do_foreach_network_op_loop store conf ignore_nofound op rest (i + 1) true list
            (calls ++ [manager])
    | _, _ =>
      do_foreach_network_op_loop store conf ignore_nofound op rest (i + 1) use_annotations
        list calls

/-- Source: `do_foreach_network_op` (adaptor_native.c:1997). -/
def do_foreach_network_op (store : native_store) (conf : network_api_conf)
    (ignore_nofound : Bool)
    (op : Nat → cni_manager → cni_network_list_conf → Int × Option String) : foreach_result :=
  do_foreach_network_op_loop store conf ignore_nofound op conf.extral_nets 0 false [] []

/-- The record stored under `key`, changed by `g` (the object that
`map_search` returns is updated in place). -/
def map_modify (m : List (String × native_network)) (key : String)
    (g : native_network → native_network) : List (String × native_network) :=
  match m with
  | [] => []
  | (k, v) :: rest => if k = key then (k, g v) :: rest else (k, v) :: map_modify rest key g

/-- Source: `do_add_container_list` (adaptor_native.c:2068). A `NULL` name is
not a key of the map. -/
def do_add_container_list (store : native_store) (network_name : Option String)
    (cont_id : String) : Int × native_store :=
  match network_name with
  | none => (-1, store)
  | some name =>
    match map_search store.name_to_network name with
    | none => (-1, store)
    | some _ =>
      (0, ⟨map_modify store.name_to_network name
          (fun network => ⟨network.conflist, network.containers_list ++ [cont_id]⟩),
        store.network_len, store.conf_dir, store.bin_paths⟩)

/-- The loop of `native_attach_networks` over `extral_nets`
(adaptor_native.c:2129-2135). -/
def add_container_loop (cont_id : String) : native_store → List attach_net_conf →
    Int × native_store
  | store, [] => (0, store)
  | store, e :: rest =>
    let r := do_add_container_list store e.name cont_id
    if r.1 ≠ 0 then (r.1, r.2) else add_container_loop cont_id r.2 rest

/-- What an attach or detach call hands back. -/
structure attach_result where
  ret : Int
  result : List network_api_result
  message : Option String
  calls : List cni_manager
  deriving DecidableEq, Repr

/-- Source: `native_attach_networks` (adaptor_native.c:2098). -/
def native_attach_networks (inv : cni_invoker) (w : world) (conf : network_api_conf) :
    attach_result × world :=
  if w.g_store.network_len = 0 then (⟨0, [], none, []⟩, w)
  else
    let lo := inv.attach_loopback conf.pod_id conf.netns_path
    if lo ≠ 0 then (⟨lo, [], none, []⟩, w)
    else
      let r := do_foreach_network_op w.g_store conf false inv.attach_network_plane
      if r.ret ≠ 0 then (⟨r.ret, r.list, r.message, r.calls⟩, w)
      else
        let added := add_container_loop conf.pod_id w.g_store conf.extral_nets
        (⟨added.1, r.list, r.message, r.calls⟩,
          ⟨added.2, w.files, w.dirs, w.interface_names, w.host_net_ip⟩)

/-- Source: `do_remove_container_list` (adaptor_native.c:2142): the first
entry equal to `cont_id` leaves the list of the record. -/
def do_remove_container_list (store : native_store) (network_name : Option String)
    (cont_id : String) : native_store :=
  match network_name with
  | none => store
  | some name =>
    match map_search store.name_to_network name with
    | none => store
    | some _ =>
      ⟨map_modify store.name_to_network name
          (fun network => ⟨network.conflist, network.containers_list.erase cont_id⟩),
        store.network_len, store.conf_dir, store.bin_paths⟩

/-- The loop at `unlock:` of `native_detach_networks`
(adaptor_native.c:2209-2211). -/
def remove_container_loop (cont_id : String) : native_store → List attach_net_conf →
    native_store
  | store, [] => store
  | store, e :: rest =>
    remove_container_loop cont_id (do_remove_container_list store e.name cont_id) rest

/-- Source: `native_detach_networks` (adaptor_native.c:2176). -/
def native_detach_networks (inv : cni_invoker) (w : world) (conf : network_api_conf) :
    attach_result × world :=
  let outcome : attach_result :=
    if w.g_store.network_len = 0 then ⟨-1, [], none, []⟩
    else
      let lo := inv.detach_loopback conf.pod_id conf.netns_path
      if lo ≠ 0 then ⟨lo, [], none, []⟩
      else
        let r := do_foreach_network_op w.g_store conf true inv.detach_network_plane
        ⟨r.ret, r.list, r.message, r.calls⟩
  (outcome,
    ⟨remove_container_loop conf.pod_id w.g_store conf.extral_nets, w.files, w.dirs,
      w.interface_names, w.host_net_ip⟩)

/-- An invoker whose every call succeeds, for the concrete runs of the
examples. -/
def sample_invoker : cni_invoker :=
  ⟨fun _ _ => 0, fun _ _ => 0, fun _ _ _ => (0, some "ok"), fun _ _ _ => (0, none)⟩

/-- The keys of the map are the names of the conflists stored under them. -/
def keys_are_names (store : native_store) : Prop :=
  ∀ kv ∈ store.name_to_network, kv.1 = kv.2.conflist.list.name

instance (store : native_store) : Decidable (keys_are_names store) := by
  unfold keys_are_names
  infer_instance

/-! ## Init, the state machine, string joining -/

/-- Source: `is_native_config_file` (adaptor_native.c:276): the file name
begins with the native prefix. -/
def is_native_config_file (k : build_consts) (filename : String) : Bool :=
  k.ISULAD_CNI_NETWORK_CONF_FILE_PRE.data.isPrefixOf filename.data

/-- Modelled from the spec: `get_net_conflist_from_dir` of the CNI library,
the scan of the configuration directory (section 4.7, "Load"). The directory
is given as its files in scan order, each with the conflist its content
parses to (`none` when it does not parse). Files without the native prefix
are ignored; more than `max_count` files (`MAX_NETWORK_CONFIG_FILE_COUNT`) is
a failure. -/
def get_net_conflist_from_dir (k : build_consts) (max_count : Nat)
    (dir : List (String × Option cni_network_list_conf)) :
    Option (List (Option cni_network_list_conf)) :=
  let native := dir.filter (fun entry => is_native_config_file k entry.1)
  if native.length > max_count then none else some (native.map (fun entry => entry.2))

/-- The loop of `load_store_map` (adaptor_native.c:351-374). -/
def load_store_map_loop : native_store → List (Option cni_network_list_conf) → native_store
  | store, [] => store
  | store, none :: rest => load_store_map_loop store rest
  | store, some conflist :: rest =>
    if (map_search store.name_to_network conflist.list.name).isSome then
      load_store_map_loop store rest
    else load_store_map_loop (native_store_add_network store conflist) rest

/-- Source: `load_store_map` (adaptor_native.c:331), on the answer of the
directory scan (`none` when the scan fails). -/
def load_store_map (store : native_store) (scan : Option (List (Option cni_network_list_conf))) :
    Int × native_store :=
  match scan with
  | none => (-1, store)
  | some tmp => (0, load_store_map_loop store tmp)

/-- Source: `native_init` (adaptor_native.c:391), from the zeroed `g_store`
(`static native_store g_store = { 0 }`, and what `native_destory` leaves):
a new map, the load, then the directory and the search paths; on a failed
load the store is destroyed again. -/
def native_init (k : build_consts) (max_count : Nat) (conf_dir : String)
    (bin_paths : List String) (dir : List (String × Option cni_network_list_conf)) :
    Int × native_store :=
  let loaded := load_store_map ⟨[], 0, "", []⟩ (get_net_conflist_from_dir k max_count dir)
  if loaded.1 ≠ 0 then (loaded.1, ⟨[], 0, "", []⟩)
  else (0, ⟨loaded.2.name_to_network, loaded.2.network_len, conf_dir, bin_paths⟩)

/-- Source: `native_ready` (adaptor_native.c:431). -/
def native_ready (w : world) : Bool :=
  decide (w.g_store.network_len > 0)

/-- One step of the life of the adaptor after init: a public call, or a
change of the host made by someone else (files, directories, interfaces,
addresses). -/
inductive native_call where
  | create (f : io_faults) (request : network_create_request)
  | remove (f : io_faults) (name : String)
  | attach (inv : cni_invoker) (conf : network_api_conf)
  | detach (inv : cni_invoker) (conf : network_api_conf)
  | environment (files dirs : List String) (interface_names host_net_ip : Option (List String))

/-- The process state after one step. -/
def native_step (k : build_consts) (w : world) : native_call → world
  | native_call.create f request => (native_config_create k f w request).2
  | native_call.remove f name => (native_config_remove k f w name).2
  | native_call.attach inv conf => (native_attach_networks inv w conf).2
  | native_call.detach inv conf => (native_detach_networks inv w conf).2
  | native_call.environment files dirs interface_names host_net_ip =>
    ⟨w.g_store, files, dirs, interface_names, host_net_ip⟩

/-- The process state after a run of steps, one after another. -/
def native_run (k : build_consts) (w : world) (calls : List native_call) : world :=
  calls.foldl (native_step k) w

/-- The store is well formed: keys are the conflist names, the counter is the
number of entries, and no key occurs twice. -/
def store_wf (store : native_store) : Prop :=
  keys_are_names store ∧ store.network_len = store.name_to_network.length ∧
    (store.name_to_network.map (fun kv => kv.1)).Nodup

/-- Source: `CXXUtils::StringsJoin` (cxxutils.cc:46): `std::accumulate` from
the empty string with `a + (a.length() > 0 ? sep : "") + b`. -/
def StringsJoin (vec : List String) (sep : String) : String :=
  vec.foldl (fun a b => a ++ (if a.length > 0 then sep else "") ++ b) ""

/-- The candidates produced by `n` rounds of `find_private_network`, each
round fed with the candidate of the round before (`subnet` at first). -/
def private_network_walk : Nat → Option String → List String
  | 0, _ => []
  | n + 1, subnet =>
    match find_private_network subnet with
    | none => []
    | some nx_subnet => nx_subnet :: private_network_walk n (some nx_subnet)

/-- The number of entries of `extral_nets` that name the network `X`. -/
def extras_naming (X : String) (extras : List attach_net_conf) : Nat :=
  (extras.filter (fun e => e.name = some X)).length

/-- The entries of `extral_nets` for which the traversal calls the invoker:
name and interface present and the network in the map. -/
def processed_extras (store : native_store) (extras : List attach_net_conf) :
    List attach_net_conf :=
  extras.filter (fun e =>
    match e.name, e.interface with
    | some name, some _ => (map_search store.name_to_network name).isSome
    | _, _ => false)

/-- The stem of a conflist file name: what stands between the native prefix
and the suffix `.conflist`, when the file name has both. -/
def conflist_file_stem (k : build_consts) (filename : String) : Option String :=
  let pre := k.ISULAD_CNI_NETWORK_CONF_FILE_PRE.data
  let suffix := ".conflist".data
  if pre.isPrefixOf filename.data ∧ suffix.isSuffixOf (filename.data.drop pre.length) then
    some (String.mk ((filename.data.drop pre.length).take
      (filename.data.length - pre.length - suffix.length)))
  else none

/-- A conflist with the given name and no plugin, for the concrete runs. -/
def sample_conflist (name : String) : cni_network_list_conf :=
  ⟨⟨"0.4.0", name, []⟩, none⟩

/-- A directory with one conflist file, for the concrete runs. -/
def sample_dir : List (String × Option cni_network_list_conf) :=
  [("isulad-net1.conflist", some (sample_conflist "net1")), ("README", none)]

/-- A run of public calls, for the concrete runs: a network is created, a
container attached to the loaded network and detached again, and the created
network removed. -/
def sample_calls : List native_call :=
  [native_call.create no_faults ⟨some "net2", none, none, none, false⟩,
    native_call.attach sample_invoker
      ⟨"c1", "/proc/1/ns/net", [], none, [⟨some "net1", some "eth0"⟩]⟩,
    native_call.detach sample_invoker
      ⟨"c1", "/proc/1/ns/net", [], none, [⟨some "net1", some "eth0"⟩]⟩,
    native_call.remove no_faults "net2"]

/-- The managers a traversal hands to the invoker when it calls it for each
of `extras` in turn: the interface of the entry, and the annotations of the
request for the first call only (`use_annotations` tells that a call was made
before). -/
def expected_managers (conf : network_api_conf) : Bool → List attach_net_conf → List cni_manager
  | _, [] => []
  | use_annotations, e :: rest =>
    ⟨conf.pod_id, conf.netns_path, conf.args, e.interface.getD "",
        if !use_annotations then conf.annotations else none⟩ ::
      expected_managers conf true rest

/-- A state with two networks, the first with a container attached, for the
concrete runs. -/
def sample_world : world :=
  ⟨⟨[("net1", ⟨sample_conflist "net1", ["c0"]⟩), ("net2", ⟨sample_conflist "net2", []⟩)], 2,
    "/etc/cni/net.d", ["/opt/cni/bin"]⟩, [], ["/etc/cni/net.d"], some ["lo"], some ["127.0.0.1"]⟩

/-- A request that names the first network twice and the second once, for the
concrete runs. -/
def sample_attach_conf : network_api_conf :=
  ⟨"c1", "/proc/1/ns/net", [], some [("bandwidth", "1000")],
    [⟨some "net1", some "eth0"⟩, ⟨some "net2", some "eth1"⟩, ⟨some "net1", some "eth2"⟩]⟩

/-! ## Lock events -/

/-- What a call does with the two kinds of reader-writer lock, in program
order: `native_store_lock` / `native_store_unlock` on the store,
`native_network_lock` / `native_network_unlock` on the record stored under a
name, an access to the container list of a record (`write` when it changes
the list), and a call of the CNI invoker. `exclusive` is the lock type
`EXCLUSIVE`, otherwise `SHARED`. -/
inductive lock_event where
  | store_lock (exclusive : Bool)
  | store_unlock
  | network_lock (exclusive : Bool) (name : String)
  | list_access (write : Bool) (name : String)
  | network_unlock (name : String)
  | cni_call
  deriving DecidableEq, Repr

/-- Source: `get_cni_config` (adaptor_native.c:515-552): the store lock is
taken shared and released at `out:`. -/
def get_cni_config_events : List lock_event :=
  [lock_event.store_lock false, lock_event.store_unlock]

/-- Source: `native_ready` (adaptor_native.c:435-441). -/
def native_ready_events : List lock_event :=
  [lock_event.store_lock false, lock_event.store_unlock]

/-- Source: `check_bridge` (adaptor_native.c:763): one `get_cni_config` for
the names when a name is requested, one for the subnets when the name is free
and a subnet is requested. -/
def check_bridge_events (w : world) (request : network_create_request) : List lock_event :=
  match request.name with
  | none =>
    match request.subnet with
    | none => []
    | some _ => get_cni_config_events
  | some name =>
    if util_string_array_contain (get_cni_config w.g_store get_config_net_name) name then
      get_cni_config_events
    else
      match request.subnet with
      | none => get_cni_config_events
      | some _ => get_cni_config_events ++ get_cni_config_events

/-- Source: `find_bridge_name` (adaptor_native.c:823-831): `get_cni_config`
for the names, then for the bridge names. -/
def find_bridge_name_events : List lock_event :=
  get_cni_config_events ++ get_cni_config_events

/-- Source: `find_subnet` (adaptor_native.c:928). -/
def find_subnet_events : List lock_event :=
  get_cni_config_events

/-- Source: `conf_bridge_plugin` (adaptor_native.c:1109) with
`conf_bridge_plugin_ipam` (adaptor_native.c:1009): `find_bridge_name`, then
`find_subnet` when a bridge name was found and no subnet is requested. The
builders of the other plugins take no lock. -/
def conf_bridge_events (w : world) (request : network_create_request) : List lock_event :=
  match (find_bridge_name_in w).value with
  | none => find_bridge_name_events
  | some _ =>
    match request.subnet with
    | some _ => find_bridge_name_events
    | none => find_bridge_name_events ++ find_subnet_events

/-- Source: `native_config_create` (adaptor_native.c:1406): the check, the
build, and, once the file is written, the store lock taken exclusive around
`native_store_add_network` (adaptor_native.c:1472-1479). -/
def native_config_create_events (k : build_consts) (f : io_faults) (w : world)
    (request : network_create_request) : List lock_event :=
  match get_ops_by_driver request.driver with
  | none => []
  | some pnet =>
    if pnet.driver ≠ "bridge" then []
    else
      match pnet.ops.check, pnet.ops.conf with
      | some check, some conf =>
        if (check k w request).1 ≠ 0 then check_bridge_events w request
        else
          match (conf k w request).list with
          | none => check_bridge_events w request ++ conf_bridge_events w request
          | some list =>
            if (create_conflist_file k f w ⟨list, none⟩).1 ≠ 0 then
              check_bridge_events w request ++ conf_bridge_events w request
            else
              check_bridge_events w request ++ conf_bridge_events w request ++
                [lock_event.store_lock true, lock_event.store_unlock]
      | _, _ => []

/-- Source: `native_config_inspect` (adaptor_native.c:1514-1548). -/
def native_config_inspect_events : List lock_event :=
  [lock_event.store_lock false, lock_event.store_unlock]

/-- Source: `native_config_list` (adaptor_native.c:1639-1699). -/
def native_config_list_events : List lock_event :=
  [lock_event.store_lock false, lock_event.store_unlock]

/-- Source: `native_network_exist` (adaptor_native.c:2226-2234). -/
def native_network_exist_events : List lock_event :=
  [lock_event.store_lock false, lock_event.store_unlock]

/-- Source: `has_connected_container` (adaptor_native.c:1751-1774): the
record lock taken shared around the look at the container list. -/
def has_connected_container_events (network : native_network) : List lock_event :=
  [lock_event.network_lock false network.conflist.list.name,
    lock_event.list_access false network.conflist.list.name,
    lock_event.network_unlock network.conflist.list.name]

/-- Source: `native_config_remove` (adaptor_native.c:1917-1969): the store
lock taken exclusive for the whole call, `has_connected_container` on the
record found. -/
def native_config_remove_events (w : world) (name : String) : List lock_event :=
  match (get_network_by_name w.g_store name).1 with
  | none => [lock_event.store_lock true, lock_event.store_unlock]
  | some network =>
    [lock_event.store_lock true] ++ has_connected_container_events network ++
      [lock_event.store_unlock]

/-- Source: `do_add_container_list` (adaptor_native.c:2088-2093): the record
lock taken exclusive around `linked_list_add_tail`, when the record is
found. -/
def do_add_container_list_events (store : native_store) (network_name : Option String) :
    List lock_event :=
  match network_name with
  | none => []
  | some name =>
    match map_search store.name_to_network name with
    | none => []
    | some _ =>
      [lock_event.network_lock true name, lock_event.list_access true name,
        lock_event.network_unlock name]

/-- The events of the loop of `native_attach_networks` over `extral_nets`
(adaptor_native.c:2129-2135), which ends at the first failure. -/
def add_container_loop_events (cont_id : String) : native_store → List attach_net_conf →
    List lock_event
  | _, [] => []
  | store, e :: rest =>
    let r := do_add_container_list store e.name cont_id
    if r.1 ≠ 0 then do_add_container_list_events store e.name
    else do_add_container_list_events store e.name ++ add_container_loop_events cont_id r.2 rest

/-- Source: `do_remove_container_list` (adaptor_native.c:2155-2173): the
record lock taken exclusive around the walk that unlinks the first match,
when the record is found. -/
def do_remove_container_list_events (store : native_store) (network_name : Option String) :
    List lock_event :=
  match network_name with
  | none => []
  | some name =>
    match map_search store.name_to_network name with
    | none => []
    | some _ =>
      [lock_event.network_lock true name, lock_event.list_access true name,
        lock_event.network_unlock name]

/-- The events of the loop at `unlock:` of `native_detach_networks`
(adaptor_native.c:2209-2211). -/
def remove_container_loop_events (cont_id : String) : native_store → List attach_net_conf →
    List lock_event
  | _, [] => []
  | store, e :: rest =>
    do_remove_container_list_events store e.name ++
      remove_container_loop_events cont_id (do_remove_container_list store e.name cont_id) rest

/-- Source: `do_foreach_network_op` (adaptor_native.c:1997): one call of the
invoker for each manager it hands out; it takes no lock. -/
def do_foreach_network_op_events (store : native_store) (conf : network_api_conf)
    (ignore_nofound : Bool)
    (op : Nat → cni_manager → cni_network_list_conf → Int × Option String) : List lock_event :=
  (do_foreach_network_op store conf ignore_nofound op).calls.map (fun _ => lock_event.cni_call)

/-- Source: `native_attach_networks` (adaptor_native.c:2107-2138). -/
def native_attach_networks_events (inv : cni_invoker) (w : world) (conf : network_api_conf) :
    List lock_event :=
  let body : List lock_event :=
    if w.g_store.network_len = 0 then []
    else if inv.attach_loopback conf.pod_id conf.netns_path ≠ 0 then [lock_event.cni_call]
    else if (do_foreach_network_op w.g_store conf false inv.attach_network_plane).ret ≠ 0 then
      lock_event.cni_call ::
        do_foreach_network_op_events w.g_store conf false inv.attach_network_plane
    else
      lock_event.cni_call ::
        do_foreach_network_op_events w.g_store conf false inv.attach_network_plane ++
          add_container_loop_events conf.pod_id w.g_store conf.extral_nets
  lock_event.store_lock false :: body ++ [lock_event.store_unlock]

/-- Source: `native_detach_networks` (adaptor_native.c:2186-2213). -/
def native_detach_networks_events (inv : cni_invoker) (w : world) (conf : network_api_conf) :
    List lock_event :=
  let body : List lock_event :=
    if w.g_store.network_len = 0 then []
    else if inv.detach_loopback conf.pod_id conf.netns_path ≠ 0 then [lock_event.cni_call]
    else
      lock_event.cni_call ::
        do_foreach_network_op_events w.g_store conf true inv.detach_network_plane
  lock_event.store_lock false :: body ++
    remove_container_loop_events conf.pod_id w.g_store conf.extral_nets ++
      [lock_event.store_unlock]

/-- Source: `native_network_add_container_list` (adaptor_native.c:2246-2252). -/
def native_network_add_container_list_events (w : world) (network_name : String) :
    List lock_event :=
  lock_event.store_lock false :: do_add_container_list_events w.g_store (some network_name) ++
    [lock_event.store_unlock]

/-- The locks one thread holds: whether it holds the store lock, and the
record lock it holds, with its mode. -/
structure lock_state where
  store_held : Bool
  network_held : Option (Bool × String)
  deriving DecidableEq, Repr

/-- One event checked against the lock discipline; `none` when the event
breaks it. The store lock may be taken only while no record lock is held; a
record lock only while the store lock is held and no record lock is held; a
container list is looked at only under the lock of its record, and changed
only under that lock held exclusive; the invoker is called only while no
record lock is held. -/
def lock_discipline_step (s : lock_state) : lock_event → Option lock_state
  | lock_event.store_lock _ =>
    if s.network_held.isSome then none else some ⟨true, s.network_held⟩
  | lock_event.store_unlock => some ⟨false, s.network_held⟩
  | lock_event.network_lock exclusive name =>
    if s.store_held ∧ s.network_held = none then some ⟨s.store_held, some (exclusive, name)⟩
    else none
  | lock_event.list_access write name =>
    match s.network_held with
    | some (exclusive, held) =>
      if held = name ∧ (write = true → exclusive = true) then some s else none
    | none => none
  | lock_event.network_unlock name =>
    match s.network_held with
    | some (_, held) => if held = name then some ⟨s.store_held, none⟩ else none
    | none => none
  | lock_event.cni_call => if s.network_held.isSome then none else some s

/-- A run of events checked against the lock discipline, from the state `s`:
the state after it, `none` when some event breaks the discipline. -/
def lock_discipline_run : lock_state → List lock_event → Option lock_state
  | s, [] => some s
  | s, e :: rest =>
    match lock_discipline_step s e with
    | none => none
    | some s1 => lock_discipline_run s1 rest

/-- The events of one change of the container list of the record stored
under `name`: its lock taken exclusive, the change, the lock released. -/
def locked_list_change (name : String) : List lock_event :=
  [lock_event.network_lock true name, lock_event.list_access true name,
    lock_event.network_unlock name]

/-- Source: `native_destory` (adaptor_native.c:258-274): the store lock is
taken exclusive and not released. -/
def native_destory_events : List lock_event :=
  [lock_event.store_lock true]

/-! ## Theorems -/

/-! ### Conflict engine -/

theorem bytes_and_length (a b : List Nat) : (bytes_and a b).length = min a.length b.length := by
  simp [bytes_and]

theorem net_conflict_zero_or_one (a b : ipnet) : net_conflict a b = 0 ∨ net_conflict a b = 1 := by
  unfold net_conflict
  split
  · exact Or.inl rfl
  · dsimp only
    split
    · exact Or.inr rfl
    · exact Or.inl rfl

theorem contain_false_of_length (net : ipnet) (ip : List Nat) (c : Bool)
    (h : net.ip.length ≠ ip.length) : util_net_contain_ip net ip c = false := by
  simp [util_net_contain_ip, h]

/-- C2: for two well-formed networks (mask as long as the address, as every
parsed network is), `net_conflict a b` is 1 exactly when `a` contains the base
address of `b` or `b` contains the base address of `a`, boundaries included;
it is 0 otherwise, and it is 0 whenever the address lengths differ. -/
theorem net_conflict_iff_base_contained (a b : ipnet)
    (ha : a.ip_mask.length = a.ip.length) (hb : b.ip_mask.length = b.ip.length) :
    (net_conflict a b = 1 ↔
      (util_net_contain_ip a (network_address b) true = true ∨
        util_net_contain_ip b (network_address a) true = true)) ∧
    (net_conflict a b = 0 ∨ net_conflict a b = 1) ∧
    (a.ip.length ≠ b.ip.length → net_conflict a b = 0) := by
  refine ⟨?_, net_conflict_zero_or_one a b, ?_⟩
  · by_cases hlen : a.ip.length = b.ip.length
    · have hm : a.ip_mask.length = b.ip_mask.length := by omega
      cases h1 : util_net_contain_ip a (bytes_and b.ip b.ip_mask) true <;>
        cases h2 : util_net_contain_ip b (bytes_and a.ip a.ip_mask) true <;>
        simp [net_conflict, hlen, hm, network_address, h1, h2]
    · have h1 : util_net_contain_ip a (network_address b) true = false :=
        contain_false_of_length _ _ _ (by simp [network_address, bytes_and_length, hb, hlen])
      have h2 : util_net_contain_ip b (network_address a) true = false :=
        contain_false_of_length _ _ _ (by
          simp only [network_address, bytes_and_length, ha, min_self]
          exact fun h => hlen h.symm)
      simp [net_conflict, hlen, h1, h2]
  · intro hlen
    simp [net_conflict, hlen]

/-- C2, at a concrete pair: 10.0.0.0/16 and 10.0.1.0/24 conflict. -/
theorem net_conflict_iff_base_contained_witness :
    (net_conflict ⟨[10, 0, 0, 0], [255, 255, 0, 0]⟩ ⟨[10, 0, 1, 0], [255, 255, 255, 0]⟩ = 1 ↔
      (util_net_contain_ip ⟨[10, 0, 0, 0], [255, 255, 0, 0]⟩
          (network_address ⟨[10, 0, 1, 0], [255, 255, 255, 0]⟩) true = true ∨
        util_net_contain_ip ⟨[10, 0, 1, 0], [255, 255, 255, 0]⟩
          (network_address ⟨[10, 0, 0, 0], [255, 255, 0, 0]⟩) true = true)) ∧
    (net_conflict ⟨[10, 0, 0, 0], [255, 255, 0, 0]⟩ ⟨[10, 0, 1, 0], [255, 255, 255, 0]⟩ = 0 ∨
      net_conflict ⟨[10, 0, 0, 0], [255, 255, 0, 0]⟩ ⟨[10, 0, 1, 0], [255, 255, 255, 0]⟩ = 1) ∧
    ((4 : Nat) ≠ 4 →
      net_conflict ⟨[10, 0, 0, 0], [255, 255, 0, 0]⟩ ⟨[10, 0, 1, 0], [255, 255, 255, 0]⟩ = 0) :=
  net_conflict_iff_base_contained ⟨[10, 0, 0, 0], [255, 255, 0, 0]⟩
    ⟨[10, 0, 1, 0], [255, 255, 255, 0]⟩ rfl rfl

theorem check_subnets_loop_zero_or_one (net : ipnet) (l : List String) :
    check_subnets_loop net l = 0 ∨ check_subnets_loop net l = 1 := by
  induction l with
  | nil => exact Or.inl rfl
  | cons s rest ih =>
    unfold check_subnets_loop
    split
    · exact ih
    · rename_i tmp _
      dsimp only
      split
      · rcases net_conflict_zero_or_one tmp net with h | h
        · contradiction
        · exact Or.inr h
      · exact ih

theorem check_subnets_loop_eq_one_iff (net : ipnet) (l : List String) :
    check_subnets_loop net l = 1 ↔
      ∃ s ∈ l, ∃ tmp, util_parse_ipnet_from_str s = some tmp ∧ net_conflict tmp net = 1 := by
  induction l with
  | nil => simp [check_subnets_loop]
  | cons s rest ih =>
    unfold check_subnets_loop
    split
    · rename_i hp
      simp [ih, hp]
    · rename_i tmp hp
      dsimp only
      rcases net_conflict_zero_or_one tmp net with h | h
      · simp [h, ih, hp]
      · simp [h, hp]

theorem check_host_ip_loop_zero_or_one (net : ipnet) (l : List String) :
    check_host_ip_loop net l = 0 ∨ check_host_ip_loop net l = 1 := by
  induction l with
  | nil => exact Or.inl rfl
  | cons s rest ih =>
    unfold check_host_ip_loop
    split
    · exact ih
    · split
      · exact ih
      · split
        · exact Or.inr rfl
        · exact ih

theorem check_host_ip_loop_eq_one_iff (net : ipnet) (hn : net.ip.length ≠ 0) (l : List String) :
    check_host_ip_loop net l = 1 ↔
      ∃ h ∈ l, ∃ ip, util_parse_ip_from_str h = some ip ∧
        util_net_contain_ip net ip true = true := by
  induction l with
  | nil => simp [check_host_ip_loop]
  | cons s rest ih =>
    unfold check_host_ip_loop
    split
    · rename_i hp
      simp [ih, hp]
    · rename_i ip hp
      by_cases h0 : ip.length = 0
      · have hc : util_net_contain_ip net ip true = false :=
          contain_false_of_length _ _ _ (by omega)
        simp [h0, ih, hp, hc]
      · by_cases hc : util_net_contain_ip net ip true = true
        · simp [h0, hc, hp]
        · simp [h0, hc, hp, ih]

theorem check_subnets_loop_filter (net : ipnet) (l : List String) :
    check_subnets_loop net (l.filter (fun s => (util_parse_ipnet_from_str s).isSome)) =
      check_subnets_loop net l := by
  induction l with
  | nil => rfl
  | cons s rest ih =>
    cases hp : util_parse_ipnet_from_str s with
    | none => simp [List.filter, hp, check_subnets_loop, ih]
    | some tmp => simp [List.filter, hp, check_subnets_loop, ih]


theorem parse_ipv4_chars_length (cs : List Char) (ip : List Nat)
    (h : parse_ipv4_chars cs = some ip) : ip.length = 4 := by
  unfold parse_ipv4_chars at h
  split at h
  · split at h
    · cases h
      rfl
    · cases h
  · cases h

theorem cidr_mask_length (p len : Nat) : (cidr_mask p len).length = len := by
  simp [cidr_mask]

theorem parse_ipnet_length (s : String) (net : ipnet)
    (h : util_parse_ipnet_from_str s = some net) :
    net.ip.length = 4 ∧ net.ip_mask.length = 4 := by
  unfold util_parse_ipnet_from_str at h
  split at h
  · split at h
    · rename_i ip p hip _
      split at h
      · cases h
        have := parse_ipv4_chars_length _ _ hip
        simp [cidr_mask_length, this]
      · cases h
    · cases h
  · cases h

/-- C1: for a candidate that parses, `check_subnet_available` returns 1 exactly
when some stored entry that parses conflicts with the candidate
(`net_conflict`) or some host address that parses lies inside the candidate,
boundaries included, and returns 0 otherwise; dropping the stored entries that
do not parse never changes the result; the two documented examples give 1. -/
theorem check_subnet_available_iff_conflict (subnet : String) (net : ipnet)
    (subnets host_ip : List String) (hnet : util_parse_ipnet_from_str subnet = some net) :
    (check_subnet_available subnet subnets host_ip = 1 ↔
      ((∃ s ∈ subnets, ∃ tmp, util_parse_ipnet_from_str s = some tmp ∧ net_conflict tmp net = 1) ∨
        (∃ h ∈ host_ip, ∃ ip, util_parse_ip_from_str h = some ip ∧
          util_net_contain_ip net ip true = true))) ∧
    (check_subnet_available subnet subnets host_ip = 0 ∨
      check_subnet_available subnet subnets host_ip = 1) ∧
    check_subnet_available subnet
        (subnets.filter (fun s => (util_parse_ipnet_from_str s).isSome)) host_ip =
      check_subnet_available subnet subnets host_ip ∧
    check_subnet_available "10.0.1.0/24" ["10.0.0.0/16"] [] = 1 ∧
    check_subnet_available "10.0.1.0/24" [] ["10.0.1.1"] = 1 := by
  have hn : net.ip.length ≠ 0 := by
    have := (parse_ipnet_length subnet net hnet).1
    omega
  refine ⟨?_, ?_, ?_, by decide, by decide⟩
  · simp only [check_subnet_available, hnet]
    rcases check_subnets_loop_zero_or_one net subnets with h | h
    · have h' := (check_subnets_loop_eq_one_iff net subnets).not.mp (by omega)
      simp only [h, ne_eq, not_true_eq_false, if_false]
      rw [check_host_ip_loop_eq_one_iff net hn]
      constructor
      · intro hh
        exact Or.inr hh
      · rintro (hs | hh)
        · exact absurd hs h'
        · exact hh
    · have h' := (check_subnets_loop_eq_one_iff net subnets).mp h
      simp only [h]
      constructor
      · intro _
        exact Or.inl h'
      · intro _
        rfl
  · simp only [check_subnet_available, hnet]
    rcases check_subnets_loop_zero_or_one net subnets with h | h
    · simp only [h, ne_eq, not_true_eq_false, if_false]
      exact check_host_ip_loop_zero_or_one net host_ip
    · simp [h]
  · simp only [check_subnet_available, hnet, check_subnets_loop_filter]

/-- C1, at the documented example: candidate 10.0.1.0/24 against the stored
10.0.0.0/16. -/
theorem check_subnet_available_iff_conflict_witness :
    check_subnet_available "10.0.1.0/24" ["10.0.0.0/16"] [] = 1 ↔
      ((∃ s ∈ ["10.0.0.0/16"], ∃ tmp, util_parse_ipnet_from_str s = some tmp ∧
          net_conflict tmp ⟨[10, 0, 1, 0], [255, 255, 255, 0]⟩ = 1) ∨
        (∃ h ∈ ([] : List String), ∃ ip, util_parse_ip_from_str h = some ip ∧
          util_net_contain_ip ⟨[10, 0, 1, 0], [255, 255, 255, 0]⟩ ip true = true)) :=
  (check_subnet_available_iff_conflict "10.0.1.0/24" ⟨[10, 0, 1, 0], [255, 255, 255, 0]⟩
    ["10.0.0.0/16"] [] (by decide)).1

/-! ### Text of addresses: parsing what was formatted -/

set_option maxRecDepth 100000 in
theorem repr_byte_facts : ∀ n : Fin 256,
    parse_uint (Nat.repr n.val).data = some n.val ∧
      '.' ∉ (Nat.repr n.val).data ∧ '/' ∉ (Nat.repr n.val).data := by
  decide

theorem parse_uint_repr (n : Nat) (h : n < 256) : parse_uint (Nat.repr n).data = some n :=
  (repr_byte_facts ⟨n, h⟩).1

theorem parse_byte_repr (n : Nat) (h : n < 256) : parse_byte (Nat.repr n).data = some n := by
  have h1 : n ≤ 255 := by omega
  simp [parse_byte, parse_uint_repr n h, h1]

theorem dot_not_mem_repr (n : Nat) (h : n < 256) : '.' ∉ (Nat.repr n).data :=
  (repr_byte_facts ⟨n, h⟩).2.1

theorem slash_not_mem_repr (n : Nat) (h : n < 256) : '/' ∉ (Nat.repr n).data :=
  (repr_byte_facts ⟨n, h⟩).2.2

theorem split_on_single (sep : Char) (w : List Char) (h : sep ∉ w) : split_on sep w = [w] := by
  induction w with
  | nil => rfl
  | cons c cs ih =>
    have hc : c ≠ sep := fun e => h (by simp [e])
    have hcs : sep ∉ cs := fun e => h (by simp [e])
    simp [split_on, hc, ih hcs]

theorem split_on_append (sep : Char) (w rest : List Char) (h : sep ∉ w) :
    split_on sep (w ++ sep :: rest) = w :: split_on sep rest := by
  induction w with
  | nil => simp [split_on]
  | cons c cs ih =>
    have hc : c ≠ sep := fun e => h (by simp [e])
    have hcs : sep ∉ cs := fun e => h (by simp [e])
    simp [split_on, hc, ih hcs]

theorem span_slash (a rest : List Char) (h : '/' ∉ a) :
    (a ++ '/' :: rest).span (fun c => c != '/') = (a, '/' :: rest) := by
  induction a with
  | nil => simp [List.span, List.span.loop]
  | cons c cs ih =>
    have hc : c ≠ '/' := fun e => h (by simp [e])
    have hcs : '/' ∉ cs := fun e => h (by simp [e])
    have hb : (c != '/') = true := by simp [hc]
    have := ih hcs
    simp only [List.span_eq_take_drop, Prod.mk.injEq] at this
    simp only [List.span_eq_take_drop, List.cons_append, List.takeWhile_cons, List.dropWhile_cons,
      hb, if_true, this.1, this.2]

theorem parse_ipv4_chars_ip_chars (a b c d : Nat) (ha : a < 256) (hb : b < 256) (hc : c < 256)
    (hd : d < 256) : parse_ipv4_chars (ip_chars [a, b, c, d]) = some [a, b, c, d] := by
  simp only [parse_ipv4_chars, ip_chars]
  rw [split_on_append _ _ _ (dot_not_mem_repr a ha), split_on_append _ _ _ (dot_not_mem_repr b hb),
    split_on_append _ _ _ (dot_not_mem_repr c hc), split_on_single _ _ (dot_not_mem_repr d hd)]
  simp [parse_byte_repr, ha, hb, hc, hd]

theorem slash_not_mem_ip_chars (a b c d : Nat) (ha : a < 256) (hb : b < 256) (hc : c < 256)
    (hd : d < 256) : '/' ∉ ip_chars [a, b, c, d] := by
  simp [ip_chars, slash_not_mem_repr, ha, hb, hc, hd]

/-- Text of the CIDR `a.b.c.d/p`. -/
theorem parse_ipnet_of_text (a b c d p : Nat) (ha : a < 256) (hb : b < 256) (hc : c < 256)
    (hd : d < 256) (hp : p ≤ 32) :
    util_parse_ipnet_from_str (String.mk (ip_chars [a, b, c, d] ++ '/' :: (Nat.repr p).data)) =
      some ⟨[a, b, c, d], cidr_mask p 4⟩ := by
  unfold util_parse_ipnet_from_str
  simp only []
  rw [span_slash _ _ (slash_not_mem_ip_chars a b c d ha hb hc hd)]
  simp [parse_ipv4_chars_ip_chars a b c d ha hb hc hd, parse_uint_repr p (by omega), hp]

theorem mask_size_cidr_mask (p : Nat) (hp : p ≤ 32) : mask_size (cidr_mask p 4) = some p := by
  interval_cases p <;> decide

theorem ipnet_to_string_of_bytes (a b c d p : Nat) (hp : p ≤ 32) :
    util_ipnet_to_string ⟨[a, b, c, d], cidr_mask p 4⟩ =
      some (String.mk (ip_chars [a, b, c, d] ++ '/' :: (Nat.repr p).data)) := by
  simp [util_ipnet_to_string, cidr_mask_length, mask_size_cidr_mask p hp]

theorem parse_byte_lt (cs : List Char) (n : Nat) (h : parse_byte cs = some n) : n < 256 := by
  unfold parse_byte at h
  split at h
  · split at h
    · cases h
      omega
    · cases h
  · cases h

theorem parse_ipv4_chars_shape (cs : List Char) (ip : List Nat)
    (h : parse_ipv4_chars cs = some ip) :
    ∃ a b c d, a < 256 ∧ b < 256 ∧ c < 256 ∧ d < 256 ∧ ip = [a, b, c, d] := by
  unfold parse_ipv4_chars at h
  split at h
  · split at h
    · rename_i a b c d ha hb hc hd
      cases h
      exact ⟨a, b, c, d, parse_byte_lt _ _ ha, parse_byte_lt _ _ hb, parse_byte_lt _ _ hc,
        parse_byte_lt _ _ hd, rfl⟩
    · cases h
  · cases h

theorem cidr_mask_four (p : Nat) :
    cidr_mask p 4 = [mask_byte p 0, mask_byte p 1, mask_byte p 2, mask_byte p 3] := rfl

/-- Every parsed network is four bytes with the mask of a prefix length. -/
theorem parse_ipnet_shape (s : String) (net : ipnet)
    (h : util_parse_ipnet_from_str s = some net) :
    ∃ a b c d p, a < 256 ∧ b < 256 ∧ c < 256 ∧ d < 256 ∧ p ≤ 32 ∧
      net = ⟨[a, b, c, d], cidr_mask p 4⟩ := by
  unfold util_parse_ipnet_from_str at h
  split at h
  · split at h
    · rename_i ip p hip _
      obtain ⟨a, b, c, d, ha, hb, hc, hd, rfl⟩ := parse_ipv4_chars_shape _ _ hip
      split at h
      · rename_i hp
        cases h
        exact ⟨a, b, c, d, p, ha, hb, hc, hd, by simpa using hp, rfl⟩
      · cases h
    · cases h
  · cases h

theorem mask_byte_last_mem (p : Nat) (hp : p ≤ 32) :
    mask_byte p 3 ∈ [0, 128, 192, 224, 240, 248, 252, 254, 255] := by
  interval_cases p <;> decide

set_option maxRecDepth 100000 in
theorem gateway_bits : ∀ d : Fin 256, ∀ m ∈ [0, 128, 192, 224, 240, 248, 252, 254],
    ((d.val &&& m) ||| 1) &&& m = d.val &&& m ∧ (d.val &&& m) ||| 1 ≠ d.val &&& m ∧
      (m ≠ 254 → (d.val &&& m) ||| 1 ≠ d.val ||| (255 - m)) := by
  decide

theorem and_byte_lt (a m : Nat) (ha : a < 256) : a &&& m < 256 :=
  lt_of_le_of_lt Nat.and_le_left ha

theorem or_one_byte_lt (a : Nat) (ha : a < 256) : a ||| 1 < 256 :=
  Nat.or_lt_two_pow (n := 8) ha (by norm_num)

theorem first_host_ip_four (a b c d m0 m1 m2 m3 : Nat) :
    first_host_ip ⟨[a, b, c, d], [m0, m1, m2, m3]⟩ =
      [a &&& m0, b &&& m1, c &&& m2, (d &&& m3) ||| 1] := by
  simp [first_host_ip, bytes_and]

theorem ip_to_string_four (a b c d : Nat) :
    util_ip_to_string [a, b, c, d] = some (String.mk (ip_chars [a, b, c, d])) := by
  simp [util_ip_to_string]

theorem parse_ip_of_text (a b c d : Nat) (ha : a < 256) (hb : b < 256) (hc : c < 256)
    (hd : d < 256) :
    util_parse_ip_from_str (String.mk (ip_chars [a, b, c, d])) = some [a, b, c, d] :=
  parse_ipv4_chars_ip_chars a b c d ha hb hc hd

/-- On a parsed subnet whose last mask byte is not 0xff, `find_gateway` gives
the text of `first_host_ip`, which parses back to those bytes. -/
theorem find_gateway_of_parsed (a b c d p : Nat) (subnet : String) (ha : a < 256) (hb : b < 256)
    (hc : c < 256) (hd : d < 256)
    (h : util_parse_ipnet_from_str subnet = some ⟨[a, b, c, d], cidr_mask p 4⟩)
    (hm : mask_byte p 3 ≠ 255) :
    find_gateway subnet =
        ⟨some (String.mk (ip_chars [a &&& mask_byte p 0, b &&& mask_byte p 1, c &&& mask_byte p 2,
          (d &&& mask_byte p 3) ||| 1])), none⟩ ∧
      util_parse_ip_from_str (String.mk (ip_chars [a &&& mask_byte p 0, b &&& mask_byte p 1,
          c &&& mask_byte p 2, (d &&& mask_byte p 3) ||| 1])) =
        some [a &&& mask_byte p 0, b &&& mask_byte p 1, c &&& mask_byte p 2,
          (d &&& mask_byte p 3) ||| 1] := by
  constructor
  · simp only [find_gateway, h, cidr_mask_four, first_host_ip_four, ip_to_string_four]
    simp [hm]
  · exact parse_ip_of_text _ _ _ _ (and_byte_lt _ _ ha) (and_byte_lt _ _ hb) (and_byte_lt _ _ hc)
      (or_one_byte_lt _ (and_byte_lt _ _ hd))

/-- C6: on a subnet that parses, `find_gateway` returns no gateway and sets
the message `No avaliable gateway in <subnet>` when the last mask byte is
0xff; otherwise it returns the text of the address whose bytes are
`ip[i] & mask[i]`, the last one with its lowest bit set. 192.168.0.0/24 gives
192.168.0.1 and 10.5.6.7/24 gives 10.5.6.1. -/
theorem find_gateway_first_host (subnet : String) (net : ipnet)
    (h : util_parse_ipnet_from_str subnet = some net) :
    (net.ip_mask.getLast? = some 0xff →
      find_gateway subnet = ⟨none, some ("No avaliable gateway in " ++ subnet)⟩) ∧
    (net.ip_mask.getLast? ≠ some 0xff →
      ∃ (g : String) (bytes : List Nat),
        find_gateway subnet = ⟨some g, none⟩ ∧ util_ip_to_string bytes = some g ∧
        util_parse_ip_from_str g = some bytes ∧ bytes.length = net.ip.length ∧
        (∀ i, i + 1 < net.ip.length →
          bytes.getD i 0 = net.ip.getD i 0 &&& net.ip_mask.getD i 0) ∧
        bytes.getD (net.ip.length - 1) 0 =
          (net.ip.getD (net.ip.length - 1) 0 &&& net.ip_mask.getD (net.ip.length - 1) 0) ||| 1) ∧
    find_gateway "192.168.0.0/24" = ⟨some "192.168.0.1", none⟩ ∧
    find_gateway "10.5.6.7/24" = ⟨some "10.5.6.1", none⟩ := by
  obtain ⟨a, b, c, d, p, ha, hb, hc, hd, hp, rfl⟩ := parse_ipnet_shape subnet net h
  refine ⟨?_, ?_, by decide, by decide⟩
  · intro hm
    have hm' : mask_byte p 3 = 255 := by simpa [cidr_mask_four] using hm
    simp [find_gateway, h, cidr_mask_four, hm']
  · intro hm
    have hm' : mask_byte p 3 ≠ 255 := by simpa [cidr_mask_four] using hm
    obtain ⟨hg, hparse⟩ := find_gateway_of_parsed a b c d p subnet ha hb hc hd h hm'
    refine ⟨_, _, hg, ip_to_string_four _ _ _ _, hparse, rfl, ?_, ?_⟩
    · intro i hi
      have hi' : i < 3 := by
        have : i + 1 < 4 := by simpa using hi
        omega
      interval_cases i <;> simp [cidr_mask_four]
    · simp [cidr_mask_four]

/-- C6, at the documented example 192.168.0.0/24. -/
theorem find_gateway_first_host_witness :
    find_gateway "192.168.0.0/24" = ⟨some "192.168.0.1", none⟩ :=
  (find_gateway_first_host "192.168.0.0/24" ⟨[192, 168, 0, 0], [255, 255, 255, 0]⟩
    (by decide)).2.2.1

theorem mask_byte_last_mem_of_ne (p : Nat) (hp : p ≤ 32) (hm : mask_byte p 3 ≠ 255) :
    mask_byte p 3 ∈ [0, 128, 192, 224, 240, 248, 252, 254] := by
  have h := mask_byte_last_mem p hp
  simp only [List.mem_cons, List.mem_singleton, List.not_mem_nil, or_false] at h ⊢
  omega

set_option maxRecDepth 100000 in
theorem slash31_bits : ∀ x : Fin 256,
    x.val &&& 255 = x.val ∧ (x.val &&& 254) ||| 1 = x.val ||| 1 := by
  decide

/-- The gateway bytes against the network they were computed from. -/
theorem first_host_ip_contained (a b c d p : Nat) (ha : a < 256) (hb : b < 256) (hc : c < 256)
    (hd : d < 256) (hp : p ≤ 32)
    (hm : mask_byte p 3 ≠ 255) :
    util_net_contain_ip ⟨[a, b, c, d], cidr_mask p 4⟩
        [a &&& mask_byte p 0, b &&& mask_byte p 1, c &&& mask_byte p 2,
          (d &&& mask_byte p 3) ||| 1] true = true ∧
      [a &&& mask_byte p 0, b &&& mask_byte p 1, c &&& mask_byte p 2,
          (d &&& mask_byte p 3) ||| 1] ≠ network_address ⟨[a, b, c, d], cidr_mask p 4⟩ ∧
      (mask_byte p 3 ≠ 254 →
        util_net_contain_ip ⟨[a, b, c, d], cidr_mask p 4⟩
          [a &&& mask_byte p 0, b &&& mask_byte p 1, c &&& mask_byte p 2,
            (d &&& mask_byte p 3) ||| 1] false = true) ∧
      (mask_byte p 3 = 254 →
        [a &&& mask_byte p 0, b &&& mask_byte p 1, c &&& mask_byte p 2,
          (d &&& mask_byte p 3) ||| 1] = broadcast_address ⟨[a, b, c, d], cidr_mask p 4⟩) := by
  obtain ⟨h1, h2, h3⟩ := gateway_bits ⟨d, hd⟩ (mask_byte p 3) (mask_byte_last_mem_of_ne p hp hm)
  simp only at h1 h2 h3
  have hin : util_net_contain_ip ⟨[a, b, c, d], cidr_mask p 4⟩
      [a &&& mask_byte p 0, b &&& mask_byte p 1, c &&& mask_byte p 2,
        (d &&& mask_byte p 3) ||| 1] true = true := by
    simp [util_net_contain_ip, cidr_mask_four, bytes_and, Nat.land_assoc, h1]
  refine ⟨hin, ?_, ?_, ?_⟩
  · simp [network_address, cidr_mask_four, bytes_and, h2]
  · intro h254
    have h3' := h3 h254
    simp [util_net_contain_ip, cidr_mask_four, bytes_and, Nat.land_assoc, h1, network_address,
      broadcast_address, h2, h3']
  · intro h254
    have hp' : p = 31 := by
      interval_cases p <;> first | rfl | (exfalso; revert h254; decide)
    subst hp'
    have e0 : mask_byte 31 0 = 255 := by decide
    have e1 : mask_byte 31 1 = 255 := by decide
    have e2 : mask_byte 31 2 = 255 := by decide
    have e3 : mask_byte 31 3 = 254 := by decide
    simp [broadcast_address, cidr_mask_four, e0, e1, e2, e3, (slash31_bits ⟨a, ha⟩).1,
      (slash31_bits ⟨b, hb⟩).1, (slash31_bits ⟨c, hc⟩).1, (slash31_bits ⟨d, hd⟩).2]

/-- C5 (amended): on every subnet on which `find_gateway` succeeds the
returned gateway parses, lies inside the subnet and is not its network
address; unless the last mask byte is 0xfe (a /31) it also differs from the
broadcast address, so `contains(subnet, gateway, inclusive = false)` holds;
on a /31 the gateway is the broadcast address. -/
theorem find_gateway_inside_subnet (subnet g : String) (net : ipnet) (msg : Option String)
    (h : util_parse_ipnet_from_str subnet = some net)
    (hg : find_gateway subnet = ⟨some g, msg⟩) :
    ∃ gip, util_parse_ip_from_str g = some gip ∧
      util_net_contain_ip net gip true = true ∧ gip ≠ network_address net ∧
      (net.ip_mask.getLast? ≠ some 0xfe → util_net_contain_ip net gip false = true) ∧
      (net.ip_mask.getLast? = some 0xfe → gip = broadcast_address net) := by
  obtain ⟨a, b, c, d, p, ha, hb, hc, hd, hp, rfl⟩ := parse_ipnet_shape subnet net h
  have hm : mask_byte p 3 ≠ 255 := by
    intro hm
    simp [find_gateway, h, cidr_mask_four, hm] at hg
  obtain ⟨hfg, hparse⟩ := find_gateway_of_parsed a b c d p subnet ha hb hc hd h hm
  rw [hfg] at hg
  have hgeq : String.mk (ip_chars [a &&& mask_byte p 0, b &&& mask_byte p 1, c &&& mask_byte p 2,
      (d &&& mask_byte p 3) ||| 1]) = g := by
    injection hg with h1 _
    exact Option.some.inj h1
  subst hgeq
  obtain ⟨k1, k2, k3, k4⟩ := first_host_ip_contained a b c d p ha hb hc hd hp hm
  refine ⟨_, hparse, k1, k2, ?_, ?_⟩
  · intro hne
    exact k3 (by simpa [cidr_mask_four] using hne)
  · intro he
    exact k4 (by simpa [cidr_mask_four] using he)

/-- C5 (amended), at 192.168.0.0/24 with gateway 192.168.0.1. -/
theorem find_gateway_inside_subnet_witness :
    ∃ gip, util_parse_ip_from_str "192.168.0.1" = some gip ∧
      util_net_contain_ip ⟨[192, 168, 0, 0], [255, 255, 255, 0]⟩ gip true = true ∧
      gip ≠ network_address ⟨[192, 168, 0, 0], [255, 255, 255, 0]⟩ ∧
      ((⟨[192, 168, 0, 0], [255, 255, 255, 0]⟩ : ipnet).ip_mask.getLast? ≠ some 0xfe →
        util_net_contain_ip ⟨[192, 168, 0, 0], [255, 255, 255, 0]⟩ gip false = true) ∧
      ((⟨[192, 168, 0, 0], [255, 255, 255, 0]⟩ : ipnet).ip_mask.getLast? = some 0xfe →
        gip = broadcast_address ⟨[192, 168, 0, 0], [255, 255, 255, 0]⟩) :=
  find_gateway_inside_subnet "192.168.0.0/24" "192.168.0.1" ⟨[192, 168, 0, 0], [255, 255, 255, 0]⟩
    none (by decide) (by decide)

/-- C5 (as stated) fails on 10.0.0.0/31: `find_gateway` succeeds with
10.0.0.1, which is the broadcast address of that subnet, so the containment
test with exclusive boundaries is false. -/
theorem find_gateway_slash31_is_broadcast :
    find_gateway "10.0.0.0/31" = ⟨some "10.0.0.1", none⟩ ∧
      util_parse_ipnet_from_str "10.0.0.0/31" = some ⟨[10, 0, 0, 0], [255, 255, 255, 254]⟩ ∧
      util_parse_ip_from_str "10.0.0.1" = some [10, 0, 0, 1] ∧
      util_net_contain_ip ⟨[10, 0, 0, 0], [255, 255, 255, 254]⟩ [10, 0, 0, 1] false = false := by
  decide

/-! ### Bridge names -/

theorem find_bridge_name_loop_step (nn bn hn : List String) (todo i : Nat) :
    find_bridge_name_loop nn bn hn (todo + 1) i =
      if bridge_name_taken nn bn hn i then find_bridge_name_loop nn bn hn todo (i + 1)
      else some (bridge_name_candidate i) := by
  by_cases h1 : bridge_name_candidate i ∈ nn
  · simp [find_bridge_name_loop, bridge_name_taken, util_string_array_contain, h1]
  · by_cases h2 : bridge_name_candidate i ∈ bn
    · simp [find_bridge_name_loop, bridge_name_taken, util_string_array_contain, h1, h2]
    · by_cases h3 : bridge_name_candidate i ∈ hn
      · simp [find_bridge_name_loop, bridge_name_taken, util_string_array_contain, h1, h2, h3]
      · simp [find_bridge_name_loop, bridge_name_taken, util_string_array_contain, h1, h2, h3]

theorem find_bridge_name_loop_none_iff (nn bn hn : List String) (todo i : Nat) :
    find_bridge_name_loop nn bn hn todo i = none ↔
      ∀ j, i ≤ j → j < i + todo → bridge_name_taken nn bn hn j := by
  induction todo generalizing i with
  | zero =>
    simp only [find_bridge_name_loop, true_iff]
    intro j h1 h2
    omega
  | succ todo ih =>
    rw [find_bridge_name_loop_step]
    by_cases ht : bridge_name_taken nn bn hn i
    · simp only [ht, if_true, ih]
      constructor
      · intro h j h1 h2
        rcases Nat.eq_or_lt_of_le h1 with e | l
        · exact e ▸ ht
        · exact h j l (by omega)
      · intro h j h1 h2
        exact h j (by omega) (by omega)
    · simp only [ht, if_false]
      constructor
      · intro h
        cases h
      · intro h
        exact absurd (h i (le_refl i) (by omega)) ht

theorem find_bridge_name_loop_some (nn bn hn : List String) (todo i : Nat) (name : String)
    (h : find_bridge_name_loop nn bn hn todo i = some name) :
    ∃ j, i ≤ j ∧ j < i + todo ∧ name = bridge_name_candidate j ∧
      ¬ bridge_name_taken nn bn hn j ∧ ∀ l, i ≤ l → l < j → bridge_name_taken nn bn hn l := by
  induction todo generalizing i with
  | zero => simp [find_bridge_name_loop] at h
  | succ todo ih =>
    rw [find_bridge_name_loop_step] at h
    by_cases ht : bridge_name_taken nn bn hn i
    · simp only [ht, if_true] at h
      obtain ⟨j, h1, h2, h3, h4, h5⟩ := ih (i + 1) h
      refine ⟨j, by omega, by omega, h3, h4, ?_⟩
      intro l hl1 hl2
      rcases Nat.eq_or_lt_of_le hl1 with e | l'
      · exact e ▸ ht
      · exact h5 l l' hl2
    · simp only [ht, if_false] at h
      refine ⟨i, le_refl i, by omega, (Option.some.inj h).symm, ht, ?_⟩
      intro l hl1 hl2
      omega

/-- C9: `find_bridge_name` returns the candidate of the smallest index below
1024 whose name is in none of the three name sets (stored network names,
stored bridge names, host interface names); it returns no name, with the
message `Too many network bridges`, exactly when all 1024 candidates are
taken. -/
theorem find_bridge_name_smallest_free (net_names bridge_names host_net_names : List String) :
    (∀ i, i < MAX_BRIDGE_ID → ¬ bridge_name_taken net_names bridge_names host_net_names i →
      (∀ j, j < i → bridge_name_taken net_names bridge_names host_net_names j) →
      find_bridge_name net_names bridge_names host_net_names =
        ⟨some (bridge_name_candidate i), none⟩) ∧
    (find_bridge_name net_names bridge_names host_net_names =
        ⟨none, some "Too many network bridges"⟩ ↔
      ∀ i, i < MAX_BRIDGE_ID → bridge_name_taken net_names bridge_names host_net_names i) ∧
    ((find_bridge_name net_names bridge_names host_net_names).value = none ↔
      ∀ i, i < MAX_BRIDGE_ID → bridge_name_taken net_names bridge_names host_net_names i) := by
  have hnone := find_bridge_name_loop_none_iff net_names bridge_names host_net_names MAX_BRIDGE_ID 0
  simp only [Nat.zero_le, zero_add, true_implies] at hnone
  refine ⟨?_, ?_, ?_⟩
  · intro i hi hfree hbelow
    cases hl : find_bridge_name_loop net_names bridge_names host_net_names MAX_BRIDGE_ID 0 with
    | none => exact absurd (hnone.mp hl i hi) hfree
    | some name =>
      obtain ⟨j, _, hj2, hj3, hj4, hj5⟩ := find_bridge_name_loop_some _ _ _ _ _ _ hl
      have hij : i = j := by
        rcases Nat.lt_trichotomy i j with l | e | g
        · exact absurd (hj5 i (Nat.zero_le i) l) hfree
        · exact e
        · exact absurd (hbelow j g) hj4
      simp [find_bridge_name, hl, hj3, hij]
  · rw [← hnone]
    cases hl : find_bridge_name_loop net_names bridge_names host_net_names MAX_BRIDGE_ID 0 <;>
      simp [find_bridge_name, hl]
  · rw [← hnone]
    cases hl : find_bridge_name_loop net_names bridge_names host_net_names MAX_BRIDGE_ID 0 <;>
      simp [find_bridge_name, hl]

/-! ### Private subnets -/

theorem private_candidate_landmarks :
    private_candidate 0 = "192.168.0.0/24" ∧ private_candidate 1 = "192.168.1.0/24" ∧
    private_candidate 255 = "192.168.255.0/24" ∧ private_candidate 256 = "172.16.0.0/24" ∧
    private_candidate 511 = "172.16.255.0/24" ∧ private_candidate 512 = "172.17.0.0/24" ∧
    private_candidate 4351 = "172.31.255.0/24" ∧ private_candidate 4352 = "10.0.0.0/24" ∧
    private_candidate 69887 = "10.255.255.0/24" := by
  decide

theorem private_candidate_value_lt (k : Nat) (hk : k < private_candidate_count) :
    private_candidate_value k < 2 ^ 24 := by
  unfold private_candidate_value private_candidate_count at *
  split
  · omega
  · split <;> omega

theorem private_candidate_value_inj (k j : Nat) (hk : k < private_candidate_count)
    (hj : j < private_candidate_count)
    (h : private_candidate_value k = private_candidate_value j) : k = j := by
  unfold private_candidate_value private_candidate_count at *
  split at h <;> split at h <;> (try split at h) <;> (try split at h) <;> omega

theorem cidr_mask_24 : cidr_mask 24 4 = [255, 255, 255, 0] := by decide

theorem parse_private_candidate (k : Nat) (hk : k < private_candidate_count) :
    util_parse_ipnet_from_str (private_candidate k) =
      some ⟨private_candidate_bytes k, [255, 255, 255, 0]⟩ := by
  have hv := private_candidate_value_lt k hk
  have := parse_ipnet_of_text (private_candidate_value k / 65536)
    (private_candidate_value k / 256 % 256) (private_candidate_value k % 256) 0 24
    (by omega) (by omega) (by omega) (by omega) (by omega)
  rw [cidr_mask_24] at this
  exact this

theorem private_candidate_inj (k j : Nat) (hk : k < private_candidate_count)
    (hj : j < private_candidate_count) (h : private_candidate k = private_candidate j) :
    k = j := by
  have h1 := parse_private_candidate k hk
  have h2 := parse_private_candidate j hj
  rw [h, h2] at h1
  have hb : private_candidate_bytes j = private_candidate_bytes k := by
    injection h1 with h1
    injection h1
  have hvk := private_candidate_value_lt k hk
  have hvj := private_candidate_value_lt j hj
  simp only [private_candidate_bytes, List.cons.injEq, and_true] at hb
  apply private_candidate_value_inj k j hk hj
  omega

theorem stripe_jump_private (s : String) :
    stripe_jump s g_private_networks =
      if s = "192.168.255.0/24" then some "172.16.0.0/24"
      else if s = "172.31.255.0/24" then some "10.0.0.0/24" else none := by
  simp [stripe_jump, g_private_networks]

theorem pack_u32_candidate (v : Nat) (hv : v < 2 ^ 24) :
    pack_u32 [v / 65536, v / 256 % 256, v % 256, 0] = v * 256 := by
  simp only [pack_u32, List.foldl]
  norm_num
  omega

theorem pack_u32_mask24 : pack_u32 [255, 255, 255, 0] = 4294967040 := by decide

theorem unpack_u32_four (x : Nat) :
    unpack_u32 4 x = [x / 256 / 256 / 256 % 256, x / 256 / 256 % 256, x / 256 % 256, x % 256] := by
  simp [unpack_u32]

theorem next_candidate_bytes (v : Nat) (hv : v + 1 < 2 ^ 24) :
    unpack_u32 4 ((pack_u32 [v / 65536, v / 256 % 256, v % 256, 0] +
        ((2 ^ 32 - 1 - pack_u32 [255, 255, 255, 0]) + 1) % 2 ^ 32) % 2 ^ 32) =
      [(v + 1) / 65536, (v + 1) / 256 % 256, (v + 1) % 256, 0] := by
  rw [pack_u32_candidate v (by omega), pack_u32_mask24, unpack_u32_four]
  norm_num
  omega

theorem private_candidate_value_succ (k : Nat) (hk : k + 1 < private_candidate_count)
    (h1 : k ≠ 255) (h2 : k ≠ 4351) :
    private_candidate_value (k + 1) = private_candidate_value k + 1 := by
  unfold private_candidate_value private_candidate_count at *
  split <;> split <;> (try split) <;> (try split) <;> omega

theorem private_candidate_eq_iff (k j : Nat) (hk : k < private_candidate_count)
    (hj : j < private_candidate_count) : private_candidate k = private_candidate j ↔ k = j :=
  ⟨private_candidate_inj k j hk hj, fun h => h ▸ rfl⟩

theorem find_private_network_first : find_private_network none = some (private_candidate 0) := by
  decide

/-- The successor rule walks the candidates in order. -/
theorem find_private_network_succ (k : Nat) (hk : k + 1 < private_candidate_count) :
    find_private_network (some (private_candidate k)) = some (private_candidate (k + 1)) := by
  have hk' : k < private_candidate_count := by omega
  by_cases h1 : k = 255
  · subst h1
    decide
  by_cases h2 : k = 4351
  · subst h2
    decide
  have e1 : private_candidate k ≠ "192.168.255.0/24" := by
    rw [← private_candidate_landmarks.2.2.1]
    intro h
    exact h1 (private_candidate_inj k 255 hk' (by decide) h)
  have e2 : private_candidate k ≠ "172.31.255.0/24" := by
    rw [← private_candidate_landmarks.2.2.2.2.2.2.1]
    intro h
    exact h2 (private_candidate_inj k 4351 hk' (by decide) h)
  have hv := private_candidate_value_lt (k + 1) hk
  have hs := private_candidate_value_succ k hk h1 h2
  have hnext := next_candidate_bytes (private_candidate_value k) (by omega)
  simp only [find_private_network, stripe_jump_private, e1, e2, if_false,
    parse_private_candidate k hk']
  have hlen : (private_candidate_bytes k).length = 4 := rfl
  rw [hlen]
  unfold private_candidate_bytes
  rw [hnext, ← hs, ← cidr_mask_24, ipnet_to_string_of_bytes _ _ _ _ 24 (by omega)]
  rfl

theorem check_subnet_available_zero_or_one (subnet : String) (net : ipnet)
    (subnets host_ip : List String) (hnet : util_parse_ipnet_from_str subnet = some net) :
    check_subnet_available subnet subnets host_ip = 0 ∨
      check_subnet_available subnet subnets host_ip = 1 := by
  simp only [check_subnet_available, hnet]
  rcases check_subnets_loop_zero_or_one net subnets with h | h
  · simp only [h, ne_eq, not_true_eq_false, if_false]
    exact check_host_ip_loop_zero_or_one net host_ip
  · simp [h]

theorem check_private_candidate (k : Nat) (hk : k < private_candidate_count)
    (subnets host_ip : List String) :
    check_subnet_available (private_candidate k) subnets host_ip = 0 ∨
      check_subnet_available (private_candidate k) subnets host_ip = 1 :=
  check_subnet_available_zero_or_one _ _ _ _ (parse_private_candidate k hk)

theorem find_private_network_previous (k : Nat) (hk : k < private_candidate_count) :
    find_private_network (previous_candidate k) = some (private_candidate k) := by
  cases k with
  | zero => exact find_private_network_first
  | succ k => exact find_private_network_succ k hk

theorem private_networks_end_eq : private_networks_end = private_candidate 69887 := by decide

theorem private_candidate_ne_end_iff (k : Nat) (hk : k < private_candidate_count) :
    private_candidate k ≠ private_networks_end ↔ k + 1 < private_candidate_count := by
  rw [private_networks_end_eq, Ne, private_candidate_eq_iff k 69887 hk (by decide)]
  unfold private_candidate_count at *
  omega

/-- One round of the loop of `find_subnet`, at the candidate of index `k`. -/
theorem find_subnet_loop_step (cfg host : List String) (fuel k : Nat)
    (hk : k < private_candidate_count) :
    find_subnet_loop cfg host (fuel + 1) (previous_candidate k) =
      if check_subnet_available (private_candidate k) cfg host = 0 then
        subnet_search.found (private_candidate k)
      else if k + 1 < private_candidate_count then
        find_subnet_loop cfg host fuel (previous_candidate (k + 1))
      else subnet_search.exhausted := by
  rw [find_subnet_loop, find_private_network_previous k hk]
  simp only []
  rcases check_private_candidate k hk cfg host with h | h
  · simp [h]
  · by_cases hlast : k + 1 < private_candidate_count
    · have hne := (private_candidate_ne_end_iff k hk).mpr hlast
      simp [h, hlast, hne, previous_candidate]
    · have hne : ¬ private_candidate k ≠ private_networks_end :=
        fun hh => hlast ((private_candidate_ne_end_iff k hk).mp hh)
      simp [h, hlast, hne]

theorem find_subnet_loop_exhausted (cfg host : List String) (n : Nat) :
    ∀ k fuel, k + n = private_candidate_count → 0 < n → n ≤ fuel →
      (∀ j, k ≤ j → j < private_candidate_count →
        check_subnet_available (private_candidate j) cfg host = 1) →
      find_subnet_loop cfg host fuel (previous_candidate k) = subnet_search.exhausted := by
  induction n with
  | zero =>
    intro k fuel _ h0
    omega
  | succ n ih =>
    intro k fuel hkn _ hfuel hall
    obtain ⟨fuel, rfl⟩ : ∃ f, fuel = f + 1 := ⟨fuel - 1, by omega⟩
    have hk : k < private_candidate_count := by omega
    rw [find_subnet_loop_step cfg host fuel k hk]
    have hck := hall k (le_refl k) hk
    have hne : ¬ check_subnet_available (private_candidate k) cfg host = 0 := by omega
    simp only [hne, if_false]
    by_cases hlast : k + 1 < private_candidate_count
    · simp only [hlast, if_true]
      exact ih (k + 1) fuel (by omega) (by omega) (by omega)
        (fun j h1 h2 => hall j (by omega) h2)
    · simp [hlast]

theorem find_subnet_loop_found (cfg host : List String) (d : Nat) :
    ∀ k fuel, k + d < private_candidate_count → private_candidate_count - k ≤ fuel →
      check_subnet_available (private_candidate (k + d)) cfg host = 0 →
      (∀ l, k ≤ l → l < k + d → check_subnet_available (private_candidate l) cfg host = 1) →
      find_subnet_loop cfg host fuel (previous_candidate k) =
        subnet_search.found (private_candidate (k + d)) := by
  induction d with
  | zero =>
    intro k fuel hk hfuel h0 _
    obtain ⟨fuel, rfl⟩ : ∃ f, fuel = f + 1 := ⟨fuel - 1, by omega⟩
    rw [find_subnet_loop_step cfg host fuel k hk]
    simp only [Nat.add_zero] at h0
    simp [h0]
  | succ d ih =>
    intro k fuel hk hfuel h0 hbefore
    obtain ⟨fuel, rfl⟩ : ∃ f, fuel = f + 1 := ⟨fuel - 1, by omega⟩
    have hk' : k < private_candidate_count := by omega
    rw [find_subnet_loop_step cfg host fuel k hk']
    have hck := hbefore k (le_refl k) (by omega)
    have hne : ¬ check_subnet_available (private_candidate k) cfg host = 0 := by omega
    have hlast : k + 1 < private_candidate_count := by omega
    simp only [hne, if_false, hlast, if_true]
    have := ih (k + 1) fuel (by omega) (by omega) (by rwa [show k + 1 + d = k + (d + 1) by omega])
      (fun l h1 h2 => hbefore l (by omega) (by omega))
    rw [this, show k + 1 + d = k + (d + 1) by omega]

/-- The loop of `find_subnet` from its entry, with enough fuel: either some
candidate is the first available one and is found, or all conflict and the
loop runs past the last stripe end. -/
theorem find_subnet_loop_result (cfg host : List String) (fuel : Nat)
    (hfuel : private_candidate_count ≤ fuel) :
    (∃ k, k < private_candidate_count ∧
        check_subnet_available (private_candidate k) cfg host = 0 ∧
        (∀ j, j < k → check_subnet_available (private_candidate j) cfg host = 1) ∧
        find_subnet_loop cfg host fuel none = subnet_search.found (private_candidate k)) ∨
      ((∀ k, k < private_candidate_count →
          check_subnet_available (private_candidate k) cfg host = 1) ∧
        find_subnet_loop cfg host fuel none = subnet_search.exhausted) := by
  by_cases hex : ∃ k, k < private_candidate_count ∧
      check_subnet_available (private_candidate k) cfg host = 0
  · left
    let k := Nat.find hex
    have hk : k < private_candidate_count ∧
        check_subnet_available (private_candidate k) cfg host = 0 := Nat.find_spec hex
    have hmin : ∀ j, j < k → check_subnet_available (private_candidate j) cfg host = 1 := by
      intro j hj
      have hnot := Nat.find_min hex hj
      have hjc : j < private_candidate_count := by omega
      rcases check_private_candidate j hjc cfg host with h | h
      · exact absurd ⟨hjc, h⟩ hnot
      · exact h
    refine ⟨k, hk.1, hk.2, hmin, ?_⟩
    have := find_subnet_loop_found cfg host k 0 fuel (by omega) (by omega)
      (by simpa using hk.2) (fun l _ h2 => hmin l (by omega))
    simpa [previous_candidate] using this
  · right
    have hall : ∀ k, k < private_candidate_count →
        check_subnet_available (private_candidate k) cfg host = 1 := by
      intro k hk
      rcases check_private_candidate k hk cfg host with h | h
      · exact absurd ⟨k, hk, h⟩ hex
      · exact h
    refine ⟨hall, ?_⟩
    have := find_subnet_loop_exhausted cfg host private_candidate_count 0 fuel (by omega)
      (by decide) hfuel (fun j _ h2 => hall j h2)
    simpa [previous_candidate] using this

theorem private_candidate_bytes_stripes :
    (∀ c, c < 256 → private_candidate_bytes c = [192, 168, c, 0]) ∧
    (∀ b c, b < 16 → c < 256 →
      private_candidate_bytes (256 + 256 * b + c) = [172, 16 + b, c, 0]) ∧
    (∀ b c, b < 256 → c < 256 →
      private_candidate_bytes (4352 + 256 * b + c) = [10, b, c, 0]) := by
  refine ⟨?_, ?_, ?_⟩
  · intro c hc
    simp only [private_candidate_bytes, private_candidate_value, hc, if_true, List.cons.injEq,
      and_true]
    omega
  · intro b c hb hc
    have h1 : ¬ (256 + 256 * b + c < 256) := by omega
    have h2 : 256 + 256 * b + c < 4352 := by omega
    simp only [private_candidate_bytes, private_candidate_value, h1, h2, if_true, if_false,
      List.cons.injEq, and_true]
    omega
  · intro b c hb hc
    have h1 : ¬ (4352 + 256 * b + c < 256) := by omega
    have h2 : ¬ (4352 + 256 * b + c < 4352) := by omega
    simp only [private_candidate_bytes, private_candidate_value, h1, h2, if_false,
      List.cons.injEq, and_true]
    omega

/-- C7: with fuel for every candidate, `find_subnet` returns the first
candidate, in the order 192.168.0.0/24 … 192.168.255.0/24, 172.16.0.0/24 …
172.31.255.0/24, 10.0.0.0/24 … 10.255.255.0/24, on which
`check_subnet_available` returns 0, every earlier candidate having returned 1;
it returns no subnet, with the message
`Cannot find avaliable subnet by default`, exactly when every candidate up to
10.255.255.0/24 returns 1. -/
theorem find_subnet_first_available (fuel : Nat) (hfuel : private_candidate_count ≤ fuel)
    (config_subnet host_ip : List String) :
    (∀ k, k < private_candidate_count →
      check_subnet_available (private_candidate k) config_subnet host_ip = 0 →
      (∀ j, j < k → check_subnet_available (private_candidate j) config_subnet host_ip = 1) →
      find_subnet fuel config_subnet host_ip = ⟨some (private_candidate k), none⟩) ∧
    (find_subnet fuel config_subnet host_ip =
        ⟨none, some "Cannot find avaliable subnet by default"⟩ ↔
      ∀ k, k < private_candidate_count →
        check_subnet_available (private_candidate k) config_subnet host_ip = 1) ∧
    ((find_subnet fuel config_subnet host_ip).value = none ↔
      ∀ k, k < private_candidate_count →
        check_subnet_available (private_candidate k) config_subnet host_ip = 1) ∧
    ((∀ c, c < 256 → private_candidate_bytes c = [192, 168, c, 0]) ∧
      (∀ b c, b < 16 → c < 256 →
        private_candidate_bytes (256 + 256 * b + c) = [172, 16 + b, c, 0]) ∧
      (∀ b c, b < 256 → c < 256 →
        private_candidate_bytes (4352 + 256 * b + c) = [10, b, c, 0])) ∧
    private_candidate 0 = "192.168.0.0/24" ∧ private_candidate 255 = "192.168.255.0/24" ∧
    private_candidate 256 = "172.16.0.0/24" ∧ private_candidate 4351 = "172.31.255.0/24" ∧
    private_candidate 4352 = "10.0.0.0/24" ∧ private_candidate 69887 = "10.255.255.0/24" := by
  refine ⟨?_, ?_, ?_, private_candidate_bytes_stripes, by decide, by decide, by decide,
    by decide, by decide, by decide⟩
  · intro k hk h0 hbefore
    rcases find_subnet_loop_result config_subnet host_ip fuel hfuel with
      ⟨k', hk', h0', hbefore', hres⟩ | ⟨hall, _⟩
    · have hkk : k = k' := by
        rcases Nat.lt_trichotomy k k' with l | e | g
        · have := hbefore' k l
          omega
        · exact e
        · have := hbefore k' g
          omega
      subst hkk
      simp [find_subnet, hres]
    · have := hall k hk
      omega
  · rcases find_subnet_loop_result config_subnet host_ip fuel hfuel with
      ⟨k', hk', h0', _, hres⟩ | ⟨hall, hres⟩
    · simp only [find_subnet, hres]
      constructor
      · intro h
        cases h
      · intro h
        have := h k' hk'
        omega
    · simp only [find_subnet, hres, true_iff]
      exact hall
  · rcases find_subnet_loop_result config_subnet host_ip fuel hfuel with
      ⟨k', hk', h0', _, hres⟩ | ⟨hall, hres⟩
    · simp only [find_subnet, hres]
      constructor
      · intro h
        cases h
      · intro h
        have := h k' hk'
        omega
    · simp only [find_subnet, hres, true_iff]
      exact hall

/-- C7, on an empty store and a host without addresses: the first candidate
is returned. -/
theorem find_subnet_first_available_witness :
    find_subnet private_candidate_count [] [] = ⟨some (private_candidate 0), none⟩ :=
  (find_subnet_first_available private_candidate_count (le_refl _) [] []).1 0 (by decide)
    (by decide) (fun j hj => absurd hj (Nat.not_lt_zero j))

/-- C8 (as stated) fails: with the three stripe ends 192.168.255.0/24,
172.31.255.0/24 and 10.255.255.0/24 stored, `find_subnet` returns
192.168.0.0/24. -/
theorem find_subnet_stripe_ends_registered :
    find_subnet private_candidate_count
        ["192.168.255.0/24", "172.31.255.0/24", "10.255.255.0/24"] [] =
      ⟨some "192.168.0.0/24", none⟩ := by
  decide

set_option maxRecDepth 100000 in
theorem and_255_byte : ∀ x : Fin 256, x.val &&& 255 = x.val := by decide

theorem stripe_172_bits (b : Nat) (hb : b < 16) : (16 + b) &&& 240 = 16 := by
  interval_cases b <;> decide

/-- A stored network that agrees with a /24 candidate on its own masked
bytes conflicts with the candidate. -/
theorem net_conflict_of_cover (a0 a1 a2 a3 m0 m1 m2 m3 x0 x1 x2 : Nat) (h0 : x0 < 256)
    (h1 : x1 < 256) (h2 : x2 < 256) (e0 : x0 &&& m0 = a0 &&& m0) (e1 : x1 &&& m1 = a1 &&& m1)
    (e2 : x2 &&& m2 = a2 &&& m2) (e3 : 0 = a3 &&& m3) :
    net_conflict ⟨[a0, a1, a2, a3], [m0, m1, m2, m3]⟩ ⟨[x0, x1, x2, 0], [255, 255, 255, 0]⟩ = 1 := by
  have k0 := and_255_byte ⟨x0, h0⟩
  have k1 := and_255_byte ⟨x1, h1⟩
  have k2 := and_255_byte ⟨x2, h2⟩
  simp only at k0 k1 k2
  simp [net_conflict, util_net_contain_ip, bytes_and, k0, k1, k2, e0, e1, e2, ← e3]

/-- Every private candidate conflicts with one of the three whole private
ranges. -/
theorem whole_stripes_cover (k : Nat) (hk : k < private_candidate_count) :
    ∃ s ∈ ["192.168.0.0/16", "172.16.0.0/12", "10.0.0.0/8"], ∃ tmp,
      util_parse_ipnet_from_str s = some tmp ∧
        net_conflict tmp ⟨private_candidate_bytes k, [255, 255, 255, 0]⟩ = 1 := by
  unfold private_candidate_count at hk
  by_cases c1 : k < 256
  · refine ⟨"192.168.0.0/16", by simp, ⟨[192, 168, 0, 0], [255, 255, 0, 0]⟩, by decide, ?_⟩
    rw [private_candidate_bytes_stripes.1 k c1]
    exact net_conflict_of_cover _ _ _ _ _ _ _ _ _ _ _ (by omega) (by omega) c1 rfl rfl
      (by simp) rfl
  by_cases c2 : k < 4352
  · refine ⟨"172.16.0.0/12", by simp, ⟨[172, 16, 0, 0], [255, 240, 0, 0]⟩, by decide, ?_⟩
    have hk' : k = 256 + 256 * ((k - 256) / 256) + (k - 256) % 256 := by omega
    rw [hk', private_candidate_bytes_stripes.2.1 _ _ (by omega) (by omega)]
    exact net_conflict_of_cover _ _ _ _ _ _ _ _ _ _ _ (by omega) (by omega) (by omega) rfl
      (by rw [stripe_172_bits _ (by omega)]; rfl) (by simp) rfl
  · refine ⟨"10.0.0.0/8", by simp, ⟨[10, 0, 0, 0], [255, 0, 0, 0]⟩, by decide, ?_⟩
    have hk' : k = 4352 + 256 * ((k - 4352) / 256) + (k - 4352) % 256 := by omega
    rw [hk', private_candidate_bytes_stripes.2.2 _ _ (by omega) (by omega)]
    exact net_conflict_of_cover _ _ _ _ _ _ _ _ _ _ _ (by omega) (by omega) (by omega) rfl
      (by simp) (by simp) rfl

/-- C8 (amended): when every private candidate, not only the three stripe
ends, conflicts with a stored subnet, `find_subnet` returns no subnet and
sets the message `Cannot find avaliable subnet by default`. -/
theorem find_subnet_all_candidates_registered (fuel : Nat)
    (hfuel : private_candidate_count ≤ fuel) (config_subnet host_ip : List String)
    (hall : ∀ k, k < private_candidate_count → ∃ s ∈ config_subnet, ∃ tmp,
      util_parse_ipnet_from_str s = some tmp ∧
        net_conflict tmp ⟨private_candidate_bytes k, [255, 255, 255, 0]⟩ = 1) :
    find_subnet fuel config_subnet host_ip =
      ⟨none, some "Cannot find avaliable subnet by default"⟩ := by
  have hcheck : ∀ k, k < private_candidate_count →
      check_subnet_available (private_candidate k) config_subnet host_ip = 1 := by
    intro k hk
    have h1 := (check_subnets_loop_eq_one_iff _ config_subnet).mpr (hall k hk)
    simp [check_subnet_available, parse_private_candidate k hk, h1]
  rcases find_subnet_loop_result config_subnet host_ip fuel hfuel with
    ⟨k, hk, h0, _, _⟩ | ⟨_, hres⟩
  · have := hcheck k hk
    omega
  · simp [find_subnet, hres]

/-- C8 (amended), with the three whole private ranges stored. -/
theorem find_subnet_all_candidates_registered_witness :
    find_subnet private_candidate_count ["192.168.0.0/16", "172.16.0.0/12", "10.0.0.0/8"] [] =
      ⟨none, some "Cannot find avaliable subnet by default"⟩ :=
  find_subnet_all_candidates_registered private_candidate_count (le_refl _)
    ["192.168.0.0/16", "172.16.0.0/12", "10.0.0.0/8"] [] whole_stripes_cover

/-! ### Create -/

theorem get_ops_by_driver_bridge (driver : Option String) (pnet : net_driver)
    (h : get_ops_by_driver driver = some pnet) (hb : pnet.driver = "bridge") :
    pnet.ops.check = some check_bridge ∧ pnet.ops.conf = some conf_bridge := by
  cases driver with
  | none =>
    simp only [get_ops_by_driver, g_drivers, List.head?_cons, Option.some.injEq] at h
    subst h
    exact ⟨rfl, rfl⟩
  | some d =>
    simp only [get_ops_by_driver, g_drivers, List.find?] at h
    by_cases h1 : d = "bridge"
    · simp only [h1, decide_True, Option.some.injEq] at h
      subst h
      exact ⟨rfl, rfl⟩
    · simp only [h1, decide_False] at h
      by_cases h2 : d = "macvlan"
      · simp only [h2, decide_True, Option.some.injEq] at h
        subst h
        simp at hb
      · simp [h2] at h

/-- The assembly loop of `conf_bridge` over the fixed plugin table. -/
theorem conf_bridge_loop_table (k : build_consts) (w : world) (req : network_create_request) :
    conf_bridge_loop k w req g_bridge_driver_plugins [] [] =
      match conf_bridge_plugin k w req with
      | (none, msg) =>
        plugins_result.failed (if cni_bin_detect w "bridge" then [] else ["bridge"]) msg
      | (some bp, _) =>
        plugins_result.built
          (bp :: (conf_portmap_plugin k w req).1.toList ++ (conf_firewall_plugin k w req).1.toList ++
            (if cni_bin_detect w "dnsname" then (conf_dnsname_plugin k w req).1.toList else []))
          (["bridge", "portmap", "firewall"].filter (fun p => !cni_bin_detect w p)) := by
  rcases hb : conf_bridge_plugin k w req with ⟨_ | bp, msg⟩
  · cases h1 : cni_bin_detect w "bridge" <;>
      simp [conf_bridge_loop, g_bridge_driver_plugins, g_bridge_plugin, g_dnsname_plugin, hb, h1]
  · cases h1 : cni_bin_detect w "bridge" <;> cases h2 : cni_bin_detect w "portmap" <;>
      cases h3 : cni_bin_detect w "firewall" <;> cases h4 : cni_bin_detect w "dnsname" <;>
      simp [conf_bridge_loop, g_bridge_driver_plugins, g_bridge_plugin, g_dnsname_plugin,
        g_portmap_plugin, g_firewall_plugin, conf_portmap_plugin, conf_firewall_plugin,
        conf_dnsname_plugin, hb, h1, h2, h3, h4, List.filter]

/-- What a successful `conf_bridge_plugin_ipam` holds: one range with the
reduced request subnet or the allocated one, and the request gateway or the
derived one. -/
theorem conf_bridge_plugin_ipam_some (w : world) (req : network_create_request)
    (ipam : cni_net_conf_ipam) (msg : Option String)
    (h : conf_bridge_plugin_ipam w req = (some ipam, msg)) :
    ∃ subnet gateway,
      ipam = ⟨"host-local", ["0.0.0.0/0"], [[⟨some subnet, some gateway⟩]]⟩ ∧
      (match req.subnet with
        | some s => ∃ net, util_parse_ipnet_from_str s = some net ∧
            util_ipnet_to_string (util_reduce_ip_by_mask net) = some subnet
        | none => (find_subnet_in w).value = some subnet) ∧
      (match req.gateway with
        | some g => gateway = g
        | none => (find_gateway subnet).value = some gateway) := by
  unfold conf_bridge_plugin_ipam at h
  simp only at h
  split at h
  · cases h
  · rename_i subnet hsub
    split at h
    · cases h
    · rename_i gateway hgw
      simp only [Prod.mk.injEq, Option.some.injEq] at h
      refine ⟨subnet, gateway, h.1.symm, ?_, ?_⟩
      · cases hs : req.subnet with
        | none =>
          simp only [hs] at hsub
          exact hsub
        | some s =>
          simp only [hs] at hsub
          cases hp : util_parse_ipnet_from_str s with
          | none => simp [hp] at hsub
          | some net =>
            simp only [hp] at hsub
            exact ⟨net, hp, hsub⟩
      · cases hg : req.gateway with
        | none =>
          simp only [hg] at hgw
          exact hgw
        | some g =>
          simp only [hg, Option.some.injEq] at hgw
          exact hgw.symm

/-- What a successful `conf_bridge_plugin` holds. -/
theorem conf_bridge_plugin_some (k : build_consts) (w : world) (req : network_create_request)
    (bp : cni_net_conf) (msg : Option String) (h : conf_bridge_plugin k w req = (some bp, msg)) :
    ∃ bridge_name ipam msg2,
      (find_bridge_name_in w).value = some bridge_name ∧
      conf_bridge_plugin_ipam w req = (some ipam, msg2) ∧
      bp = ⟨"bridge", some bridge_name, !req.internal, !req.internal, true, some ipam, [], none⟩ := by
  unfold conf_bridge_plugin at h
  simp only at h
  split at h
  · cases h
  · rename_i bridge_name hbn
    split at h
    · cases h
    · rename_i ipam msg2 hip
      simp only [Prod.mk.injEq, Option.some.injEq] at h
      refine ⟨bridge_name, ipam, msg2, hbn, hip, ?_⟩
      rw [← h.1]
      cases req.internal <;> rfl

/-- What a successful `conf_bridge` holds: the bridge plugin first, then
plugins without IPAM that are not of type bridge; the name is the request name
or the bridge name. -/
theorem conf_bridge_some (k : build_consts) (w : world) (req : network_create_request)
    (list : cni_net_conf_list) (h : (conf_bridge k w req).list = some list) :
    ∃ bp msg rest,
      conf_bridge_plugin k w req = (some bp, msg) ∧
      list = ⟨k.CURRENT_VERSION, req.name.getD (bp.bridge.getD ""), bp :: rest⟩ ∧
      (∀ p ∈ rest, p.ipam = none ∧ p.type ≠ "bridge") ∧
      (conf_bridge k w req).missing =
        ["bridge", "portmap", "firewall"].filter (fun p => !cni_bin_detect w p) ∧
      rest = (conf_portmap_plugin k w req).1.toList ++ (conf_firewall_plugin k w req).1.toList ++
        (if cni_bin_detect w "dnsname" then (conf_dnsname_plugin k w req).1.toList else []) := by
  unfold conf_bridge at h ⊢
  rw [conf_bridge_loop_table] at h ⊢
  rcases hb : conf_bridge_plugin k w req with ⟨_ | bp, msg⟩
  · simp [hb] at h
  · simp only [hb] at h ⊢
    refine ⟨bp, msg, _, rfl, ?_, ?_, trivial, rfl⟩
    · simp only [Option.some.injEq] at h
      rw [← h]
      cases req.name <;> simp
    · intro p hp
      cases h4 : cni_bin_detect w "dnsname" <;>
        simp [h4, conf_portmap_plugin, conf_firewall_plugin, conf_dnsname_plugin] at hp <;>
        rcases hp with rfl | rfl | rfl <;> simp

/-- What a successful `create_conflist_file` did. -/
theorem create_conflist_file_ok (k : build_consts) (f : io_faults) (w : world)
    (conflist : cni_network_list_conf) (h : (create_conflist_file k f w conflist).1 = 0) :
    ∃ json path,
      get_file_path_by_name k w conflist.list.name = some path ∧
      k.cni_net_conf_list_generate_json conflist.list = some json ∧
      path ∉ w.files ∧
      create_conflist_file k f w conflist =
        (0, none, ⟨conflist.list, some json⟩,
          ⟨w.g_store, w.files ++ [path],
            if w.dirs.contains w.g_store.conf_dir then w.dirs else w.dirs ++ [w.g_store.conf_dir],
            w.interface_names, w.host_net_ip⟩) := by
  have hpath : ∀ fs ds i hh, get_file_path_by_name k ⟨w.g_store, fs, ds, i, hh⟩
      conflist.list.name = get_file_path_by_name k w conflist.list.name :=
    fun _ _ _ _ => rfl
  unfold create_conflist_file at h ⊢
  by_cases hm : w.g_store.conf_dir ∉ w.dirs ∧ f.mkdir_fails = true
  · simp [hm.1, hm.2] at h
  · have hm' : (!w.dirs.contains w.g_store.conf_dir && f.mkdir_fails) = false := by
      by_cases hd : w.g_store.conf_dir ∈ w.dirs
      · simp [hd]
      · have : f.mkdir_fails = false := by
          cases hf : f.mkdir_fails
          · rfl
          · exact absurd ⟨hd, hf⟩ hm
        simp [this]
    simp only [hm', Bool.false_eq_true, if_false] at h ⊢
    by_cases hd : w.g_store.conf_dir ∈ w.dirs
    · cases hp : get_file_path_by_name k w conflist.list.name with
      | none => simp [hd, hp] at h
      | some path =>
        cases hj : k.cni_net_conf_list_generate_json conflist.list with
        | none => simp [hd, hp, hj] at h
        | some json =>
          by_cases hx : path ∈ w.files
          · simp [hd, hp, hj, hx] at h
          · by_cases hw : f.write_fails = true
            · simp [hd, hp, hj, hx, hw] at h
            · exact ⟨json, path, rfl, rfl, hx, by simp [hd, hp, hj, hx, hw]⟩
    · cases hp : get_file_path_by_name k w conflist.list.name with
      | none => simp [hd, hp, hpath] at h
      | some path =>
        cases hj : k.cni_net_conf_list_generate_json conflist.list with
        | none => simp [hd, hp, hj, hpath] at h
        | some json =>
          by_cases hx : path ∈ w.files
          · simp [hd, hp, hj, hx, hpath] at h
          · by_cases hw : f.write_fails = true
            · simp [hd, hp, hj, hx, hw, hpath] at h
            · exact ⟨json, path, rfl, rfl, hx, by simp [hd, hp, hj, hx, hw, hpath]⟩

/-- What a successful `native_config_create` did: the check passed, the
builder produced a conflist, its file was written and the record was added to
the store. -/
theorem native_config_create_ok (k : build_consts) (f : io_faults) (w : world)
    (req : network_create_request) (h : (native_config_create k f w req).1.ret = 0) :
    ∃ list json path,
      (check_bridge k w req).1 = 0 ∧
      (conf_bridge k w req).list = some list ∧
      get_file_path_by_name k w list.name = some path ∧
      k.cni_net_conf_list_generate_json list = some json ∧
      path ∉ w.files ∧
      (native_config_create k f w req).1.name = some list.name ∧
      (native_config_create k f w req).2 =
        ⟨native_store_add_network w.g_store ⟨list, some json⟩, w.files ++ [path],
          if w.dirs.contains w.g_store.conf_dir then w.dirs else w.dirs ++ [w.g_store.conf_dir],
          w.interface_names, w.host_net_ip⟩ := by
  unfold native_config_create at h ⊢
  simp only at h ⊢
  cases hops : get_ops_by_driver req.driver with
  | none => simp [hops] at h
  | some pnet =>
    simp only [hops] at h ⊢
    by_cases hdrv : pnet.driver = "bridge"
    · obtain ⟨hc, hf⟩ := get_ops_by_driver_bridge req.driver pnet hops hdrv
      simp only [hdrv, ne_eq, not_true_eq_false, if_false, hc, hf] at h ⊢
      by_cases hchk : (check_bridge k w req).1 = 0
      · simp only [hchk, not_true_eq_false, if_false] at h ⊢
        cases hl : (conf_bridge k w req).list with
        | none => simp [hl] at h
        | some list =>
          simp only [hl] at h ⊢
          by_cases hret : (create_conflist_file k f w ⟨list, none⟩).1 = 0
          · obtain ⟨json, path, h1, h2, h3, h4⟩ := create_conflist_file_ok k f w ⟨list, none⟩ hret
            refine ⟨list, json, path, trivial, rfl, h1, h2, h3, ?_, ?_⟩
            · rw [h4]
              simp
            · rw [h4]
              simp
          · exfalso
            revert h
            rcases hcf : create_conflist_file k f w ⟨list, none⟩ with ⟨ret, msg, cl, w1⟩
            rw [hcf] at hret
            simp only at hret
            simp [hret]
      · simp [hchk] at h
    · simp [hdrv] at h

theorem check_host_ip_loop_zero_of_outside (net : ipnet) (hn : net.ip.length ≠ 0)
    (ips : List String)
    (h : ∀ s ∈ ips, ∀ ip, util_parse_ip_from_str s = some ip →
      util_net_contain_ip net ip true = false) :
    check_host_ip_loop net ips = 0 := by
  rcases check_host_ip_loop_zero_or_one net ips with h0 | h1
  · exact h0
  · obtain ⟨s, hs, ip, hp, hc⟩ := (check_host_ip_loop_eq_one_iff net hn ips).mp h1
    rw [h s hs ip hp] at hc
    cases hc

/-- On a store without networks the first bridge-name candidate is free
unless a host interface has that name. -/
theorem find_bridge_name_in_empty (conf_dir : String) (bin_paths files dirs ifs : List String)
    (ips : Option (List String)) (hif : bridge_name_candidate 0 ∉ ifs) :
    find_bridge_name_in ⟨⟨[], 0, conf_dir, bin_paths⟩, files, dirs, some ifs, ips⟩ =
      ⟨some "0isula-br", none⟩ := by
  have hc : bridge_name_candidate 0 = "0isula-br" := by decide
  have ht : ¬ bridge_name_taken [] [] ifs 0 := by simp [bridge_name_taken, hif]
  have hstep := find_bridge_name_loop_step [] [] ifs 1023 0
  simp only [ht, if_false, hc] at hstep
  simp [find_bridge_name_in, get_cni_config, find_bridge_name, MAX_BRIDGE_ID, hstep]

/-- On a store without networks the first private candidate is returned
unless a host address lies inside it. -/
theorem find_subnet_in_empty (conf_dir : String) (bin_paths files dirs ips : List String)
    (ifs : Option (List String))
    (hip : ∀ s ∈ ips, ∀ ip, util_parse_ip_from_str s = some ip →
      util_net_contain_ip ⟨[192, 168, 0, 0], [255, 255, 255, 0]⟩ ip true = false) :
    find_subnet_in ⟨⟨[], 0, conf_dir, bin_paths⟩, files, dirs, ifs, some ips⟩ =
      ⟨some "192.168.0.0/24", none⟩ := by
  have hc : private_candidate 0 = "192.168.0.0/24" := by decide
  have hparse : util_parse_ipnet_from_str "192.168.0.0/24" =
      some ⟨[192, 168, 0, 0], [255, 255, 255, 0]⟩ := by decide
  have hchk : check_subnet_available (private_candidate 0) [] ips = 0 := by
    rw [hc]
    simp only [check_subnet_available, hparse, check_subnets_loop, ne_eq, not_true_eq_false,
      if_false]
    exact check_host_ip_loop_zero_of_outside _ (by simp) ips hip
  have hstep := find_subnet_loop_step [] ips 69887 0 (by decide)
  simp only [hchk, if_true, previous_candidate] at hstep
  simp [find_subnet_in, get_cni_config, find_subnet, private_candidate_count, hstep, hc]

/-- C10: `Create` with the request `{internal:false}` (no name, driver, subnet
or gateway) on an empty store, on a host without an interface named
`0isula-br` and without an address inside 192.168.0.0/24, succeeds and leaves
exactly one record: it is named `0isula-br`, its bridge plugin has bridge
`0isula-br`, subnet 192.168.0.0/24, gateway 192.168.0.1, `is_gateway`,
`ip_masq` and `hairpin_mode` true, and its file
`<dir>/<prefix>0isula-br.conflist` is written. The candidate of index `i` is
the decimal number followed by `isula-br`. -/
theorem create_default_request (k : build_consts) (f : io_faults) (conf_dir : String)
    (bin_paths files dirs ifs ips : List String)
    (hif : "0isula-br" ∉ ifs)
    (hip : ∀ s ∈ ips, ∀ ip, util_parse_ip_from_str s = some ip →
      util_net_contain_ip ⟨[192, 168, 0, 0], [255, 255, 255, 0]⟩ ip true = false)
    (hmk : conf_dir ∈ dirs ∨ f.mkdir_fails = false) (hwr : f.write_fails = false)
    (hjson : ∀ l, k.cni_net_conf_list_generate_json l ≠ none)
    (hlen : (conf_dir ++ "/" ++ k.ISULAD_CNI_NETWORK_CONF_FILE_PRE ++ "0isula-br" ++
      ".conflist").utf8ByteSize < PATH_MAX)
    (hnew : conf_dir ++ "/" ++ k.ISULAD_CNI_NETWORK_CONF_FILE_PRE ++ "0isula-br" ++ ".conflist" ∉
      files) :
    (native_config_create k f ⟨⟨[], 0, conf_dir, bin_paths⟩, files, dirs, some ifs, some ips⟩
        ⟨none, none, none, none, false⟩).1.ret = 0 ∧
    (native_config_create k f ⟨⟨[], 0, conf_dir, bin_paths⟩, files, dirs, some ifs, some ips⟩
        ⟨none, none, none, none, false⟩).1.name = some "0isula-br" ∧
    (∃ record,
      (native_config_create k f ⟨⟨[], 0, conf_dir, bin_paths⟩, files, dirs, some ifs, some ips⟩
          ⟨none, none, none, none, false⟩).2.g_store.name_to_network = [("0isula-br", record)] ∧
      record.conflist.list.name = "0isula-br" ∧
      record.conflist.list.plugins.head? =
        some ⟨"bridge", some "0isula-br", true, true, true,
          some ⟨"host-local", ["0.0.0.0/0"], [[⟨some "192.168.0.0/24", some "192.168.0.1"⟩]]⟩,
          [], none⟩ ∧
      record.containers_list = []) ∧
    (native_config_create k f ⟨⟨[], 0, conf_dir, bin_paths⟩, files, dirs, some ifs, some ips⟩
        ⟨none, none, none, none, false⟩).2.g_store.network_len = 1 ∧
    (native_config_create k f ⟨⟨[], 0, conf_dir, bin_paths⟩, files, dirs, some ifs, some ips⟩
        ⟨none, none, none, none, false⟩).2.files =
      files ++ [conf_dir ++ "/" ++ k.ISULAD_CNI_NETWORK_CONF_FILE_PRE ++ "0isula-br" ++
        ".conflist"] ∧
    (∀ i, bridge_name_candidate i = Nat.repr i ++ "isula-br") := by
  have hc : bridge_name_candidate 0 = "0isula-br" := by decide
  have hbn := find_bridge_name_in_empty conf_dir bin_paths files dirs ifs (some ips)
    (by rw [hc]; exact hif)
  have hsn := find_subnet_in_empty conf_dir bin_paths files dirs ips (some ifs) hip
  have hgw : find_gateway "192.168.0.0/24" = ⟨some "192.168.0.1", none⟩ := by decide
  have hbp : conf_bridge_plugin k ⟨⟨[], 0, conf_dir, bin_paths⟩, files, dirs, some ifs, some ips⟩
      ⟨none, none, none, none, false⟩ =
      (some ⟨"bridge", some "0isula-br", true, true, true,
        some ⟨"host-local", ["0.0.0.0/0"], [[⟨some "192.168.0.0/24", some "192.168.0.1"⟩]]⟩,
        [], none⟩, none) := by
    simp [conf_bridge_plugin, conf_bridge_plugin_ipam, hbn, hsn, hgw]
  have hchk : check_bridge k ⟨⟨[], 0, conf_dir, bin_paths⟩, files, dirs, some ifs, some ips⟩
      ⟨none, none, none, none, false⟩ = (0, none) := by
    simp [check_bridge]
  have hops : get_ops_by_driver none = some ⟨"bridge", g_bridge_ops⟩ := rfl
  have hpathlen : ¬ (conf_dir ++ "/" ++ k.ISULAD_CNI_NETWORK_CONF_FILE_PRE ++ "0isula-br" ++
      ".conflist").utf8ByteSize ≥ PATH_MAX := by omega
  have hmk' : (!dirs.contains conf_dir && f.mkdir_fails) = false := by
    rcases hmk with h | h
    · simp [h]
    · simp [h]
  obtain ⟨rest, missing, hcb⟩ : ∃ rest missing,
      conf_bridge k ⟨⟨[], 0, conf_dir, bin_paths⟩, files, dirs, some ifs, some ips⟩
        ⟨none, none, none, none, false⟩ =
      ⟨some ⟨k.CURRENT_VERSION, "0isula-br",
        ⟨"bridge", some "0isula-br", true, true, true,
          some ⟨"host-local", ["0.0.0.0/0"], [[⟨some "192.168.0.0/24", some "192.168.0.1"⟩]]⟩,
          [], none⟩ :: rest⟩, missing, none⟩ := by
    unfold conf_bridge
    rw [conf_bridge_loop_table, hbp]
    exact ⟨_, _, rfl⟩
  obtain ⟨json, hj⟩ : ∃ json, k.cni_net_conf_list_generate_json ⟨k.CURRENT_VERSION, "0isula-br",
      ⟨"bridge", some "0isula-br", true, true, true,
        some ⟨"host-local", ["0.0.0.0/0"], [[⟨some "192.168.0.0/24", some "192.168.0.1"⟩]]⟩,
        [], none⟩ :: rest⟩ = some json :=
    Option.ne_none_iff_exists'.mp (hjson _)
  have hfile : create_conflist_file k f
      ⟨⟨[], 0, conf_dir, bin_paths⟩, files, dirs, some ifs, some ips⟩
      ⟨⟨k.CURRENT_VERSION, "0isula-br",
        ⟨"bridge", some "0isula-br", true, true, true,
          some ⟨"host-local", ["0.0.0.0/0"], [[⟨some "192.168.0.0/24", some "192.168.0.1"⟩]]⟩,
          [], none⟩ :: rest⟩, none⟩ =
      (0, none, ⟨⟨k.CURRENT_VERSION, "0isula-br",
        ⟨"bridge", some "0isula-br", true, true, true,
          some ⟨"host-local", ["0.0.0.0/0"], [[⟨some "192.168.0.0/24", some "192.168.0.1"⟩]]⟩,
          [], none⟩ :: rest⟩, some json⟩,
        ⟨⟨[], 0, conf_dir, bin_paths⟩,
          files ++ [conf_dir ++ "/" ++ k.ISULAD_CNI_NETWORK_CONF_FILE_PRE ++ "0isula-br" ++
            ".conflist"],
          if dirs.contains conf_dir then dirs else dirs ++ [conf_dir], some ifs, some ips⟩) := by
    have hpl : ¬ PATH_MAX ≤ (conf_dir ++ "/" ++ k.ISULAD_CNI_NETWORK_CONF_FILE_PRE ++
        "0isula-br" ++ ".conflist").utf8ByteSize := by omega
    unfold create_conflist_file
    simp only [hmk', Bool.false_eq_true, if_false, get_file_path_by_name, hpathlen, hj]
    by_cases hd : conf_dir ∈ dirs <;> simp [hd, hnew, hwr, hpl, hj]
  have hcreate : native_config_create k f
      ⟨⟨[], 0, conf_dir, bin_paths⟩, files, dirs, some ifs, some ips⟩
      ⟨none, none, none, none, false⟩ =
      (⟨0, some "0isula-br", none,
        set_missing_plugin_err_msg
          ⟨native_store_add_network ⟨[], 0, conf_dir, bin_paths⟩
            ⟨⟨k.CURRENT_VERSION, "0isula-br",
              ⟨"bridge", some "0isula-br", true, true, true,
                some ⟨"host-local", ["0.0.0.0/0"],
                  [[⟨some "192.168.0.0/24", some "192.168.0.1"⟩]]⟩,
                [], none⟩ :: rest⟩, some json⟩,
            files ++ [conf_dir ++ "/" ++ k.ISULAD_CNI_NETWORK_CONF_FILE_PRE ++ "0isula-br" ++
              ".conflist"],
            if dirs.contains conf_dir then dirs else dirs ++ [conf_dir], some ifs, some ips⟩
          missing⟩,
        ⟨native_store_add_network ⟨[], 0, conf_dir, bin_paths⟩
            ⟨⟨k.CURRENT_VERSION, "0isula-br",
              ⟨"bridge", some "0isula-br", true, true, true,
                some ⟨"host-local", ["0.0.0.0/0"],
                  [[⟨some "192.168.0.0/24", some "192.168.0.1"⟩]]⟩,
                [], none⟩ :: rest⟩, some json⟩,
          files ++ [conf_dir ++ "/" ++ k.ISULAD_CNI_NETWORK_CONF_FILE_PRE ++ "0isula-br" ++
            ".conflist"],
          if dirs.contains conf_dir then dirs else dirs ++ [conf_dir], some ifs, some ips⟩) := by
    unfold native_config_create
    simp only [hops, g_bridge_ops, hchk, hcb, hfile, ne_eq, not_true_eq_false, if_false]
  rw [hcreate]
  refine ⟨rfl, rfl, ⟨_, rfl, rfl, rfl, rfl⟩, rfl, rfl, ?_⟩
  intro i
  rfl

/-- C10, on a host with only the loopback interface: the default request
succeeds. -/
theorem create_default_request_witness :
    (native_config_create sample_consts no_faults
        ⟨⟨[], 0, "/etc/cni/net.d", ["/opt/cni/bin"]⟩, [], [], some ["lo"], some []⟩
        ⟨none, none, none, none, false⟩).1.ret = 0 :=
  (create_default_request sample_consts no_faults "/etc/cni/net.d" ["/opt/cni/bin"] [] []
    ["lo"] [] (by decide) (fun s hs => absurd hs (List.not_mem_nil s)) (Or.inr rfl) rfl
    (fun l => by simp [sample_consts]) (by decide) (List.not_mem_nil _)).1

theorem net_conflict_comm (a b : ipnet) : net_conflict a b = net_conflict b a := by
  unfold net_conflict
  by_cases h : a.ip.length ≠ b.ip.length ∨ a.ip_mask.length ≠ b.ip_mask.length
  · have h' : b.ip.length ≠ a.ip.length ∨ b.ip_mask.length ≠ a.ip_mask.length := by
      rcases h with h | h
      · exact Or.inl (Ne.symm h)
      · exact Or.inr (Ne.symm h)
    simp only [h, h', if_true]
  · have h' : ¬ (b.ip.length ≠ a.ip.length ∨ b.ip_mask.length ≠ a.ip_mask.length) := by
      intro hh
      apply h
      rcases hh with hh | hh
      · exact Or.inl (Ne.symm hh)
      · exact Or.inr (Ne.symm hh)
    simp only [h, h', if_false, Bool.or_comm]

/-- Clearing the host bits of a network does not change what it conflicts
with. -/
theorem net_conflict_reduce (t : ipnet) (a b c d m0 m1 m2 m3 : Nat) :
    net_conflict t (util_reduce_ip_by_mask ⟨[a, b, c, d], [m0, m1, m2, m3]⟩) =
      net_conflict t ⟨[a, b, c, d], [m0, m1, m2, m3]⟩ := by
  simp [net_conflict, util_reduce_ip_by_mask, util_net_contain_ip, bytes_and, Nat.land_assoc]

theorem check_zero_no_conflict (s : String) (n : ipnet) (subnets ips : List String)
    (hp : util_parse_ipnet_from_str s = some n)
    (h : check_subnet_available s subnets ips = 0) :
    ∀ t ∈ subnets, ∀ tn, util_parse_ipnet_from_str t = some tn → net_conflict tn n = 0 := by
  intro t ht tn htn
  rcases net_conflict_zero_or_one tn n with h0 | h1
  · exact h0
  · have hloop : check_subnets_loop n subnets = 1 :=
      (check_subnets_loop_eq_one_iff n subnets).mpr ⟨t, ht, tn, htn, h1⟩
    simp [check_subnet_available, hp, hloop] at h

/-- The text of a reduced parsed network parses to the reduced network. -/
theorem parse_reduced (s subnet : String) (net : ipnet)
    (hp : util_parse_ipnet_from_str s = some net)
    (hs : util_ipnet_to_string (util_reduce_ip_by_mask net) = some subnet) :
    util_parse_ipnet_from_str subnet = some (util_reduce_ip_by_mask net) := by
  obtain ⟨a, b, c, d, p, ha, hb, hc, hd, hpp, rfl⟩ := parse_ipnet_shape s net hp
  have hred : util_reduce_ip_by_mask ⟨[a, b, c, d], cidr_mask p 4⟩ =
      ⟨[a &&& mask_byte p 0, b &&& mask_byte p 1, c &&& mask_byte p 2, d &&& mask_byte p 3],
        cidr_mask p 4⟩ := by
    simp [util_reduce_ip_by_mask, cidr_mask_four, bytes_and]
  rw [hred] at hs ⊢
  rw [ipnet_to_string_of_bytes _ _ _ _ p hpp] at hs
  rw [← Option.some.inj hs]
  exact parse_ipnet_of_text _ _ _ _ p (and_byte_lt _ _ ha) (and_byte_lt _ _ hb)
    (and_byte_lt _ _ hc) (and_byte_lt _ _ hd) hpp

/-- A subnet returned by `find_subnet` parses and passed the check. -/
theorem find_subnet_value (cfg ips : List String) (subnet : String)
    (h : (find_subnet private_candidate_count cfg ips).value = some subnet) :
    ∃ net, util_parse_ipnet_from_str subnet = some net ∧
      check_subnet_available subnet cfg ips = 0 := by
  rcases find_subnet_loop_result cfg ips private_candidate_count (le_refl _) with
    ⟨k, hk, h0, _, hres⟩ | ⟨_, hres⟩
  · simp only [find_subnet, hres, Option.some.injEq] at h
    subst h
    exact ⟨_, parse_private_candidate k hk, h0⟩
  · simp [find_subnet, hres] at h

/-- A passed `check_bridge` on a request with a subnet: the host addresses
were read and the subnet passed `check_subnet_available`. -/
theorem check_bridge_subnet_ok (k : build_consts) (w : world) (req : network_create_request)
    (s : String) (hs : req.subnet = some s) (h : (check_bridge k w req).1 = 0) :
    ∃ ips, w.host_net_ip = some ips ∧
      check_subnet_available s (get_cni_config w.g_store get_config_subnet) ips = 0 := by
  unfold check_bridge at h
  simp only [hs] at h
  split at h
  · exact absurd h k.EINVALIDARGS_ne_zero
  · cases hh : w.host_net_ip with
    | none => simp [hh] at h
    | some ips =>
      simp only [hh] at h
      refine ⟨ips, rfl, ?_⟩
      split at h
      · exact absurd h k.EINVALIDARGS_ne_zero
      · exact h

/-- The subnet recorded by a successful builder after a passed check parses
and conflicts with no stored subnet. -/
theorem create_subnet_checked (k : build_consts) (w : world) (req : network_create_request)
    (ipam : cni_net_conf_ipam) (msg : Option String) (hchk : (check_bridge k w req).1 = 0)
    (hip : conf_bridge_plugin_ipam w req = (some ipam, msg)) :
    ∃ subnet gateway net,
      ipam = ⟨"host-local", ["0.0.0.0/0"], [[⟨some subnet, some gateway⟩]]⟩ ∧
      util_parse_ipnet_from_str subnet = some net ∧
      (∀ t ∈ get_cni_config w.g_store get_config_subnet, ∀ tn,
        util_parse_ipnet_from_str t = some tn → net_conflict tn net = 0) ∧
      (req.gateway = none → (find_gateway subnet).value = some gateway) := by
  obtain ⟨subnet, gateway, hipam, hsub, hgw⟩ := conf_bridge_plugin_ipam_some w req ipam msg hip
  have hgw' : req.gateway = none → (find_gateway subnet).value = some gateway := by
    intro hnone
    simpa [hnone] using hgw
  cases hs : req.subnet with
  | some s =>
    simp only [hs] at hsub
    obtain ⟨net0, hp0, hstr⟩ := hsub
    obtain ⟨ips, _, hck⟩ := check_bridge_subnet_ok k w req s hs hchk
    have hno := check_zero_no_conflict s net0 _ ips hp0 hck
    refine ⟨subnet, gateway, util_reduce_ip_by_mask net0, hipam, parse_reduced s subnet net0 hp0 hstr,
      ?_, hgw'⟩
    intro t ht tn htn
    obtain ⟨a, b, c, d, p, _, _, _, _, _, rfl⟩ := parse_ipnet_shape s net0 hp0
    rw [cidr_mask_four, net_conflict_reduce, ← cidr_mask_four]
    exact hno t ht tn htn
  | none =>
    simp only [hs] at hsub
    unfold find_subnet_in at hsub
    cases hh : w.host_net_ip with
    | none => simp [hh] at hsub
    | some ips =>
      simp only [hh] at hsub
      obtain ⟨net, hp, hck⟩ := find_subnet_value _ ips subnet hsub
      exact ⟨subnet, gateway, net, hipam, hp, check_zero_no_conflict subnet net _ ips hp hck, hgw'⟩

theorem mem_map_replace (m : List (String × native_network)) (key : String)
    (v : native_network) (x : String × native_network) (h : x ∈ map_replace m key v) :
    x ∈ m ∨ x = (key, v) := by
  induction m with
  | nil =>
    simp only [map_replace, List.mem_singleton] at h
    exact Or.inr h
  | cons kv rest ih =>
    obtain ⟨k', v'⟩ := kv
    unfold map_replace at h
    split at h
    · rcases List.mem_cons.mp h with h | h
      · exact Or.inr h
      · exact Or.inl (List.mem_cons_of_mem _ h)
    · rcases List.mem_cons.mp h with h | h
      · exact Or.inl (h ▸ List.mem_cons_self _ _)
      · rcases ih h with h | h
        · exact Or.inl (List.mem_cons_of_mem _ h)
        · exact Or.inr h

theorem pairwise_map_replace (R : String × native_network → String × native_network → Prop)
    (hsym : ∀ a b, R a b → R b a) (m : List (String × native_network)) (key : String)
    (v : native_network) (hnew : ∀ kv ∈ m, R kv (key, v)) (hp : m.Pairwise R) :
    (map_replace m key v).Pairwise R := by
  induction m with
  | nil => simp [map_replace]
  | cons kv rest ih =>
    obtain ⟨k', v'⟩ := kv
    rw [List.pairwise_cons] at hp
    unfold map_replace
    split
    · rw [List.pairwise_cons]
      exact ⟨fun x hx => hsym _ _ (hnew x (List.mem_cons_of_mem _ hx)), hp.2⟩
    · rw [List.pairwise_cons]
      refine ⟨?_, ih (fun x hx => hnew x (List.mem_cons_of_mem _ hx)) hp.2⟩
      intro x hx
      rcases mem_map_replace rest key v x hx with h | h
      · exact hp.1 x h
      · rw [h]
        exact hnew _ (List.mem_cons_self _ _)

theorem map_search_map_replace (m : List (String × native_network)) (key : String)
    (v : native_network) : map_search (map_replace m key v) key = some v := by
  induction m with
  | nil => simp [map_replace, map_search]
  | cons kv rest ih =>
    obtain ⟨k', v'⟩ := kv
    unfold map_replace
    split
    · simp [map_search]
    · rename_i hne
      simp [map_search, hne, ih]

theorem no_overlap_symm (r1 r2 : native_network) (h : no_overlap r1 r2) : no_overlap r2 r1 := by
  intro s1 hs1 s2 hs2 n1 n2 hn1 hn2
  rw [net_conflict_comm]
  exact h s2 hs2 s1 hs1 n2 n1 hn2 hn1

theorem filterMap_plugin_subnet_nil (rest : List cni_net_conf)
    (h : ∀ p ∈ rest, p.ipam = none ∧ p.type ≠ "bridge") :
    rest.filterMap plugin_subnet = [] ∧
      rest.filter (fun plugin => decide (plugin.type = "bridge")) = [] := by
  induction rest with
  | nil => simp
  | cons p rest ih =>
    have hp := h p (List.mem_cons_self _ _)
    have hr := ih (fun q hq => h q (List.mem_cons_of_mem _ hq))
    simp [List.filterMap_cons, List.filter_cons, plugin_subnet, hp.1, hp.2, hr.1, hr.2]

/-- The record of a conflist built by `conf_bridge` advertises the subnet of
its bridge plugin and nothing else. -/
theorem built_record_subnets (ver name bridge_name subnet gateway : String) (gw masq : Bool)
    (rest : List cni_net_conf) (bytes : Option String)
    (h : ∀ p ∈ rest, p.ipam = none ∧ p.type ≠ "bridge") :
    get_config_subnet ⟨ver, name,
        ⟨"bridge", some bridge_name, gw, masq, true,
          some ⟨"host-local", ["0.0.0.0/0"], [[⟨some subnet, some gateway⟩]]⟩, [], none⟩ :: rest⟩ =
      [subnet] ∧
    bridge_subnets (native_network_init ⟨⟨ver, name,
        ⟨"bridge", some bridge_name, gw, masq, true,
          some ⟨"host-local", ["0.0.0.0/0"], [[⟨some subnet, some gateway⟩]]⟩, [], none⟩ :: rest⟩,
        bytes⟩) = [subnet] := by
  obtain ⟨h1, h2⟩ := filterMap_plugin_subnet_nil rest h
  constructor
  · simp [get_config_subnet, List.filterMap_cons, plugin_subnet, h1]
  · simp [bridge_subnets, native_network_init, List.filter_cons, List.filterMap_cons,
      plugin_subnet, h2]

theorem mem_get_cni_config (store : native_store) (cb : cni_net_conf_list → List String)
    (kv : String × native_network) (s : String) (hkv : kv ∈ store.name_to_network)
    (hlen : store.network_len ≠ 0) (hs : s ∈ cb kv.2.conflist.list) :
    s ∈ get_cni_config store cb := by
  simp only [get_cni_config, hlen, if_false, List.mem_flatten, List.mem_map]
  exact ⟨_, ⟨kv, hkv, rfl⟩, hs⟩

/-- One successful `Create` keeps the stored subnets pairwise disjoint and
does not touch the host addresses. -/
theorem create_keeps_disjoint (k : build_consts) (f : io_faults) (w : world)
    (req : network_create_request) (hinv : subnets_disjoint w.g_store)
    (h : (native_config_create k f w req).1.ret = 0) :
    subnets_disjoint (native_config_create k f w req).2.g_store ∧
      (native_config_create k f w req).2.host_net_ip = w.host_net_ip := by
  obtain ⟨list, json, path, hchk, hl, _, _, _, _, hw⟩ := native_config_create_ok k f w req h
  obtain ⟨bp, msg, rest, hbp, hlist, hrest, _, _⟩ := conf_bridge_some k w req list hl
  obtain ⟨bn, ipam, msg2, _, hip, hbpeq⟩ := conf_bridge_plugin_some k w req bp msg hbp
  obtain ⟨subnet, gateway, net, hipam, hparse, hno, _⟩ :=
    create_subnet_checked k w req ipam msg2 hchk hip
  rw [hw]
  refine ⟨?_, rfl⟩
  subst hbpeq hipam
  obtain ⟨hsub1, hsub2⟩ := built_record_subnets k.CURRENT_VERSION
    (req.name.getD ((some bn).getD "")) bn subnet gateway (!req.internal) (!req.internal) rest
    (some json) hrest
  rw [← hlist] at hsub1 hsub2
  obtain ⟨hzero, hpair, hone⟩ := hinv
  have hnew : ∀ kv ∈ w.g_store.name_to_network,
      no_overlap kv.2 (native_network_init ⟨list, some json⟩) := by
    intro kv hkv s1 hs1 s2 hs2 n1 n2 hn1 hn2
    rw [hsub2, List.mem_singleton] at hs2
    subst hs2
    rw [hparse] at hn2
    cases hn2
    obtain ⟨s, n, hg, hb, _⟩ := hone kv hkv
    rw [hb, List.mem_singleton] at hs1
    subst hs1
    have hlen : w.g_store.network_len ≠ 0 := by
      intro h0
      rw [hzero h0] at hkv
      cases hkv
    exact hno s1 (mem_get_cni_config _ _ kv s1 hkv hlen (by rw [hg]; exact List.mem_singleton_self _))
      n1 hn1
  refine ⟨?_, ?_, ?_⟩
  · intro h0
    simp [native_store_add_network] at h0
  · exact pairwise_map_replace (fun a b => no_overlap a.2 b.2)
      (fun a b hab => no_overlap_symm _ _ hab) _ _ _ hnew hpair
  · intro kv hkv
    rcases mem_map_replace _ _ _ kv hkv with hold | hnew'
    · exact hone kv hold
    · rw [hnew']
      exact ⟨subnet, net, hsub1, hsub2, hparse⟩

theorem create_all_keeps_disjoint (k : build_consts)
    (reqs : List (io_faults × network_create_request)) :
    ∀ w w', subnets_disjoint w.g_store → create_all k w reqs = some w' →
      subnets_disjoint w'.g_store ∧ w'.host_net_ip = w.host_net_ip := by
  induction reqs with
  | nil =>
    intro w w' hinv h
    simp only [create_all, Option.some.injEq] at h
    subst h
    exact ⟨hinv, rfl⟩
  | cons fr rest ih =>
    intro w w' hinv h
    obtain ⟨f, req⟩ := fr
    simp only [create_all] at h
    split at h
    · rename_i hret
      obtain ⟨h1, h2⟩ := create_keeps_disjoint k f w req hinv hret
      obtain ⟨h3, h4⟩ := ih _ w' h1 h
      exact ⟨h3, h4.trans h2⟩
    · cases h

/-- C3: after any run of successful `Create` calls from an empty store, with
the host addresses fixed and the subnets given by the requests or allocated,
any two records of the store have bridge-plugin subnets that do not overlap
(`net_conflict` is 0 on them), and every record advertises exactly one
bridge-plugin subnet, which parses. -/
theorem created_subnets_do_not_overlap (k : build_consts) (conf_dir : String)
    (bin_paths files dirs : List String) (ifs ips : Option (List String))
    (reqs : List (io_faults × network_create_request)) (w' : world)
    (h : create_all k ⟨⟨[], 0, conf_dir, bin_paths⟩, files, dirs, ifs, ips⟩ reqs = some w') :
    w'.host_net_ip = ips ∧
    (∀ (i j : Nat) (r1 r2 : String × native_network), i ≠ j →
      w'.g_store.name_to_network[i]? = some r1 → w'.g_store.name_to_network[j]? = some r2 →
      no_overlap r1.2 r2.2) ∧
    (∀ kv ∈ w'.g_store.name_to_network, one_bridge_subnet kv.2) := by
  have h0 : subnets_disjoint
      (⟨⟨[], 0, conf_dir, bin_paths⟩, files, dirs, ifs, ips⟩ : world).g_store :=
    ⟨fun _ => rfl, List.Pairwise.nil, fun kv hkv => absurd hkv (List.not_mem_nil kv)⟩
  obtain ⟨⟨_, hpair, hone⟩, hip⟩ := create_all_keeps_disjoint k reqs _ w' h0 h
  refine ⟨hip, ?_, hone⟩
  intro i j r1 r2 hij h1 h2
  rw [List.pairwise_iff_getElem] at hpair
  obtain ⟨hi, e1⟩ := List.getElem?_eq_some.mp h1
  obtain ⟨hj, e2⟩ := List.getElem?_eq_some.mp h2
  rcases Nat.lt_or_gt_of_ne hij with l | g
  · have := hpair i j hi hj l
    rw [e1, e2] at this
    exact this
  · have := hpair j i hj hi g
    rw [e1, e2] at this
    exact no_overlap_symm _ _ this

/-- C3, on a run of two requests: the default one, then `net1` with the
subnet 10.5.6.7/24. -/
theorem created_subnets_do_not_overlap_witness :
    ∃ w', create_all sample_consts
        ⟨⟨[], 0, "/etc/cni/net.d", ["/opt/cni/bin"]⟩, [], [], some ["lo"], some ["127.0.0.1"]⟩
        [(no_faults, ⟨none, none, none, none, false⟩),
          (no_faults, ⟨some "net1", none, some "10.5.6.7/24", none, true⟩)] = some w' ∧
      w'.g_store.network_len = 2 ∧
      ∀ (i j : Nat) (r1 r2 : String × native_network), i ≠ j →
        w'.g_store.name_to_network[i]? = some r1 → w'.g_store.name_to_network[j]? = some r2 →
        no_overlap r1.2 r2.2 :=
  match h : create_all sample_consts
      ⟨⟨[], 0, "/etc/cni/net.d", ["/opt/cni/bin"]⟩, [], [], some ["lo"], some ["127.0.0.1"]⟩
      [(no_faults, ⟨none, none, none, none, false⟩),
        (no_faults, ⟨some "net1", none, some "10.5.6.7/24", none, true⟩)] with
  | some w' =>
    ⟨w', rfl, by
      have hd : (create_all sample_consts
          ⟨⟨[], 0, "/etc/cni/net.d", ["/opt/cni/bin"]⟩, [], [], some ["lo"],
            some ["127.0.0.1"]⟩
          [(no_faults, ⟨none, none, none, none, false⟩),
            (no_faults, ⟨some "net1", none, some "10.5.6.7/24", none, true⟩)]).map
          (fun w => w.g_store.network_len) = some 2 := by decide
      rw [h] at hd
      exact Option.some.inj hd,
      (created_subnets_do_not_overlap sample_consts "/etc/cni/net.d" ["/opt/cni/bin"] [] []
        (some ["lo"]) (some ["127.0.0.1"]) _ w' h).2.1⟩
  | none => absurd h (by decide)

/-- A gateway derived by `find_gateway` parses, lies inside the subnet and is
not its network address; it is not the broadcast address either unless the
last mask byte is 0xfe. -/
theorem find_gateway_value_contained (subnet g : String)
    (hg : (find_gateway subnet).value = some g) :
    ∃ net gip, util_parse_ipnet_from_str subnet = some net ∧
      util_parse_ip_from_str g = some gip ∧
      util_net_contain_ip net gip true = true ∧ gip ≠ network_address net ∧
      (net.ip_mask.getLast? ≠ some 0xfe → util_net_contain_ip net gip false = true) := by
  cases h : util_parse_ipnet_from_str subnet with
  | none => simp [find_gateway, h] at hg
  | some net =>
    obtain ⟨a, b, c, d, p, ha, hb, hc, hd, hp, rfl⟩ := parse_ipnet_shape subnet net h
    have hm : mask_byte p 3 ≠ 255 := by
      intro hm
      simp [find_gateway, h, cidr_mask_four, hm] at hg
    obtain ⟨hfg, hparse⟩ := find_gateway_of_parsed a b c d p subnet ha hb hc hd h hm
    rw [hfg] at hg
    simp only [Option.some.injEq] at hg
    subst hg
    obtain ⟨k1, k2, k3, _⟩ := first_host_ip_contained a b c d p ha hb hc hd hp hm
    exact ⟨_, _, rfl, hparse, k1, k2, fun hne => k3 (by simpa [cidr_mask_four] using hne)⟩

/-- C4 (amended): in the record of every successful `Create` whose request
gave no gateway, the recorded gateway parses, lies within the recorded subnet
and is not its network address; unless the subnet is a /31 (last mask byte
0xfe) it is not the broadcast address either. A gateway given by the request
is recorded as given. -/
theorem create_derived_gateway_inside (k : build_consts) (f : io_faults) (w : world)
    (req : network_create_request) (hreq : req.gateway = none)
    (h : (native_config_create k f w req).1.ret = 0) :
    ∃ name record bp s g net gip,
      (native_config_create k f w req).1.name = some name ∧
      map_search (native_config_create k f w req).2.g_store.name_to_network name = some record ∧
      record.conflist.list.name = name ∧
      record.conflist.list.plugins.head? = some bp ∧ bp.type = "bridge" ∧
      plugin_subnet bp = some s ∧ plugin_gateway bp = some g ∧
      util_parse_ipnet_from_str s = some net ∧ util_parse_ip_from_str g = some gip ∧
      util_net_contain_ip net gip true = true ∧ gip ≠ network_address net ∧
      (net.ip_mask.getLast? ≠ some 0xfe → util_net_contain_ip net gip false = true) := by
  obtain ⟨list, json, path, hchk, hl, _, _, _, hname, hw⟩ := native_config_create_ok k f w req h
  obtain ⟨bp, msg, rest, hbp, hlist, _, _, _⟩ := conf_bridge_some k w req list hl
  obtain ⟨bn, ipam, msg2, _, hip, hbpeq⟩ := conf_bridge_plugin_some k w req bp msg hbp
  obtain ⟨subnet, gateway, net0, hipam, _, _, hgw⟩ :=
    create_subnet_checked k w req ipam msg2 hchk hip
  obtain ⟨net, gip, hp, hpg, c1, c2, c3⟩ := find_gateway_value_contained subnet gateway (hgw hreq)
  refine ⟨list.name, native_network_init ⟨list, some json⟩, bp, subnet, gateway, net, gip, hname,
    ?_, rfl, ?_, ?_, ?_, ?_, hp, hpg, c1, c2, c3⟩
  · rw [hw]
    exact map_search_map_replace _ _ _
  · rw [hlist]
    rfl
  · rw [hbpeq]
  · rw [hbpeq, hipam]
    rfl
  · rw [hbpeq, hipam]
    rfl

/-- C4 (amended), on the default request against an empty store. -/
theorem create_derived_gateway_inside_witness :
    ∃ name record bp s g net gip,
      (native_config_create sample_consts no_faults
        ⟨⟨[], 0, "/etc/cni/net.d", ["/opt/cni/bin"]⟩, [], [], some ["lo"], some ["127.0.0.1"]⟩
        ⟨none, none, none, none, false⟩).1.name = some name ∧
      map_search (native_config_create sample_consts no_faults
        ⟨⟨[], 0, "/etc/cni/net.d", ["/opt/cni/bin"]⟩, [], [], some ["lo"], some ["127.0.0.1"]⟩
        ⟨none, none, none, none, false⟩).2.g_store.name_to_network name = some record ∧
      record.conflist.list.name = name ∧
      record.conflist.list.plugins.head? = some bp ∧ bp.type = "bridge" ∧
      plugin_subnet bp = some s ∧ plugin_gateway bp = some g ∧
      util_parse_ipnet_from_str s = some net ∧ util_parse_ip_from_str g = some gip ∧
      util_net_contain_ip net gip true = true ∧ gip ≠ network_address net ∧
      (net.ip_mask.getLast? ≠ some 0xfe → util_net_contain_ip net gip false = true) :=
  create_derived_gateway_inside sample_consts no_faults
    ⟨⟨[], 0, "/etc/cni/net.d", ["/opt/cni/bin"]⟩, [], [], some ["lo"], some ["127.0.0.1"]⟩
    ⟨none, none, none, none, false⟩ rfl (by decide)

/-- C4 (as stated) fails: `Create` with subnet 10.5.6.0/24 and gateway
192.168.0.1 succeeds on an empty store and records that gateway, which is not
inside the recorded subnet. -/
theorem create_records_gateway_outside_subnet :
    (native_config_create sample_consts no_faults
        ⟨⟨[], 0, "/etc/cni/net.d", ["/opt/cni/bin"]⟩, [], [], some ["lo"], some ["127.0.0.1"]⟩
        ⟨some "net1", none, some "10.5.6.0/24", some "192.168.0.1", false⟩).1.ret = 0 ∧
      (native_config_create sample_consts no_faults
        ⟨⟨[], 0, "/etc/cni/net.d", ["/opt/cni/bin"]⟩, [], [], some ["lo"], some ["127.0.0.1"]⟩
        ⟨some "net1", none, some "10.5.6.0/24", some "192.168.0.1", false⟩
        ).2.g_store.name_to_network.map
          (fun kv => (kv.1, kv.2.conflist.list.plugins.map
            (fun p => (p.type, plugin_subnet p, plugin_gateway p)))) =
        [("net1", [("bridge", some "10.5.6.0/24", some "192.168.0.1"),
          ("portmap", none, none), ("firewall", none, none)])] ∧
      util_parse_ipnet_from_str "10.5.6.0/24" = some ⟨[10, 5, 6, 0], [255, 255, 255, 0]⟩ ∧
      util_parse_ip_from_str "192.168.0.1" = some [192, 168, 0, 1] ∧
      util_net_contain_ip ⟨[10, 5, 6, 0], [255, 255, 255, 0]⟩ [192, 168, 0, 1] true = false := by
  decide

/-! ### Drivers, plugins and warnings -/

theorem get_ops_by_driver_other (d : String) (hne : d ≠ "bridge") :
    get_ops_by_driver (some d) = none ∨
      ∃ pnet, get_ops_by_driver (some d) = some pnet ∧ pnet.driver ≠ "bridge" := by
  by_cases h2 : d = "macvlan"
  · right
    subst h2
    exact ⟨⟨"macvlan", g_macvlan_ops⟩, by simp [get_ops_by_driver, g_drivers, List.find?],
      by decide⟩
  · left
    simp [get_ops_by_driver, g_drivers, List.find?, hne, h2]

/-- C13: an absent driver is treated as `bridge`: the call does what the same
request with driver `bridge` does. Every driver other than `bridge`
(`macvlan` and unknown names alike) makes `Create` return -1 with the input
error code and the message `Cannot support driver: X`, and the process state
(store, files, directories) is left as it was: no check, write or store
change took place. -/
theorem create_driver_gate (k : build_consts) (f : io_faults) (w : world)
    (name subnet gateway : Option String) (internal : Bool) :
    native_config_create k f w ⟨name, none, subnet, gateway, internal⟩ =
      native_config_create k f w ⟨name, some "bridge", subnet, gateway, internal⟩ ∧
    (∀ d, d ≠ "bridge" →
      native_config_create k f w ⟨name, some d, subnet, gateway, internal⟩ =
        (⟨-1, none, some isulad_cc.ISULAD_ERR_INPUT, some ("Cannot support driver: " ++ d)⟩, w)) ∧
    native_config_create k f w ⟨name, some "macvlan", subnet, gateway, internal⟩ =
      (⟨-1, none, some isulad_cc.ISULAD_ERR_INPUT, some "Cannot support driver: macvlan"⟩, w) := by
  have hother : ∀ d, d ≠ "bridge" →
      native_config_create k f w ⟨name, some d, subnet, gateway, internal⟩ =
        (⟨-1, none, some isulad_cc.ISULAD_ERR_INPUT,
          some ("Cannot support driver: " ++ d)⟩, w) := by
    intro d hne
    rcases get_ops_by_driver_other d hne with h | ⟨pnet, h, hp⟩
    · simp [native_config_create, h]
    · simp [native_config_create, h, hp]
  refine ⟨?_, hother, ?_⟩
  · have h1 : get_ops_by_driver none = some ⟨"bridge", g_bridge_ops⟩ := rfl
    have h2 : get_ops_by_driver (some "bridge") = some ⟨"bridge", g_bridge_ops⟩ := by
      simp [get_ops_by_driver, g_drivers, List.find?]
    simp only [native_config_create, h1, h2, g_bridge_ops]
    rfl
  · exact hother "macvlan" (by decide)

/-- The plugin types of a conflist built by `conf_bridge`. -/
theorem conf_bridge_types (k : build_consts) (w : world) (req : network_create_request)
    (list : cni_net_conf_list) (h : (conf_bridge k w req).list = some list) :
    list.plugins.map (fun p => p.type) =
      ["bridge", "portmap", "firewall"] ++
        (if cni_bin_detect w "dnsname" then ["dnsname"] else []) := by
  obtain ⟨bp, msg, rest, hbp, hlist, _, _, hrest⟩ := conf_bridge_some k w req list h
  obtain ⟨bn, ipam, msg2, _, _, hbpeq⟩ := conf_bridge_plugin_some k w req bp msg hbp
  rw [hlist, hrest, hbpeq]
  cases cni_bin_detect w "dnsname" <;>
    simp [conf_portmap_plugin, conf_firewall_plugin, conf_dnsname_plugin]

/-- C14: whatever plugin binaries the search paths hold, the plugins of a
conflist built by `conf_bridge` are, in this order, bridge, portmap, firewall
and then dnsname if and only if its binary is found; the first three are
emitted also when their binaries are missing, and without the dnsname binary
the conflist has exactly three plugins. -/
theorem conf_bridge_plugin_order (k : build_consts) (w : world) (req : network_create_request)
    (list : cni_net_conf_list) (h : (conf_bridge k w req).list = some list) :
    list.plugins.map (fun p => p.type) =
      ["bridge", "portmap", "firewall"] ++
        (if cni_bin_detect w "dnsname" then ["dnsname"] else []) ∧
    (cni_bin_detect w "dnsname" = true →
      list.plugins.map (fun p => p.type) = ["bridge", "portmap", "firewall", "dnsname"]) ∧
    (cni_bin_detect w "dnsname" = false →
      list.plugins.map (fun p => p.type) = ["bridge", "portmap", "firewall"] ∧
        list.plugins.length = 3) := by
  have ht := conf_bridge_types k w req list h
  refine ⟨ht, ?_, ?_⟩
  · intro hd
    rw [ht, hd]
    rfl
  · intro hd
    rw [hd] at ht
    refine ⟨by rw [ht]; rfl, ?_⟩
    have hl := congrArg List.length ht
    simpa using hl

/-- C14, on a host whose search path holds bridge, portmap and firewall but
not dnsname. -/
theorem conf_bridge_plugin_order_witness :
    ∃ list, (conf_bridge sample_consts
        ⟨⟨[], 0, "/etc/cni/net.d", ["/opt/cni/bin"]⟩,
          ["/opt/cni/bin/bridge", "/opt/cni/bin/portmap", "/opt/cni/bin/firewall"], [],
          some ["lo"], some ["127.0.0.1"]⟩
        ⟨none, none, none, none, false⟩).list = some list ∧
      list.plugins.map (fun p => p.type) = ["bridge", "portmap", "firewall"] ∧
      list.plugins.length = 3 :=
  match h : (conf_bridge sample_consts
      ⟨⟨[], 0, "/etc/cni/net.d", ["/opt/cni/bin"]⟩,
        ["/opt/cni/bin/bridge", "/opt/cni/bin/portmap", "/opt/cni/bin/firewall"], [],
        some ["lo"], some ["127.0.0.1"]⟩
      ⟨none, none, none, none, false⟩).list with
  | some list =>
    ⟨list, rfl, (conf_bridge_plugin_order sample_consts _ _ list h).2.2 (by decide)⟩
  | none => absurd h (by decide)

/-- C15 (as stated) fails: with bridge, portmap and firewall in the search
path and dnsname in none, the builder succeeds with three plugins and an empty
`missing` list: the missing dnsname is skipped, not recorded. -/
theorem conf_bridge_missing_dnsname_not_recorded :
    cni_bin_detect
        ⟨⟨[], 0, "/etc/cni/net.d", ["/opt/cni/bin"]⟩,
          ["/opt/cni/bin/bridge", "/opt/cni/bin/portmap", "/opt/cni/bin/firewall"], [],
          some ["lo"], some ["127.0.0.1"]⟩ "dnsname" = false ∧
      (conf_bridge sample_consts
        ⟨⟨[], 0, "/etc/cni/net.d", ["/opt/cni/bin"]⟩,
          ["/opt/cni/bin/bridge", "/opt/cni/bin/portmap", "/opt/cni/bin/firewall"], [],
          some ["lo"], some ["127.0.0.1"]⟩
        ⟨none, none, none, none, false⟩).missing = [] ∧
      ((conf_bridge sample_consts
        ⟨⟨[], 0, "/etc/cni/net.d", ["/opt/cni/bin"]⟩,
          ["/opt/cni/bin/bridge", "/opt/cni/bin/portmap", "/opt/cni/bin/firewall"], [],
          some ["lo"], some ["127.0.0.1"]⟩
        ⟨none, none, none, none, false⟩).list.map
          (fun l => l.plugins.map (fun p => p.type))) =
        some ["bridge", "portmap", "firewall"] := by
  decide

/-- C15 (amended): the `missing` list of a successful `conf_bridge` holds, in
assembly order, exactly those of bridge, portmap and firewall whose binary is
in none of the search paths; dnsname is never in it, and a dnsname whose
binary is missing is only left out of the conflist. -/
theorem conf_bridge_missing_list (k : build_consts) (w : world) (req : network_create_request)
    (list : cni_net_conf_list) (h : (conf_bridge k w req).list = some list) :
    (conf_bridge k w req).missing =
      ["bridge", "portmap", "firewall"].filter (fun p => !cni_bin_detect w p) ∧
    "dnsname" ∉ (conf_bridge k w req).missing ∧
    (cni_bin_detect w "dnsname" = false → ∀ p ∈ list.plugins, p.type ≠ "dnsname") := by
  obtain ⟨bp, msg, rest, hbp, hlist, _, hmiss, hrest⟩ := conf_bridge_some k w req list h
  have ht := conf_bridge_types k w req list h
  refine ⟨hmiss, ?_, ?_⟩
  · rw [hmiss]
    intro hmem
    have := (List.mem_filter.mp hmem).1
    revert this
    decide
  · intro hd p hp
    rw [hd] at ht
    have hmem : p.type ∈ list.plugins.map (fun p => p.type) := List.mem_map_of_mem _ hp
    rw [ht] at hmem
    intro he
    rw [he] at hmem
    revert hmem
    decide

/-- C15 (amended), on a host whose search path holds only the bridge binary. -/
theorem conf_bridge_missing_list_witness :
    (conf_bridge sample_consts
        ⟨⟨[], 0, "/etc/cni/net.d", ["/opt/cni/bin"]⟩, ["/opt/cni/bin/bridge"], [],
          some ["lo"], some ["127.0.0.1"]⟩
        ⟨none, none, none, none, false⟩).missing = ["portmap", "firewall"] :=
  match h : (conf_bridge sample_consts
      ⟨⟨[], 0, "/etc/cni/net.d", ["/opt/cni/bin"]⟩, ["/opt/cni/bin/bridge"], [],
        some ["lo"], some ["127.0.0.1"]⟩
      ⟨none, none, none, none, false⟩).list with
  | some list =>
    ((conf_bridge_missing_list sample_consts _ _ list h).1).trans (by decide)
  | none => absurd h (by decide)

/-- The response message of a successful `native_config_create` is the one of
`set_missing_plugin_err_msg` on the `missing` list of the builder. -/
theorem native_config_create_ok_message (k : build_consts) (f : io_faults) (w : world)
    (req : network_create_request) (h : (native_config_create k f w req).1.ret = 0) :
    (native_config_create k f w req).1.message =
      set_missing_plugin_err_msg w (conf_bridge k w req).missing ∧
    (native_config_create k f w req).1.cc = none := by
  unfold native_config_create at h ⊢
  simp only at h ⊢
  cases hops : get_ops_by_driver req.driver with
  | none => simp [hops] at h
  | some pnet =>
    simp only [hops] at h ⊢
    by_cases hdrv : pnet.driver = "bridge"
    · obtain ⟨hc, hf⟩ := get_ops_by_driver_bridge req.driver pnet hops hdrv
      simp only [hdrv, ne_eq, not_true_eq_false, if_false, hc, hf] at h ⊢
      by_cases hchk : (check_bridge k w req).1 = 0
      · simp only [hchk, not_true_eq_false, if_false] at h ⊢
        cases hl : (conf_bridge k w req).list with
        | none => simp [hl] at h
        | some list =>
          simp only [hl] at h ⊢
          by_cases hret : (create_conflist_file k f w ⟨list, none⟩).1 = 0
          · obtain ⟨json, path, _, _, _, h4⟩ := create_conflist_file_ok k f w ⟨list, none⟩ hret
            rw [h4]
            simp [set_missing_plugin_err_msg, native_store_add_network]
          · exfalso
            revert h
            rcases hcf : create_conflist_file k f w ⟨list, none⟩ with ⟨ret, msg, cl, w1⟩
            rw [hcf] at hret
            simp only at hret
            simp [hret]
      · simp [hchk] at h
    · simp [hdrv] at h

theorem basic_missing_ne_nil_iff (w : world) :
    ["bridge", "portmap", "firewall"].filter (fun p => !cni_bin_detect w p) ≠ [] ↔
      ∃ p ∈ ["bridge", "portmap", "firewall"], cni_bin_detect w p = false := by
  cases h1 : cni_bin_detect w "bridge" <;> cases h2 : cni_bin_detect w "portmap" <;>
    cases h3 : cni_bin_detect w "firewall" <;> simp [List.filter, h1, h2, h3]

/-- C16: a successful `Create` sets the response message to
`WARN:cannot find cni plugin "<csv>" in dir "<csv>"` (the missing plugins,
then the search paths, each joined by commas) when one of bridge, portmap and
firewall has no binary in the search paths, and sets no message otherwise:
the warning is there if and only if one of those three is missing, whether or
not dnsname is. -/
theorem create_warns_iff_plugin_missing (k : build_consts) (f : io_faults) (w : world)
    (req : network_create_request) (h : (native_config_create k f w req).1.ret = 0) :
    ((native_config_create k f w req).1.message ≠ none ↔
      ∃ p ∈ ["bridge", "portmap", "firewall"], cni_bin_detect w p = false) ∧
    ((∃ p ∈ ["bridge", "portmap", "firewall"], cni_bin_detect w p = false) →
      (native_config_create k f w req).1.message =
        some ("WARN:cannot find cni plugin \"" ++
          ",".intercalate
            (["bridge", "portmap", "firewall"].filter (fun p => !cni_bin_detect w p)) ++
          "\" in dir \"" ++ ",".intercalate w.g_store.bin_paths ++ "\"")) ∧
    (cni_bin_detect w "bridge" = true → cni_bin_detect w "portmap" = true →
      cni_bin_detect w "firewall" = true →
      (native_config_create k f w req).1.message = none ∧
        (conf_bridge k w req).missing = []) := by
  obtain ⟨hmsg, _⟩ := native_config_create_ok_message k f w req h
  obtain ⟨list, _, _, _, hl, _⟩ := native_config_create_ok k f w req h
  obtain ⟨_, _, _, _, _, _, hmiss, _⟩ := conf_bridge_some k w req list hl
  rw [hmsg, hmiss]
  have hiff := basic_missing_ne_nil_iff w
  refine ⟨?_, ?_, ?_⟩
  · rw [← hiff]
    by_cases he : ["bridge", "portmap", "firewall"].filter (fun p => !cni_bin_detect w p) = []
    · simp [set_missing_plugin_err_msg, he]
    · simp [set_missing_plugin_err_msg, he]
  · intro hex
    have hne := hiff.mpr hex
    simp [set_missing_plugin_err_msg, hne, util_string_join]
  · intro h1 h2 h3
    simp [set_missing_plugin_err_msg, List.filter, h1, h2, h3]

/-- C16, on a host whose search path holds bridge, portmap and firewall but
not dnsname: the default request succeeds without a warning. -/
theorem create_warns_iff_plugin_missing_witness :
    (native_config_create sample_consts no_faults
        ⟨⟨[], 0, "/etc/cni/net.d", ["/opt/cni/bin"]⟩,
          ["/opt/cni/bin/bridge", "/opt/cni/bin/portmap", "/opt/cni/bin/firewall"], [],
          some ["lo"], some ["127.0.0.1"]⟩
        ⟨none, none, none, none, false⟩).1.ret = 0 ∧
      ((native_config_create sample_consts no_faults
        ⟨⟨[], 0, "/etc/cni/net.d", ["/opt/cni/bin"]⟩,
          ["/opt/cni/bin/bridge", "/opt/cni/bin/portmap", "/opt/cni/bin/firewall"], [],
          some ["lo"], some ["127.0.0.1"]⟩
        ⟨none, none, none, none, false⟩).1.message = none ∧
      (conf_bridge sample_consts
        ⟨⟨[], 0, "/etc/cni/net.d", ["/opt/cni/bin"]⟩,
          ["/opt/cni/bin/bridge", "/opt/cni/bin/portmap", "/opt/cni/bin/firewall"], [],
          some ["lo"], some ["127.0.0.1"]⟩
        ⟨none, none, none, none, false⟩).missing = []) :=
  ⟨by decide,
    (create_warns_iff_plugin_missing sample_consts no_faults
      ⟨⟨[], 0, "/etc/cni/net.d", ["/opt/cni/bin"]⟩,
        ["/opt/cni/bin/bridge", "/opt/cni/bin/portmap", "/opt/cni/bin/firewall"], [],
        some ["lo"], some ["127.0.0.1"]⟩
      ⟨none, none, none, none, false⟩ (by decide)).2.2 (by decide) (by decide) (by decide)⟩

/-! ### Reduction of the subnet, name collision -/

/-- C11: in the record of every successful `Create` whose request gave a
subnet, the subnet of the bridge plugin is the text of the request subnet with
its host bits zeroed (it parses to the network address and the same mask), the
conflist name is the request name when one is given, and `is_gateway` and
`ip_masq` are the negation of `internal`. 192.168.2.5/16 is recorded as
192.168.0.0/16, and `{name: net1, subnet: 10.5.6.7/24, internal: true}` gives
name net1, subnet 10.5.6.0/24, gateway 10.5.6.1 and both flags false. -/
theorem create_records_reduced_subnet (k : build_consts) (f : io_faults) (w : world)
    (req : network_create_request) (s : String) (hs : req.subnet = some s)
    (h : (native_config_create k f w req).1.ret = 0) :
    (∃ net record bp recorded,
      util_parse_ipnet_from_str s = some net ∧
      (native_config_create k f w req).1.name = some record.conflist.list.name ∧
      map_search (native_config_create k f w req).2.g_store.name_to_network
        record.conflist.list.name = some record ∧
      record.conflist.list.plugins.head? = some bp ∧ bp.type = "bridge" ∧
      plugin_subnet bp = some recorded ∧
      util_ipnet_to_string (util_reduce_ip_by_mask net) = some recorded ∧
      util_parse_ipnet_from_str recorded = some ⟨network_address net, net.ip_mask⟩ ∧
      (∀ n, req.name = some n → record.conflist.list.name = n) ∧
      bp.is_gateway = !req.internal ∧ bp.ip_masq = !req.internal) ∧
    (native_config_create sample_consts no_faults
        ⟨⟨[], 0, "/etc/cni/net.d", ["/opt/cni/bin"]⟩, [], [], some ["lo"], some ["127.0.0.1"]⟩
        ⟨none, none, some "192.168.2.5/16", none, false⟩).2.g_store.name_to_network.map
          (fun kv => kv.2.conflist.list.plugins.head?.map plugin_subnet) =
      [some (some "192.168.0.0/16")] ∧
    (native_config_create sample_consts no_faults
        ⟨⟨[], 0, "/etc/cni/net.d", ["/opt/cni/bin"]⟩, [], [], some ["lo"], some ["127.0.0.1"]⟩
        ⟨some "net1", none, some "10.5.6.7/24", none, true⟩).2.g_store.name_to_network.map
          (fun kv => (kv.2.conflist.list.name,
            kv.2.conflist.list.plugins.head?.map
              (fun p => (plugin_subnet p, plugin_gateway p, p.is_gateway, p.ip_masq)))) =
      [("net1", some (some "10.5.6.0/24", some "10.5.6.1", false, false))] := by
  refine ⟨?_, by decide, by decide⟩
  obtain ⟨list, json, path, _, hl, _, _, _, hname, hw⟩ := native_config_create_ok k f w req h
  obtain ⟨bp, msg, rest, hbp, hlist, _, _, _⟩ := conf_bridge_some k w req list hl
  obtain ⟨bn, ipam, msg2, _, hip, hbpeq⟩ := conf_bridge_plugin_some k w req bp msg hbp
  obtain ⟨subnet, gateway, hipam, hsub, _⟩ := conf_bridge_plugin_ipam_some w req ipam msg2 hip
  simp only [hs] at hsub
  obtain ⟨net, hp, hstr⟩ := hsub
  refine ⟨net, native_network_init ⟨list, some json⟩, bp, subnet, hp, hname, ?_, ?_, ?_, ?_, hstr,
    parse_reduced s subnet net hp hstr, ?_, ?_, ?_⟩
  · rw [hw]
    exact map_search_map_replace _ _ _
  · rw [hlist]
    rfl
  · rw [hbpeq]
  · rw [hbpeq, hipam]
    rfl
  · intro n hn
    show list.name = n
    rw [hlist, hn]
    rfl
  · rw [hbpeq]
  · rw [hbpeq]

/-- C11, on the request `{name: net1, subnet: 10.5.6.7/24, internal: true}`
against an empty store. -/
theorem create_records_reduced_subnet_witness :
    ∃ net record bp recorded,
      util_parse_ipnet_from_str "10.5.6.7/24" = some net ∧
      (native_config_create sample_consts no_faults
        ⟨⟨[], 0, "/etc/cni/net.d", ["/opt/cni/bin"]⟩, [], [], some ["lo"], some ["127.0.0.1"]⟩
        ⟨some "net1", none, some "10.5.6.7/24", none, true⟩).1.name =
        some record.conflist.list.name ∧
      map_search (native_config_create sample_consts no_faults
        ⟨⟨[], 0, "/etc/cni/net.d", ["/opt/cni/bin"]⟩, [], [], some ["lo"], some ["127.0.0.1"]⟩
        ⟨some "net1", none, some "10.5.6.7/24", none, true⟩).2.g_store.name_to_network
        record.conflist.list.name = some record ∧
      record.conflist.list.plugins.head? = some bp ∧ bp.type = "bridge" ∧
      plugin_subnet bp = some recorded ∧
      util_ipnet_to_string (util_reduce_ip_by_mask net) = some recorded ∧
      util_parse_ipnet_from_str recorded = some ⟨network_address net, net.ip_mask⟩ ∧
      (∀ n, (some "net1" : Option String) = some n → record.conflist.list.name = n) ∧
      bp.is_gateway = !true ∧ bp.ip_masq = !true :=
  (create_records_reduced_subnet sample_consts no_faults
    ⟨⟨[], 0, "/etc/cni/net.d", ["/opt/cni/bin"]⟩, [], [], some ["lo"], some ["127.0.0.1"]⟩
    ⟨some "net1", none, some "10.5.6.7/24", none, true⟩ "10.5.6.7/24" rfl (by decide)).1

theorem get_ops_by_driver_supported (driver : Option String)
    (h : driver = none ∨ driver = some "bridge") :
    get_ops_by_driver driver = some ⟨"bridge", g_bridge_ops⟩ := by
  rcases h with h | h
  · subst h
    rfl
  · subst h
    simp [get_ops_by_driver, g_drivers, List.find?]

/-- C12: when the store holds a network named X (and its counter matches its
map), `Create` with the name X under the bridge driver returns -1 with the
input error code and the message `Network name "X" has been used`, and the
process state (map, counter, files, directories) is exactly what it was.
The comparison is exact: after `net1`, a request named `Net1` is accepted. -/
theorem create_name_collision (k : build_consts) (f : io_faults) (w : world)
    (req : network_create_request) (X : String) (hname : req.name = some X)
    (hdrv : req.driver = none ∨ req.driver = some "bridge")
    (hcount : w.g_store.network_len = w.g_store.name_to_network.length)
    (hX : ∃ kv ∈ w.g_store.name_to_network, kv.2.conflist.list.name = X) :
    native_config_create k f w req =
      (⟨-1, none, some isulad_cc.ISULAD_ERR_INPUT,
        some ("Network name \"" ++ X ++ "\" has been used")⟩, w) ∧
    (create_all sample_consts
        ⟨⟨[], 0, "/etc/cni/net.d", ["/opt/cni/bin"]⟩, [], [], some ["lo"], some ["127.0.0.1"]⟩
        [(no_faults, ⟨some "net1", none, none, none, false⟩),
          (no_faults, ⟨some "Net1", none, none, none, false⟩)]).map
          (fun w' => w'.g_store.name_to_network.map (fun kv => kv.1)) =
      some ["net1", "Net1"] := by
  refine ⟨?_, by decide⟩
  obtain ⟨kv, hkv, hkvname⟩ := hX
  have hlen : w.g_store.network_len ≠ 0 := by
    rw [hcount]
    intro h0
    rw [List.length_eq_zero] at h0
    rw [h0] at hkv
    cases hkv
  have hmem : X ∈ get_cni_config w.g_store get_config_net_name :=
    mem_get_cni_config _ _ kv X hkv hlen (by simp [get_config_net_name, hkvname])
  have hchk : check_bridge k w req =
      (k.EINVALIDARGS, some ("Network name \"" ++ X ++ "\" has been used")) := by
    simp [check_bridge, hname, util_string_array_contain, hmem]
  unfold native_config_create
  simp only [get_ops_by_driver_supported req.driver hdrv, g_bridge_ops, hchk, ne_eq,
    not_true_eq_false, if_false, k.EINVALIDARGS_ne_zero, not_false_eq_true, if_true]

/-- C12, on the second of two requests named `net1`. -/
theorem create_name_collision_witness :
    native_config_create sample_consts no_faults
        (native_config_create sample_consts no_faults
          ⟨⟨[], 0, "/etc/cni/net.d", ["/opt/cni/bin"]⟩, [], [], some ["lo"], some ["127.0.0.1"]⟩
          ⟨some "net1", none, none, none, false⟩).2
        ⟨some "net1", none, none, none, false⟩ =
      (⟨-1, none, some isulad_cc.ISULAD_ERR_INPUT, some "Network name \"net1\" has been used"⟩,
        (native_config_create sample_consts no_faults
          ⟨⟨[], 0, "/etc/cni/net.d", ["/opt/cni/bin"]⟩, [], [], some ["lo"], some ["127.0.0.1"]⟩
          ⟨some "net1", none, none, none, false⟩).2) :=
  (create_name_collision sample_consts no_faults
    (native_config_create sample_consts no_faults
      ⟨⟨[], 0, "/etc/cni/net.d", ["/opt/cni/bin"]⟩, [], [], some ["lo"], some ["127.0.0.1"]⟩
      ⟨some "net1", none, none, none, false⟩).2
    ⟨some "net1", none, none, none, false⟩ "net1" rfl (Or.inl rfl) (by decide) (by decide)).1

/-! ### Remove, attach and detach -/

theorem map_search_mem (m : List (String × native_network)) (key : String)
    (v : native_network) (h : map_search m key = some v) : (key, v) ∈ m := by
  induction m with
  | nil => simp [map_search] at h
  | cons kv rest ih =>
    obtain ⟨k', v'⟩ := kv
    unfold map_search at h
    split at h
    · rename_i hk
      simp only [Option.some.injEq] at h
      rw [← hk, ← h]
      exact List.mem_cons_self _ _
    · exact List.mem_cons_of_mem _ (ih h)

/-- With keys equal to names, the search by conflist name finds what the
lookup by key finds. -/
theorem find_by_name_eq_map_search (m : List (String × native_network)) (X : String)
    (hkeys : ∀ kv ∈ m, kv.1 = kv.2.conflist.list.name) :
    (m.find? (fun kv => kv.2.conflist.list.name = X)).map (fun kv => kv.2) = map_search m X := by
  induction m with
  | nil => rfl
  | cons kv rest ih =>
    obtain ⟨k', v'⟩ := kv
    have hk : k' = v'.conflist.list.name := hkeys (k', v') (List.mem_cons_self _ _)
    have ih' := ih (fun kv hkv => hkeys kv (List.mem_cons_of_mem _ hkv))
    by_cases hx : k' = X
    · have hx' : v'.conflist.list.name = X := hk ▸ hx
      simp [List.find?, map_search, hx, hx']
    · have hx' : ¬ v'.conflist.list.name = X := fun e => hx (hk.trans e)
      simp only [List.find?, map_search, hx, hx', decide_False, if_false]
      exact ih'

theorem get_network_by_name_found (store : native_store) (X : String) (record : native_network)
    (hkeys : keys_are_names store)
    (hcount : store.network_len = store.name_to_network.length)
    (hX : map_search store.name_to_network X = some record) :
    get_network_by_name store X = (some record, none) ∧ record.conflist.list.name = X := by
  have hmem := map_search_mem _ _ _ hX
  have hname : record.conflist.list.name = X := (hkeys _ hmem).symm
  have hlen : store.network_len ≠ 0 := by
    rw [hcount]
    intro h0
    rw [List.length_eq_zero] at h0
    rw [h0] at hmem
    cases hmem
  have hfind := find_by_name_eq_map_search store.name_to_network X hkeys
  rw [hX] at hfind
  refine ⟨?_, hname⟩
  unfold get_network_by_name
  simp only [hlen, if_false]
  cases hf : store.name_to_network.find? (fun kv => kv.2.conflist.list.name = X) with
  | none => simp [hf] at hfind
  | some kv =>
    simp only [hf, Option.map_some', Option.some.injEq] at hfind
    simp [hfind]

theorem get_ops_by_driver_remove (t : String) (pnet : net_driver)
    (h : get_ops_by_driver (some t) = some pnet) :
    (pnet.driver = "bridge" ∧ pnet.ops.remove = some remove_bridge) ∨
      (pnet.driver = "macvlan" ∧ pnet.ops.remove = none) := by
  simp only [get_ops_by_driver, g_drivers, List.find?] at h
  by_cases h1 : t = "bridge"
  · simp only [h1, decide_True, Option.some.injEq] at h
    subst h
    exact Or.inl ⟨rfl, rfl⟩
  · simp only [h1, decide_False] at h
    by_cases h2 : t = "macvlan"
    · simp only [h2, decide_True, Option.some.injEq] at h
      subst h
      exact Or.inr ⟨rfl, rfl⟩
    · simp [h2] at h

theorem get_ops_by_conflist_remove (list : cni_net_conf_list) (pnet : net_driver)
    (h : get_ops_by_conflist list = some pnet) :
    (pnet.driver = "bridge" ∧ pnet.ops.remove = some remove_bridge) ∨
      (pnet.driver = "macvlan" ∧ pnet.ops.remove = none) := by
  unfold get_ops_by_conflist at h
  obtain ⟨p, _, hp⟩ := List.exists_of_findSome?_eq_some h
  exact get_ops_by_driver_remove p.type pnet hp

theorem remove_interface_store (f : io_faults) (w : world) (ifa : String) :
    (remove_interface f w ifa).2.g_store = w.g_store := by
  unfold remove_interface
  split
  · rfl
  · split
    · rfl
    · split
      · rfl
      · split <;> rfl

theorem remove_bridge_store (f : io_faults) (w : world) (list : cni_net_conf_list) :
    (remove_bridge f w list).2.g_store = w.g_store := by
  unfold remove_bridge
  split
  · rfl
  · simp only
    split <;> exact remove_interface_store _ _ _

/-- The driver step of `Remove` never touches the store. -/
theorem remove_driver_step_store (f : io_faults) (w : world) (list : cni_net_conf_list)
    (message : Option String) : (remove_driver_step f w list message).2.g_store = w.g_store := by
  unfold remove_driver_step
  cases hops : get_ops_by_conflist list with
  | none => rfl
  | some pnet =>
    rcases get_ops_by_conflist_remove list pnet hops with ⟨_, hr⟩ | ⟨_, hr⟩
    · simp only [hr]
      split <;> exact remove_bridge_store _ _ _
    · simp only [hr]

theorem map_remove_present (m : List (String × native_network)) (X : String)
    (v : native_network) (h : (X, v) ∈ m) : (map_remove m X).1 = true := by
  simp only [map_remove, List.any_eq_true, decide_eq_true_eq]
  exact ⟨(X, v), h, rfl⟩

theorem map_search_filter_ne (m : List (String × native_network)) (X : String) :
    map_search (m.filter (fun kv => kv.1 ≠ X)) X = none := by
  induction m with
  | nil => rfl
  | cons kv rest ih =>
    obtain ⟨k', v'⟩ := kv
    by_cases hk : k' = X
    · simp only [List.filter, hk, ne_eq, not_true_eq_false, decide_False]
      exact ih
    · simp only [List.filter, hk, ne_eq, not_false_eq_true, decide_True, map_search, if_false]
      exact ih

theorem remove_interface_host (f : io_faults) (w : world) (ifa : String) :
    (remove_interface f w ifa).2.files = w.files ∧ (remove_interface f w ifa).2.dirs = w.dirs ∧
      (remove_interface f w ifa).2.host_net_ip = w.host_net_ip := by
  unfold remove_interface
  split
  · exact ⟨rfl, rfl, rfl⟩
  · split
    · exact ⟨rfl, rfl, rfl⟩
    · split
      · exact ⟨rfl, rfl, rfl⟩
      · split <;> exact ⟨rfl, rfl, rfl⟩

theorem remove_bridge_host (f : io_faults) (w : world) (list : cni_net_conf_list) :
    (remove_bridge f w list).2.files = w.files ∧ (remove_bridge f w list).2.dirs = w.dirs ∧
      (remove_bridge f w list).2.host_net_ip = w.host_net_ip := by
  unfold remove_bridge
  split
  · exact ⟨rfl, rfl, rfl⟩
  · simp only
    split <;> exact remove_interface_host _ _ _

/-- The driver step of `Remove` leaves files, directories and host addresses
as they were. -/
theorem remove_driver_step_host (f : io_faults) (w : world) (list : cni_net_conf_list)
    (message : Option String) :
    (remove_driver_step f w list message).2.files = w.files ∧
      (remove_driver_step f w list message).2.dirs = w.dirs ∧
      (remove_driver_step f w list message).2.host_net_ip = w.host_net_ip := by
  unfold remove_driver_step
  cases hops : get_ops_by_conflist list with
  | none => exact ⟨rfl, rfl, rfl⟩
  | some pnet =>
    rcases get_ops_by_conflist_remove list pnet hops with ⟨_, hr⟩ | ⟨_, hr⟩
    · simp only [hr]
      split <;> exact remove_bridge_host _ _ _
    · simp only [hr]
      exact ⟨trivial, trivial, trivial⟩

theorem get_file_path_by_name_congr (k : build_consts) (w w1 : world) (name : String)
    (hs : w1.g_store = w.g_store) :
    get_file_path_by_name k w1 name = get_file_path_by_name k w name := by
  simp only [get_file_path_by_name, hs]

/-- The files left by the file step of `Remove`. -/
theorem remove_file_step_files (k : build_consts) (f : io_faults) (w w1 : world) (name : String)
    (message : Option String) (hs : w1.g_store = w.g_store) (hf : w1.files = w.files) :
    (remove_file_step k f w1 name message).2 =
      match get_file_path_by_name k w name with
      | none => w.files
      | some path => (util_force_remove_file f w.files path).2 := by
  unfold remove_file_step
  rw [get_file_path_by_name_congr k w w1 name hs, hf]
  cases get_file_path_by_name k w name with
  | none => rfl
  | some path =>
    simp only
    split <;> rfl

/-- What `native_config_remove` does on a network without containers: it
returns 0 whatever fails on the way, the entry leaves the map and the counter
goes down by one. -/
theorem native_config_remove_ok (k : build_consts) (f : io_faults) (w : world) (X : String)
    (record : native_network) (hkeys : keys_are_names w.g_store)
    (hcount : w.g_store.network_len = w.g_store.name_to_network.length)
    (hX : map_search w.g_store.name_to_network X = some record)
    (hempty : record.containers_list = []) :
    (native_config_remove k f w X).1.ret = 0 ∧
    (native_config_remove k f w X).1.res_name = some X ∧
    (native_config_remove k f w X).2.g_store =
      ⟨w.g_store.name_to_network.filter (fun kv => kv.1 ≠ X), w.g_store.network_len - 1,
        w.g_store.conf_dir, w.g_store.bin_paths⟩ ∧
    (native_config_remove k f w X).2.files =
      (match get_file_path_by_name k w X with
        | none => w.files
        | some path => (util_force_remove_file f w.files path).2) ∧
    (native_config_remove k f w X).1.message =
      (remove_file_step k f (remove_driver_step f w record.conflist.list none).2 X
        (remove_driver_step f w record.conflist.list none).1).1 := by
  obtain ⟨hg, hname⟩ := get_network_by_name_found w.g_store X record hkeys hcount hX
  have hc : has_connected_container record = false := by
    simp [has_connected_container, hempty]
  have hs := remove_driver_step_store f w record.conflist.list none
  have hh := remove_driver_step_host f w record.conflist.list none
  have hpresent := map_remove_present _ _ _ (map_search_mem _ _ _ hX)
  unfold native_config_remove
  simp only [hg, hc, Bool.false_eq_true, if_false, hname, hs]
  refine ⟨trivial, trivial, ?_, ?_, ?_⟩
  · simp only [remove_entry_step, hpresent, Bool.not_true, Bool.false_eq_true, if_false]
    rfl
  · exact remove_file_step_files k f w _ X _ hs hh.1
  · simp only [remove_entry_step, hpresent, Bool.not_true, Bool.false_eq_true, if_false]

/-- `Remove` on a network with connected containers. -/
theorem native_config_remove_in_use (k : build_consts) (f : io_faults) (w : world) (X : String)
    (record : native_network) (hkeys : keys_are_names w.g_store)
    (hcount : w.g_store.network_len = w.g_store.name_to_network.length)
    (hX : map_search w.g_store.name_to_network X = some record)
    (hne : record.containers_list ≠ []) :
    native_config_remove k f w X =
      (⟨-1, none, some ("network " ++ X ++ " has connected containers")⟩, w) := by
  obtain ⟨hg, hname⟩ := get_network_by_name_found w.g_store X record hkeys hcount hX
  have hc : has_connected_container record = true := by
    cases hl : record.containers_list with
    | nil => exact absurd hl hne
    | cons a l => simp [has_connected_container, hl]
  unfold native_config_remove
  simp only [hg, hc, if_true, hname]

theorem map_search_map_modify (m : List (String × native_network)) (X : String)
    (g : native_network → native_network) :
    map_search (map_modify m X g) X = (map_search m X).map g := by
  induction m with
  | nil => rfl
  | cons kv rest ih =>
    obtain ⟨k', v'⟩ := kv
    by_cases hk : k' = X
    · simp [map_modify, map_search, hk]
    · simp [map_modify, map_search, hk, ih]

theorem map_modify_length (m : List (String × native_network)) (X : String)
    (g : native_network → native_network) : (map_modify m X g).length = m.length := by
  induction m with
  | nil => rfl
  | cons kv rest ih =>
    obtain ⟨k', v'⟩ := kv
    by_cases hk : k' = X
    · simp [map_modify, hk]
    · simp [map_modify, hk, ih]

theorem map_modify_keys (m : List (String × native_network)) (X : String)
    (g : native_network → native_network) (hg : ∀ n, (g n).conflist = n.conflist)
    (hkeys : ∀ kv ∈ m, kv.1 = kv.2.conflist.list.name) :
    ∀ kv ∈ map_modify m X g, kv.1 = kv.2.conflist.list.name := by
  induction m with
  | nil =>
    intro kv hkv
    cases hkv
  | cons kv0 rest ih =>
    obtain ⟨k', v'⟩ := kv0
    have h0 : k' = v'.conflist.list.name := hkeys (k', v') (List.mem_cons_self _ _)
    have hrest : ∀ kv ∈ rest, kv.1 = kv.2.conflist.list.name :=
      fun kv hkv => hkeys kv (List.mem_cons_of_mem _ hkv)
    intro kv hkv
    unfold map_modify at hkv
    split at hkv
    · rcases List.mem_cons.mp hkv with e | e
      · rw [e]
        simp only [hg]
        exact h0
      · exact hrest kv e
    · rcases List.mem_cons.mp hkv with e | e
      · rw [e]
        exact h0
      · exact ih hrest kv e

/-- One existing network in `extral_nets`: the store after
`do_add_container_list`. -/
theorem do_add_container_list_found (store : native_store) (X pod : String)
    (record : native_network) (hX : map_search store.name_to_network X = some record) :
    do_add_container_list store (some X) pod =
      (0, ⟨map_modify store.name_to_network X
          (fun network => ⟨network.conflist, network.containers_list ++ [pod]⟩),
        store.network_len, store.conf_dir, store.bin_paths⟩) := by
  simp [do_add_container_list, hX]

theorem do_remove_container_list_found (store : native_store) (X pod : String)
    (record : native_network) (hX : map_search store.name_to_network X = some record) :
    do_remove_container_list store (some X) pod =
      ⟨map_modify store.name_to_network X
          (fun network => ⟨network.conflist, network.containers_list.erase pod⟩),
        store.network_len, store.conf_dir, store.bin_paths⟩ := by
  simp [do_remove_container_list, hX]

/-- Attach with the single entry `(X, ifname)` on a store that has X: the
store is as before, or, when the call succeeds, `pod` is at the tail of the
container list of X. -/
theorem attach_single_store (inv : cni_invoker) (w : world) (X pod netns ifname : String)
    (args : List (String × String)) (ann : Option (List (String × String)))
    (record : native_network) (hX : map_search w.g_store.name_to_network X = some record) :
    ((native_attach_networks inv w ⟨pod, netns, args, ann, [⟨some X, some ifname⟩]⟩).1.ret ≠ 0 ∧
        (native_attach_networks inv w ⟨pod, netns, args, ann, [⟨some X, some ifname⟩]⟩).2 = w) ∨
      ((native_attach_networks inv w ⟨pod, netns, args, ann, [⟨some X, some ifname⟩]⟩).1.ret = 0 ∧
        w.g_store.network_len ≠ 0 ∧
        (native_attach_networks inv w ⟨pod, netns, args, ann,
            [⟨some X, some ifname⟩]⟩).2.g_store =
          ⟨map_modify w.g_store.name_to_network X
              (fun network => ⟨network.conflist, network.containers_list ++ [pod]⟩),
            w.g_store.network_len, w.g_store.conf_dir, w.g_store.bin_paths⟩) ∨
      (w.g_store.network_len = 0 ∧
        (native_attach_networks inv w ⟨pod, netns, args, ann, [⟨some X, some ifname⟩]⟩).2 = w) := by
  by_cases hlen : w.g_store.network_len = 0
  · right
    right
    exact ⟨hlen, by simp [native_attach_networks, hlen]⟩
  · by_cases hlo : inv.attach_loopback pod netns = 0
    · by_cases hop : (inv.attach_network_plane 0
          ⟨pod, netns, args, ifname, ann⟩ record.conflist).1 = 0
      · right
        left
        have hadd := do_add_container_list_found w.g_store X pod record hX
        refine ⟨?_, hlen, ?_⟩
        · simp [native_attach_networks, hlen, hlo, do_foreach_network_op,
            do_foreach_network_op_loop, hX, hop, add_container_loop, hadd]
        · simp [native_attach_networks, hlen, hlo, do_foreach_network_op,
            do_foreach_network_op_loop, hX, hop, add_container_loop, hadd]
      · left
        constructor
        · simp [native_attach_networks, hlen, hlo, do_foreach_network_op,
            do_foreach_network_op_loop, hX, hop]
        · simp [native_attach_networks, hlen, hlo, do_foreach_network_op,
            do_foreach_network_op_loop, hX, hop]
    · left
      constructor
      · simp [native_attach_networks, hlen, hlo]
      · simp [native_attach_networks, hlen, hlo]

/-- Detach with the single entry `(X, ifname)`: the store afterwards. -/
theorem detach_single_store (inv : cni_invoker) (w : world) (X pod netns ifname : String)
    (args : List (String × String)) (ann : Option (List (String × String)))
    (record : native_network) (hX : map_search w.g_store.name_to_network X = some record) :
    (native_detach_networks inv w ⟨pod, netns, args, ann, [⟨some X, some ifname⟩]⟩).2.g_store =
      ⟨map_modify w.g_store.name_to_network X
          (fun network => ⟨network.conflist, network.containers_list.erase pod⟩),
        w.g_store.network_len, w.g_store.conf_dir, w.g_store.bin_paths⟩ := by
  simp [native_detach_networks, remove_container_loop,
    do_remove_container_list_found w.g_store X pod record hX]

/-- A store whose record X was changed in its container list only is still
well formed, and X is found with the changed list. -/
theorem modified_store_wf (store : native_store) (X : String) (record : native_network)
    (g : native_network → native_network) (hg : ∀ n, (g n).conflist = n.conflist)
    (hkeys : keys_are_names store)
    (hcount : store.network_len = store.name_to_network.length)
    (hX : map_search store.name_to_network X = some record) :
    keys_are_names ⟨map_modify store.name_to_network X g, store.network_len, store.conf_dir,
        store.bin_paths⟩ ∧
      store.network_len = (map_modify store.name_to_network X g).length ∧
      map_search (map_modify store.name_to_network X g) X = some (g record) := by
  refine ⟨map_modify_keys _ X g hg hkeys, ?_, ?_⟩
  · rw [map_modify_length]
    exact hcount
  · rw [map_search_map_modify, hX]
    rfl

/-- C17: `Remove` of a network X whose container list is not empty returns -1
with the message `network X has connected containers` and leaves the process
state (record, file, map, counter) exactly as it was. From an empty container
list, after an `Attach` of a pod to X that succeeds `Remove` is refused in
that way, and after the `Detach` of that pod that follows, `Remove` of X
returns 0 and X is no longer in the map. -/
theorem remove_refused_while_attached (k : build_consts) (f : io_faults) (inv : cni_invoker)
    (w : world) (X : String) (record : native_network) (hkeys : keys_are_names w.g_store)
    (hcount : w.g_store.network_len = w.g_store.name_to_network.length)
    (hX : map_search w.g_store.name_to_network X = some record) :
    (record.containers_list ≠ [] →
      native_config_remove k f w X =
        (⟨-1, none, some ("network " ++ X ++ " has connected containers")⟩, w)) ∧
    (record.containers_list = [] →
      ∀ (pod netns ifname : String) (args : List (String × String))
        (ann : Option (List (String × String))) (host : world),
        ((native_attach_networks inv w
            ⟨pod, netns, args, ann, [⟨some X, some ifname⟩]⟩).1.ret = 0 →
          native_config_remove k f
              (native_attach_networks inv w ⟨pod, netns, args, ann, [⟨some X, some ifname⟩]⟩).2
              X =
            (⟨-1, none, some ("network " ++ X ++ " has connected containers")⟩,
              (native_attach_networks inv w
                ⟨pod, netns, args, ann, [⟨some X, some ifname⟩]⟩).2)) ∧
        (host.g_store =
            (native_detach_networks inv
              (native_attach_networks inv w ⟨pod, netns, args, ann, [⟨some X, some ifname⟩]⟩).2
              ⟨pod, netns, args, ann, [⟨some X, some ifname⟩]⟩).2.g_store →
          (native_config_remove k f host X).1.ret = 0 ∧
            map_search (native_config_remove k f host X).2.g_store.name_to_network X = none)) := by
  refine ⟨fun hne => native_config_remove_in_use k f w X record hkeys hcount hX hne, ?_⟩
  intro hempty pod netns ifname args ann host
  have hwf_add := modified_store_wf w.g_store X record
    (fun network => ⟨network.conflist, network.containers_list ++ [pod]⟩) (fun _ => rfl)
    hkeys hcount hX
  have hlen : w.g_store.network_len ≠ 0 := by
    rw [hcount]
    intro h0
    rw [List.length_eq_zero] at h0
    rw [h0] at hX
    simp [map_search] at hX
  -- the store after the attach is well formed, and X has no container or only `pod`
  have hafter : ∃ r, keys_are_names
        (native_attach_networks inv w ⟨pod, netns, args, ann, [⟨some X, some ifname⟩]⟩).2.g_store ∧
      (native_attach_networks inv w
          ⟨pod, netns, args, ann, [⟨some X, some ifname⟩]⟩).2.g_store.network_len =
        (native_attach_networks inv w
          ⟨pod, netns, args, ann, [⟨some X, some ifname⟩]⟩).2.g_store.name_to_network.length ∧
      map_search (native_attach_networks inv w
          ⟨pod, netns, args, ann, [⟨some X, some ifname⟩]⟩).2.g_store.name_to_network X =
        some r ∧
      r.containers_list.erase pod = [] ∧
      ((native_attach_networks inv w
          ⟨pod, netns, args, ann, [⟨some X, some ifname⟩]⟩).1.ret = 0 →
        r.containers_list ≠ []) := by
    rcases attach_single_store inv w X pod netns ifname args ann record hX with
      ⟨hret, hw⟩ | ⟨_, _, hs⟩ | ⟨h0, _⟩
    · rw [hw]
      exact ⟨record, hkeys, hcount, hX, by simp [hempty], fun h => absurd h hret⟩
    · rw [hs]
      exact ⟨_, hwf_add.1, hwf_add.2.1, hwf_add.2.2, by simp [hempty], by simp⟩
    · exact absurd h0 hlen
  obtain ⟨r, hk1, hc1, hx1, herase, hnonempty⟩ := hafter
  constructor
  · intro hret
    exact native_config_remove_in_use k f _ X r hk1 hc1 hx1 (hnonempty hret)
  · intro hhost
    rw [detach_single_store inv _ X pod netns ifname args ann r hx1] at hhost
    have hwf := modified_store_wf _ X r
      (fun network => ⟨network.conflist, network.containers_list.erase pod⟩) (fun _ => rfl)
      hk1 hc1 hx1
    have hk2 : keys_are_names host.g_store := by
      rw [hhost]
      exact hwf.1
    have hc2 : host.g_store.network_len = host.g_store.name_to_network.length := by
      rw [hhost]
      exact hwf.2.1
    have hx2 : map_search host.g_store.name_to_network X =
        some ⟨r.conflist, r.containers_list.erase pod⟩ := by
      rw [hhost]
      exact hwf.2.2
    obtain ⟨h1, _, h3, _⟩ := native_config_remove_ok k f host X _ hk2 hc2 hx2 herase
    refine ⟨h1, ?_⟩
    rw [h3]
    exact map_search_filter_ne _ X

/-- C17, on the network `net1` just created: after the attach and the detach
of the pod `c1`, `Remove` succeeds. -/
theorem remove_refused_while_attached_witness :
    (native_config_remove sample_consts no_faults
      (native_detach_networks sample_invoker
        (native_attach_networks sample_invoker
          (native_config_create sample_consts no_faults
            ⟨⟨[], 0, "/etc/cni/net.d", ["/opt/cni/bin"]⟩, [], [], some ["lo"],
              some ["127.0.0.1"]⟩
            ⟨some "net1", none, none, none, false⟩).2
          ⟨"c1", "/proc/1/ns/net", [], none, [⟨some "net1", some "eth0"⟩]⟩).2
        ⟨"c1", "/proc/1/ns/net", [], none, [⟨some "net1", some "eth0"⟩]⟩).2 "net1").1.ret = 0 :=
  match h : map_search (native_config_create sample_consts no_faults
      ⟨⟨[], 0, "/etc/cni/net.d", ["/opt/cni/bin"]⟩, [], [], some ["lo"], some ["127.0.0.1"]⟩
      ⟨some "net1", none, none, none, false⟩).2.g_store.name_to_network "net1" with
  | some record =>
    (((remove_refused_while_attached sample_consts no_faults sample_invoker
      (native_config_create sample_consts no_faults
        ⟨⟨[], 0, "/etc/cni/net.d", ["/opt/cni/bin"]⟩, [], [], some ["lo"], some ["127.0.0.1"]⟩
        ⟨some "net1", none, none, none, false⟩).2 "net1" record (by decide) (by decide) h).2
      (by
        have hd : (map_search (native_config_create sample_consts no_faults
            ⟨⟨[], 0, "/etc/cni/net.d", ["/opt/cni/bin"]⟩, [], [], some ["lo"],
              some ["127.0.0.1"]⟩
            ⟨some "net1", none, none, none, false⟩).2.g_store.name_to_network "net1").map
            (fun r => r.containers_list) = some [] := by decide
        rw [h] at hd
        exact Option.some.inj hd)
      "c1" "/proc/1/ns/net" "eth0" [] none _).2 rfl).1
  | none => absurd h (by decide)

/-- C18: `Remove` of an existing network X without containers returns 0, X
leaves the map and the counter goes down by one, whatever fails on the way
(the removal of the host bridge interface, the deletion of the conflist
file); such failures only add warning text to the message. With both
failing on the network `net1`, the call still returns 0 with the two
warnings, and the store is empty. -/
theorem remove_succeeds_despite_faults (k : build_consts) (f : io_faults) (w : world)
    (X : String) (record : native_network) (hkeys : keys_are_names w.g_store)
    (hcount : w.g_store.network_len = w.g_store.name_to_network.length)
    (hX : map_search w.g_store.name_to_network X = some record)
    (hempty : record.containers_list = []) :
    (native_config_remove k f w X).1.ret = 0 ∧
    (native_config_remove k f w X).1.res_name = some X ∧
    map_search (native_config_remove k f w X).2.g_store.name_to_network X = none ∧
    (native_config_remove k f w X).2.g_store.name_to_network =
      w.g_store.name_to_network.filter (fun kv => kv.1 ≠ X) ∧
    (native_config_remove k f w X).2.g_store.network_len = w.g_store.network_len - 1 ∧
    (native_config_remove sample_consts ⟨false, false, true, true⟩
        ⟨⟨[("net1", ⟨⟨⟨"0.4.0", "net1",
            [⟨"bridge", some "0isula-br", true, true, true, none, [], none⟩]⟩, none⟩, []⟩)], 1,
          "/etc/cni/net.d", ["/opt/cni/bin"]⟩,
          ["/etc/cni/net.d/isulad-net1.conflist"], ["/etc/cni/net.d"],
          some ["lo", "0isula-br"], some ["127.0.0.1"]⟩ "net1") =
      (⟨0, some "net1",
          some ("Failed to remove bridge interface. " ++
            "Failed to delete /etc/cni/net.d/isulad-net1.conflist.")⟩,
        ⟨⟨[], 0, "/etc/cni/net.d", ["/opt/cni/bin"]⟩,
          ["/etc/cni/net.d/isulad-net1.conflist"], ["/etc/cni/net.d"],
          some ["lo", "0isula-br"], some ["127.0.0.1"]⟩) := by
  obtain ⟨h1, h2, h3, _, _⟩ := native_config_remove_ok k f w X record hkeys hcount hX hempty
  refine ⟨h1, h2, ?_, ?_, ?_, by decide⟩
  · rw [h3]
    exact map_search_filter_ne _ X
  · rw [h3]
  · rw [h3]

/-- C18, on the network `net1` just created, with the interface removal and
the file deletion both failing. -/
theorem remove_succeeds_despite_faults_witness :
    (native_config_remove sample_consts ⟨false, false, true, true⟩
      (native_config_create sample_consts no_faults
        ⟨⟨[], 0, "/etc/cni/net.d", ["/opt/cni/bin"]⟩, [], [], some ["lo"], some ["127.0.0.1"]⟩
        ⟨some "net1", none, none, none, false⟩).2 "net1").1.ret = 0 :=
  match h : map_search (native_config_create sample_consts no_faults
      ⟨⟨[], 0, "/etc/cni/net.d", ["/opt/cni/bin"]⟩, [], [], some ["lo"], some ["127.0.0.1"]⟩
      ⟨some "net1", none, none, none, false⟩).2.g_store.name_to_network "net1" with
  | some record =>
    (remove_succeeds_despite_faults sample_consts ⟨false, false, true, true⟩
      (native_config_create sample_consts no_faults
        ⟨⟨[], 0, "/etc/cni/net.d", ["/opt/cni/bin"]⟩, [], [], some ["lo"], some ["127.0.0.1"]⟩
        ⟨some "net1", none, none, none, false⟩).2 "net1" record (by decide) (by decide) h
      (by
        have hd : (map_search (native_config_create sample_consts no_faults
            ⟨⟨[], 0, "/etc/cni/net.d", ["/opt/cni/bin"]⟩, [], [], some ["lo"],
              some ["127.0.0.1"]⟩
            ⟨some "net1", none, none, none, false⟩).2.g_store.name_to_network "net1").map
            (fun r => r.containers_list) = some [] := by decide
        rw [h] at hd
        exact Option.some.inj hd)).1
  | none => absurd h (by decide)

/-- C19: from an empty store, a `Create` that succeeds followed by `Remove`
of the name it returned (the deletion of the file not failing) leaves the map
empty and the counter at 0, and the file that `Create` wrote is gone:
`Remove` builds the same path `<conf_dir>/<prefix><name>.conflist` from the
same name. -/
theorem create_remove_round_trip (k : build_consts) (f1 f2 : io_faults) (conf_dir : String)
    (bin_paths files dirs : List String) (ifs ips : Option (List String))
    (req : network_create_request)
    (hok : (native_config_create k f1 ⟨⟨[], 0, conf_dir, bin_paths⟩, files, dirs, ifs, ips⟩
      req).1.ret = 0)
    (hunlink : f2.unlink_fails = false) :
    ∃ name path,
      (native_config_create k f1 ⟨⟨[], 0, conf_dir, bin_paths⟩, files, dirs, ifs, ips⟩
        req).1.name = some name ∧
      path = conf_dir ++ "/" ++ k.ISULAD_CNI_NETWORK_CONF_FILE_PRE ++ name ++ ".conflist" ∧
      get_file_path_by_name k
        (native_config_create k f1 ⟨⟨[], 0, conf_dir, bin_paths⟩, files, dirs, ifs, ips⟩ req).2
        name = some path ∧
      path ∈ (native_config_create k f1 ⟨⟨[], 0, conf_dir, bin_paths⟩, files, dirs, ifs, ips⟩
        req).2.files ∧
      (native_config_remove k f2
        (native_config_create k f1 ⟨⟨[], 0, conf_dir, bin_paths⟩, files, dirs, ifs, ips⟩ req).2
        name).1.ret = 0 ∧
      (native_config_remove k f2
        (native_config_create k f1 ⟨⟨[], 0, conf_dir, bin_paths⟩, files, dirs, ifs, ips⟩ req).2
        name).2.g_store.name_to_network = [] ∧
      (native_config_remove k f2
        (native_config_create k f1 ⟨⟨[], 0, conf_dir, bin_paths⟩, files, dirs, ifs, ips⟩ req).2
        name).2.g_store.network_len = 0 ∧
      path ∉ (native_config_remove k f2
        (native_config_create k f1 ⟨⟨[], 0, conf_dir, bin_paths⟩, files, dirs, ifs, ips⟩ req).2
        name).2.files := by
  obtain ⟨list, json, path, _, _, hpath, _, hnew, hname, hw⟩ :=
    native_config_create_ok k f1 _ req hok
  rw [hw]
  have hpath' : get_file_path_by_name k
      ⟨native_store_add_network ⟨[], 0, conf_dir, bin_paths⟩ ⟨list, some json⟩,
        files ++ [path], if dirs.contains conf_dir then dirs else dirs ++ [conf_dir], ifs, ips⟩
      list.name = some path := hpath
  have hpeq : path =
      conf_dir ++ "/" ++ k.ISULAD_CNI_NETWORK_CONF_FILE_PRE ++ list.name ++ ".conflist" := by
    simp only [get_file_path_by_name] at hpath
    split at hpath
    · cases hpath
    · exact (Option.some.inj hpath).symm
  have hkeys : keys_are_names
      (native_store_add_network ⟨[], 0, conf_dir, bin_paths⟩ ⟨list, some json⟩) := by
    intro kv hkv
    simp only [native_store_add_network, native_network_init, map_replace,
      List.mem_singleton] at hkv
    rw [hkv]
  obtain ⟨h1, _, h3, h4, _⟩ := native_config_remove_ok k f2
    ⟨native_store_add_network ⟨[], 0, conf_dir, bin_paths⟩ ⟨list, some json⟩,
      files ++ [path], if dirs.contains conf_dir then dirs else dirs ++ [conf_dir], ifs, ips⟩
    list.name (native_network_init ⟨list, some json⟩) hkeys rfl
    (by simp [native_store_add_network, map_replace, map_search, native_network_init]) rfl
  refine ⟨list.name, path, hname, hpeq, hpath', by simp, h1, ?_, ?_, ?_⟩
  · rw [h3]
    simp [native_store_add_network, map_replace, native_network_init]
  · rw [h3]
    simp [native_store_add_network]
  · rw [h4, hpath']
    simp [util_force_remove_file, hunlink]

/-- C19, on the default request. -/
theorem create_remove_round_trip_witness :
    ∃ name path,
      (native_config_create sample_consts no_faults
        ⟨⟨[], 0, "/etc/cni/net.d", ["/opt/cni/bin"]⟩, [], [], some ["lo"], some ["127.0.0.1"]⟩
        ⟨none, none, none, none, false⟩).1.name = some name ∧
      path = "/etc/cni/net.d" ++ "/" ++ sample_consts.ISULAD_CNI_NETWORK_CONF_FILE_PRE ++ name ++
        ".conflist" ∧
      get_file_path_by_name sample_consts
        (native_config_create sample_consts no_faults
          ⟨⟨[], 0, "/etc/cni/net.d", ["/opt/cni/bin"]⟩, [], [], some ["lo"], some ["127.0.0.1"]⟩
          ⟨none, none, none, none, false⟩).2 name = some path ∧
      path ∈ (native_config_create sample_consts no_faults
        ⟨⟨[], 0, "/etc/cni/net.d", ["/opt/cni/bin"]⟩, [], [], some ["lo"], some ["127.0.0.1"]⟩
        ⟨none, none, none, none, false⟩).2.files ∧
      (native_config_remove sample_consts no_faults
        (native_config_create sample_consts no_faults
          ⟨⟨[], 0, "/etc/cni/net.d", ["/opt/cni/bin"]⟩, [], [], some ["lo"], some ["127.0.0.1"]⟩
          ⟨none, none, none, none, false⟩).2 name).1.ret = 0 ∧
      (native_config_remove sample_consts no_faults
        (native_config_create sample_consts no_faults
          ⟨⟨[], 0, "/etc/cni/net.d", ["/opt/cni/bin"]⟩, [], [], some ["lo"], some ["127.0.0.1"]⟩
          ⟨none, none, none, none, false⟩).2 name).2.g_store.name_to_network = [] ∧
      (native_config_remove sample_consts no_faults
        (native_config_create sample_consts no_faults
          ⟨⟨[], 0, "/etc/cni/net.d", ["/opt/cni/bin"]⟩, [], [], some ["lo"], some ["127.0.0.1"]⟩
          ⟨none, none, none, none, false⟩).2 name).2.g_store.network_len = 0 ∧
      path ∉ (native_config_remove sample_consts no_faults
        (native_config_create sample_consts no_faults
          ⟨⟨[], 0, "/etc/cni/net.d", ["/opt/cni/bin"]⟩, [], [], some ["lo"], some ["127.0.0.1"]⟩
          ⟨none, none, none, none, false⟩).2 name).2.files :=
  create_remove_round_trip sample_consts no_faults no_faults "/etc/cni/net.d" ["/opt/cni/bin"]
    [] [] (some ["lo"]) (some ["127.0.0.1"]) ⟨none, none, none, none, false⟩ (by decide) rfl

/-- A traversal that does not ignore missing networks and returns 0 found
every well-formed entry in the map. -/
theorem do_foreach_loop_ok_found (store : native_store) (conf : network_api_conf)
    (op : Nat → cni_manager → cni_network_list_conf → Int × Option String)
    (extras : List attach_net_conf) :
    ∀ (i : Nat) (ua : Bool) (list : List network_api_result) (calls : List cni_manager),
      (do_foreach_network_op_loop store conf false op extras i ua list calls).ret = 0 →
      ∀ e ∈ extras, ∀ name ifname, e.name = some name → e.interface = some ifname →
        map_search store.name_to_network name ≠ none := by
  induction extras with
  | nil =>
    intro i ua list calls _ e he
    cases he
  | cons e0 rest ih =>
    intro i ua list calls h e he name ifname hn hi
    unfold do_foreach_network_op_loop at h
    cases hn0 : e0.name with
    | none =>
      simp only [hn0] at h
      rcases List.mem_cons.mp he with e1 | e1
      · rw [e1, hn0] at hn
        cases hn
      · exact ih _ _ _ _ h e e1 name ifname hn hi
    | some n0 =>
      cases hi0 : e0.interface with
      | none =>
        simp only [hn0, hi0] at h
        rcases List.mem_cons.mp he with e1 | e1
        · rw [e1, hi0] at hi
          cases hi
        · exact ih _ _ _ _ h e e1 name ifname hn hi
      | some i0 =>
        simp only [hn0, hi0] at h
        cases hs : map_search store.name_to_network n0 with
        | none => simp [hs] at h
        | some network =>
          simp only [hs] at h
          rcases List.mem_cons.mp he with e1 | e1
          · rw [e1, hn0] at hn
            cases hn
            rw [hs]
            simp
          · cases ua <;>
              simp only [Bool.not_false, Bool.not_true, if_true, if_false,
                Bool.false_eq_true] at h <;>
              split at h <;>
              first
                | exact ih _ _ _ _ h e e1 name ifname hn hi
                | simp at h

/-- On a store whose counter is not 0, an `Attach` with a well-formed entry
that names a network absent from the map does not return 0. -/
theorem attach_missing_network_fails (inv : cni_invoker) (w : world) (conf : network_api_conf)
    (hlen : w.g_store.network_len ≠ 0) (e : attach_net_conf) (name ifname : String)
    (he : e ∈ conf.extral_nets) (hn : e.name = some name) (hi : e.interface = some ifname)
    (habsent : map_search w.g_store.name_to_network name = none) :
    (native_attach_networks inv w conf).1.ret ≠ 0 := by
  unfold native_attach_networks
  simp only [hlen, if_false]
  by_cases hlo : inv.attach_loopback conf.pod_id conf.netns_path = 0
  · simp only [hlo, ne_eq, not_true_eq_false, if_false]
    by_cases hr : (do_foreach_network_op w.g_store conf false inv.attach_network_plane).ret = 0
    · exact absurd habsent
        (do_foreach_loop_ok_found w.g_store conf inv.attach_network_plane conf.extral_nets 0
          false [] [] hr e he name ifname hn hi)
    · simp only [hr, not_false_eq_true, if_true]
  · simp only [ne_eq, hlo, not_false_eq_true, if_true]

/-- C20 (the code at the failing input): on the empty store (`network_len`
is 0) `native_attach_networks` returns 0 for every request, whatever networks
its entries name, and does nothing; `native_detach_networks` returns -1
there. -/
theorem attach_on_empty_store_returns_zero (inv : cni_invoker) (conf : network_api_conf)
    (conf_dir : String) (bin_paths files dirs : List String) (ifs ips : Option (List String)) :
    native_attach_networks inv ⟨⟨[], 0, conf_dir, bin_paths⟩, files, dirs, ifs, ips⟩ conf =
      (⟨0, [], none, []⟩, ⟨⟨[], 0, conf_dir, bin_paths⟩, files, dirs, ifs, ips⟩) ∧
    (native_attach_networks sample_invoker
        ⟨⟨[], 0, "/etc/cni/net.d", ["/opt/cni/bin"]⟩, [], [], some ["lo"], some ["127.0.0.1"]⟩
        ⟨"c1", "/proc/1/ns/net", [], none, [⟨some "net1", some "eth0"⟩]⟩).1.ret = 0 ∧
    map_search ([] : List (String × native_network)) "net1" = none ∧
    (native_detach_networks inv ⟨⟨[], 0, conf_dir, bin_paths⟩, files, dirs, ifs, ips⟩
      conf).1.ret = -1 := by
  refine ⟨?_, by decide, rfl, ?_⟩
  · simp [native_attach_networks]
  · simp [native_detach_networks]


/-! ### Joining strings -/

theorem StringsJoin_nil (sep : String) : StringsJoin [] sep = "" := rfl

theorem StringsJoin_single (a sep : String) : StringsJoin [a] sep = a := by
  simp [StringsJoin]

theorem string_length_pos_iff (s : String) : s.length > 0 ↔ s ≠ "" := by
  rw [gt_iff_lt, String.length, List.length_pos]
  constructor
  · intro h e
    apply h
    rw [e]
  · intro h e
    apply h
    exact String.ext e

theorem StringsJoin_fold_nonempty (sep : String) (vec : List String) :
    ∀ acc : String, acc ≠ "" →
      vec.foldl (fun a b => a ++ (if a.length > 0 then sep else "") ++ b) acc =
        String.intercalate.go acc sep vec := by
  induction vec with
  | nil => intro acc _; rfl
  | cons b rest ih =>
    intro acc hacc
    have hpos : acc.length > 0 := (string_length_pos_iff acc).mpr hacc
    simp only [List.foldl, hpos, if_true, String.intercalate.go]
    apply ih
    rw [← string_length_pos_iff]
    simp only [String.length_append]
    omega

/-- C26 (the code at the failing input): `StringsJoin` puts the separator only after a non-empty accumulated
text, so it is the concatenation with the separator between adjacent elements
of what is left of the vector once its leading empty elements are dropped.
A leading empty element gets no separator after it: for `["", "a"]` and `","`
the code returns `a`, where the concatenation with the separator between
every two adjacent elements is `,a`; likewise `["", "", "b"]` gives `b`
instead of `,,b`. With a non-empty first element the two agree, as for
`["a", "", "b"]`. -/
theorem StringsJoin_drops_separator_after_empty_head :
    (∀ (vec : List String) (sep : String),
      StringsJoin vec sep = sep.intercalate (vec.dropWhile (fun s => s = ""))) ∧
    StringsJoin ["", "a"] "," = "a" ∧ ",".intercalate ["", "a"] = ",a" ∧
    StringsJoin ["", "", "b"] "," = "b" ∧ ",".intercalate ["", "", "b"] = ",,b" ∧
    StringsJoin ["a", "", "b"] "," = "a,,b" ∧ ",".intercalate ["a", "", "b"] = "a,,b" := by
  refine ⟨?_, by decide, by decide, by decide, by decide, by decide, by decide⟩
  intro vec sep
  unfold StringsJoin
  induction vec with
  | nil => rfl
  | cons b rest ih =>
    by_cases hb : b = ""
    · subst hb
      simp only [List.foldl, List.dropWhile, decide_True]
      have : ("" : String) ++ (if ("" : String).length > 0 then sep else "") ++ "" = "" := by
        simp
      rw [this]
      exact ih
    · simp only [List.foldl, List.dropWhile, hb, decide_False, String.intercalate]
      have : ("" : String) ++ (if ("" : String).length > 0 then sep else "") ++ b = b := by
        simp
      rw [this]
      exact StringsJoin_fold_nonempty sep rest b hb

/-! ### The walk over the private candidates -/

theorem private_network_walk_range (n k : Nat) (h : k + n ≤ private_candidate_count) :
    private_network_walk n (previous_candidate k) =
      (List.range' k n).map private_candidate := by
  induction n generalizing k with
  | zero => rfl
  | succ n ih =>
    have hk : k < private_candidate_count := by omega
    simp only [private_network_walk, find_private_network_previous k hk, List.range',
      List.map_cons]
    have := ih (k + 1) (by omega)
    simp only [previous_candidate] at this
    rw [this]

theorem private_candidate_value_le (k : Nat) (hk : k < private_candidate_count) :
    private_candidate_value k ≤ 12626175 := by
  unfold private_candidate_value private_candidate_count at *
  split
  · omega
  · split <;> omega

theorem pack_private_candidate (k : Nat) (hk : k < private_candidate_count) :
    pack_u32 (private_candidate_bytes k) = private_candidate_value k * 256 :=
  pack_u32_candidate _ (private_candidate_value_lt k hk)

/-- C28: the candidates that repeated `find_private_network` produces from
`NULL` are exactly the 69,888 private /24 networks, 192.168.0.0 to
192.168.255.0 (256), then 172.16.0.0 to 172.31.255.0 (4096), then 10.0.0.0
to 10.255.255.0 (65536), in increasing order inside each stripe; each
successor is the begin of the next stripe (after 192.168.255.0/24 and
172.31.255.0/24) or the 32-bit address plus 256, which never wraps; and the
loop of `find_subnet` ends within 69,888 rounds, found or exhausted, whatever
the stored subnets and host addresses. -/
theorem private_walk_is_the_three_stripes :
    private_network_walk private_candidate_count none =
      (List.range private_candidate_count).map private_candidate ∧
    private_candidate_count = 256 + 4096 + 65536 ∧
    ((∀ c, c < 256 → private_candidate_bytes c = [192, 168, c, 0]) ∧
      (∀ b c, b < 16 → c < 256 →
        private_candidate_bytes (256 + 256 * b + c) = [172, 16 + b, c, 0]) ∧
      (∀ b c, b < 256 → c < 256 →
        private_candidate_bytes (4352 + 256 * b + c) = [10, b, c, 0])) ∧
    (∀ k, k < private_candidate_count →
      util_parse_ipnet_from_str (private_candidate k) =
        some ⟨private_candidate_bytes k, [255, 255, 255, 0]⟩) ∧
    (∀ k, k + 1 < private_candidate_count →
      find_private_network (some (private_candidate k)) = some (private_candidate (k + 1)) ∧
      ((stripe_jump (private_candidate k) g_private_networks = some (private_candidate (k + 1)) ∧
          (k = 255 ∨ k = 4351)) ∨
        (stripe_jump (private_candidate k) g_private_networks = none ∧
          pack_u32 (private_candidate_bytes (k + 1)) =
            pack_u32 (private_candidate_bytes k) + 256))) ∧
    (∀ k, k < private_candidate_count →
      pack_u32 (private_candidate_bytes k) + 256 < 2 ^ 32) ∧
    (private_network_walk private_candidate_count none).getLast? = some private_networks_end ∧
    (∀ (config_subnet host_ip : List String) (fuel : Nat), private_candidate_count ≤ fuel →
      find_subnet_loop config_subnet host_ip fuel none ≠ subnet_search.out_of_fuel ∧
      find_subnet_loop config_subnet host_ip fuel none ≠ subnet_search.failed ∧
      find_subnet_loop config_subnet host_ip fuel none =
        find_subnet_loop config_subnet host_ip private_candidate_count none) := by
  have hwalk : private_network_walk private_candidate_count none =
      (List.range private_candidate_count).map private_candidate := by
    have := private_network_walk_range private_candidate_count 0 (by omega)
    simpa [previous_candidate, List.range_eq_range'] using this
  refine ⟨hwalk, rfl, private_candidate_bytes_stripes, parse_private_candidate, ?_, ?_, ?_, ?_⟩
  · intro k hk
    refine ⟨find_private_network_succ k hk, ?_⟩
    have hk' : k < private_candidate_count := by omega
    by_cases h1 : k = 255
    · subst h1
      left
      exact ⟨by decide, Or.inl rfl⟩
    by_cases h2 : k = 4351
    · subst h2
      left
      exact ⟨by decide, Or.inr rfl⟩
    right
    have e1 : private_candidate k ≠ "192.168.255.0/24" := by
      rw [← private_candidate_landmarks.2.2.1]
      intro h
      exact h1 (private_candidate_inj k 255 hk' (by decide) h)
    have e2 : private_candidate k ≠ "172.31.255.0/24" := by
      rw [← private_candidate_landmarks.2.2.2.2.2.2.1]
      intro h
      exact h2 (private_candidate_inj k 4351 hk' (by decide) h)
    refine ⟨by simp [stripe_jump_private, e1, e2], ?_⟩
    rw [pack_private_candidate k hk', pack_private_candidate (k + 1) hk,
      private_candidate_value_succ k hk h1 h2]
    ring
  · intro k hk
    rw [pack_private_candidate k hk]
    have := private_candidate_value_le k hk
    omega
  · rw [hwalk, private_networks_end_eq]
    simp [List.getLast?_eq_getElem?, private_candidate_count]
  · intro cfg host fuel hfuel
    have key : ∀ fuel, private_candidate_count ≤ fuel →
        (∃ k, find_subnet_loop cfg host fuel none = subnet_search.found (private_candidate k) ∧
          k < private_candidate_count ∧
          check_subnet_available (private_candidate k) cfg host = 0 ∧
          ∀ j, j < k → check_subnet_available (private_candidate j) cfg host = 1) ∨
        (find_subnet_loop cfg host fuel none = subnet_search.exhausted ∧
          ∀ k, k < private_candidate_count →
            check_subnet_available (private_candidate k) cfg host = 1) := by
      intro fuel hfuel
      rcases find_subnet_loop_result cfg host fuel hfuel with ⟨k, h1, h2, h3, h4⟩ | ⟨h1, h2⟩
      · exact Or.inl ⟨k, h4, h1, h2, h3⟩
      · exact Or.inr ⟨h2, h1⟩
    rcases key fuel hfuel with ⟨k, h, hk, h0, hb⟩ | ⟨h, hall⟩
    · rcases key private_candidate_count (le_refl _) with ⟨k', h', hk', h0', hb'⟩ | ⟨_, hall'⟩
      · have hkk : k = k' := by
          rcases Nat.lt_trichotomy k k' with l | e | g
          · have := hb' k l
            omega
          · exact e
          · have := hb k' g
            omega
        subst hkk
        rw [h, h']
        simp
      · have := hall' k hk
        omega
    · rcases key private_candidate_count (le_refl _) with ⟨k', _, hk', h0', _⟩ | ⟨h', _⟩
      · have := hall k' hk'
        omega
      · rw [h, h']
        simp


/-! ### The store is well formed in every reachable state -/

theorem map_search_eq_none_iff (m : List (String × native_network)) (X : String) :
    map_search m X = none ↔ X ∉ m.map (fun kv => kv.1) := by
  induction m with
  | nil => simp [map_search]
  | cons kv rest ih =>
    rcases kv with ⟨key, v⟩
    by_cases hk : key = X
    · simp [map_search, hk]
    · have hk' : ¬ X = key := fun e => hk e.symm
      simp [map_search, hk, hk', ih]

theorem map_replace_fresh (m : List (String × native_network)) (X : String)
    (v : native_network) (h : X ∉ m.map (fun kv => kv.1)) :
    map_replace m X v = m ++ [(X, v)] := by
  induction m with
  | nil => rfl
  | cons kv rest ih =>
    rcases kv with ⟨key, v0⟩
    have hk : ¬ key = X := by
      intro e
      apply h
      simp [e]
    have hrest : X ∉ rest.map (fun kv => kv.1) := by
      intro e
      apply h
      simp only [List.map_cons, List.mem_cons]
      exact Or.inr e
    simp [map_replace, hk, ih hrest]

theorem map_modify_fst (m : List (String × native_network)) (X : String)
    (g : native_network → native_network) :
    (map_modify m X g).map (fun kv => kv.1) = m.map (fun kv => kv.1) := by
  induction m with
  | nil => rfl
  | cons kv rest ih =>
    rcases kv with ⟨key, v⟩
    by_cases hk : key = X
    · simp [map_modify, hk]
    · simp [map_modify, hk, ih]

theorem store_wf_add (store : native_store) (conflist : cni_network_list_conf)
    (hwf : store_wf store)
    (hfresh : map_search store.name_to_network conflist.list.name = none) :
    store_wf (native_store_add_network store conflist) ∧
      (native_store_add_network store conflist).name_to_network =
        store.name_to_network ++ [(conflist.list.name, native_network_init conflist)] := by
  have hnot := (map_search_eq_none_iff _ _).mp hfresh
  have hmap : (native_store_add_network store conflist).name_to_network =
      store.name_to_network ++ [(conflist.list.name, native_network_init conflist)] := by
    simp only [native_store_add_network, native_network_init]
    exact map_replace_fresh _ _ _ hnot
  refine ⟨⟨?_, ?_, ?_⟩, hmap⟩
  · intro kv hkv
    rw [hmap, List.mem_append] at hkv
    rcases hkv with h | h
    · exact hwf.1 kv h
    · simp only [List.mem_singleton] at h
      subst h
      rfl
  · rw [hmap]
    simp only [native_store_add_network, List.length_append, List.length_singleton]
    rw [hwf.2.1]
  · rw [hmap, List.map_append, List.nodup_append]
    refine ⟨hwf.2.2, by simp, ?_⟩
    intro a ha hb
    simp only [List.map_cons, List.map_nil, List.mem_singleton] at hb
    subst hb
    exact hnot ha

theorem store_wf_modify (store : native_store) (X : String)
    (g : native_network → native_network) (hg : ∀ n, (g n).conflist = n.conflist)
    (hwf : store_wf store) :
    store_wf ⟨map_modify store.name_to_network X g, store.network_len, store.conf_dir,
      store.bin_paths⟩ := by
  refine ⟨?_, ?_, ?_⟩
  · exact map_modify_keys _ X g hg hwf.1
  · simp only [map_modify_length]
    exact hwf.2.1
  · simp only [map_modify_fst]
    exact hwf.2.2

theorem store_wf_do_add (store : native_store) (name : Option String) (pod : String)
    (hwf : store_wf store) : store_wf (do_add_container_list store name pod).2 := by
  unfold do_add_container_list
  cases name with
  | none => exact hwf
  | some X =>
    simp only
    cases hX : map_search store.name_to_network X with
    | none => exact hwf
    | some r => exact store_wf_modify store X _ (fun _ => rfl) hwf

theorem store_wf_add_loop (pod : String) (extras : List attach_net_conf) :
    ∀ store, store_wf store → store_wf (add_container_loop pod store extras).2 := by
  induction extras with
  | nil => intro store h; exact h
  | cons e rest ih =>
    intro store h
    simp only [add_container_loop]
    split
    · exact store_wf_do_add store e.name pod h
    · exact ih _ (store_wf_do_add store e.name pod h)

theorem store_wf_do_remove (store : native_store) (name : Option String) (pod : String)
    (hwf : store_wf store) : store_wf (do_remove_container_list store name pod) := by
  unfold do_remove_container_list
  cases name with
  | none => exact hwf
  | some X =>
    simp only
    cases hX : map_search store.name_to_network X with
    | none => exact hwf
    | some r => exact store_wf_modify store X _ (fun _ => rfl) hwf

theorem store_wf_remove_loop (pod : String) (extras : List attach_net_conf) :
    ∀ store, store_wf store → store_wf (remove_container_loop pod store extras) := by
  induction extras with
  | nil => intro store h; exact h
  | cons e rest ih =>
    intro store h
    exact ih _ (store_wf_do_remove store e.name pod h)

theorem store_wf_attach (inv : cni_invoker) (w : world) (conf : network_api_conf)
    (hwf : store_wf w.g_store) : store_wf (native_attach_networks inv w conf).2.g_store := by
  unfold native_attach_networks
  split
  · exact hwf
  · simp only
    split
    · exact hwf
    · split
      · exact hwf
      · exact store_wf_add_loop _ _ _ hwf

theorem store_wf_detach (inv : cni_invoker) (w : world) (conf : network_api_conf)
    (hwf : store_wf w.g_store) : store_wf (native_detach_networks inv w conf).2.g_store :=
  store_wf_remove_loop _ _ _ hwf

theorem filter_key_length (m : List (String × native_network)) (X : String)
    (hnd : (m.map (fun kv => kv.1)).Nodup) (hX : X ∈ m.map (fun kv => kv.1)) :
    (m.filter (fun kv => kv.1 ≠ X)).length = m.length - 1 := by
  induction m with
  | nil => simp at hX
  | cons kv rest ih =>
    rcases kv with ⟨key, v⟩
    simp only [List.map_cons, List.nodup_cons] at hnd
    by_cases hk : key = X
    · subst hk
      have hall : rest.filter (fun kv => kv.1 ≠ key) = rest := by
        rw [List.filter_eq_self]
        intro a ha
        have : a.1 ≠ key := by
          intro e
          apply hnd.1
          rw [← e]
          exact List.mem_map_of_mem _ ha
        simpa using this
      have hstep : List.filter (fun kv => decide (kv.1 ≠ key)) ((key, v) :: rest) =
          List.filter (fun kv => decide (kv.1 ≠ key)) rest := by
        simp [List.filter]
      rw [hstep, hall]
      simp
    · have hX' : X ∈ rest.map (fun kv => kv.1) := by
        simp only [List.map_cons, List.mem_cons] at hX
        rcases hX with e | e
        · exact absurd e.symm hk
        · exact e
      have := ih hnd.2 hX'
      have hpos : 0 < rest.length := by
        cases rest with
        | nil => simp at hX'
        | cons _ _ => simp
      simp only [List.filter, hk, ne_eq, not_false_eq_true, decide_True, List.length_cons]
      simp only [ne_eq] at this
      rw [this]
      omega

theorem store_wf_remove_entry (store : native_store) (X : String) (message : Option String)
    (hwf : store_wf store) : store_wf (remove_entry_step store X message).2 := by
  unfold remove_entry_step map_remove
  simp only
  by_cases hany : (store.name_to_network.any fun kv => decide (kv.1 = X)) = true
  · simp only [hany, Bool.not_true, Bool.false_eq_true, if_false]
    have hX : X ∈ store.name_to_network.map (fun kv => kv.1) := by
      simp only [List.any_eq_true, decide_eq_true_eq] at hany
      obtain ⟨kv, hkv, e⟩ := hany
      rw [← e]
      exact List.mem_map_of_mem _ hkv
    refine ⟨?_, ?_, ?_⟩
    · intro kv hkv
      exact hwf.1 kv (List.mem_of_mem_filter hkv)
    · simp only
      rw [filter_key_length _ X hwf.2.2 hX, hwf.2.1]
    · exact List.Nodup.sublist (List.Sublist.map _ (List.filter_sublist _)) hwf.2.2
  · simp only [hany, Bool.not_false, if_true]
    exact hwf

theorem store_wf_remove (k : build_consts) (f : io_faults) (w : world) (name : String)
    (hwf : store_wf w.g_store) : store_wf (native_config_remove k f w name).2.g_store := by
  unfold native_config_remove
  rcases hg : get_network_by_name w.g_store name with ⟨_ | network, msg⟩
  · exact hwf
  · simp only
    split
    · exact hwf
    · simp only
      apply store_wf_remove_entry
      rw [remove_driver_step_store]
      exact hwf


theorem create_conflist_file_store (k : build_consts) (f : io_faults) (w : world)
    (conflist : cni_network_list_conf) :
    (create_conflist_file k f w conflist).2.2.2.g_store = w.g_store := by
  unfold create_conflist_file
  split
  · rfl
  · simp only
    repeat' split
    all_goals rfl

theorem native_config_create_fail_store (k : build_consts) (f : io_faults) (w : world)
    (req : network_create_request) (h : (native_config_create k f w req).1.ret ≠ 0) :
    (native_config_create k f w req).2.g_store = w.g_store := by
  unfold native_config_create at h ⊢
  simp only at h ⊢
  cases hops : get_ops_by_driver req.driver with
  | none => rfl
  | some pnet =>
    simp only [hops] at h ⊢
    by_cases hdrv : pnet.driver = "bridge"
    · obtain ⟨hc, hf⟩ := get_ops_by_driver_bridge req.driver pnet hops hdrv
      simp only [hdrv, ne_eq, not_true_eq_false, if_false, hc, hf] at h ⊢
      by_cases hchk : (check_bridge k w req).1 = 0
      · simp only [hchk, not_true_eq_false, if_false] at h ⊢
        cases hl : (conf_bridge k w req).list with
        | none => rfl
        | some list =>
          simp only [hl] at h ⊢
          have hst := create_conflist_file_store k f w ⟨list, none⟩
          rcases hcf : create_conflist_file k f w ⟨list, none⟩ with ⟨ret, msg, cl, w1⟩
          rw [hcf] at hst
          simp only at hst
          rw [hcf] at h
          simp only at h ⊢
          by_cases hret : ret = 0
          · simp [hret] at h
          · simp only [hret, not_false_eq_true, if_true]
            exact hst
      · simp [hchk]
    · simp [hdrv]

theorem get_cni_config_names_of_key (store : native_store) (hwf : store_wf store) (X : String)
    (hX : X ∈ store.name_to_network.map (fun kv => kv.1)) :
    X ∈ get_cni_config store get_config_net_name := by
  obtain ⟨kv, hkv, e⟩ := List.mem_map.mp hX
  have hlen : store.network_len ≠ 0 := by
    rw [hwf.2.1]
    cases hm : store.name_to_network with
    | nil => rw [hm] at hkv; cases hkv
    | cons _ _ => simp
  apply mem_get_cni_config store get_config_net_name kv X hkv hlen
  simp only [get_config_net_name, List.mem_singleton]
  rw [← e]
  exact hwf.1 kv hkv

theorem native_config_create_fresh (k : build_consts) (f : io_faults) (w : world)
    (req : network_create_request) (hwf : store_wf w.g_store)
    (h : (native_config_create k f w req).1.ret = 0) :
    ∃ list json path,
      (native_config_create k f w req).1.name = some list.name ∧
      get_file_path_by_name k w list.name = some path ∧
      path ∉ w.files ∧
      map_search w.g_store.name_to_network list.name = none ∧
      (native_config_create k f w req).2 =
        ⟨native_store_add_network w.g_store ⟨list, some json⟩, w.files ++ [path],
          if w.dirs.contains w.g_store.conf_dir then w.dirs else w.dirs ++ [w.g_store.conf_dir],
          w.interface_names, w.host_net_ip⟩ := by
  obtain ⟨list, json, path, hchk, hconf, hpath, _, hnot, hname, hworld⟩ :=
    native_config_create_ok k f w req h
  refine ⟨list, json, path, hname, hpath, hnot, ?_, hworld⟩
  rw [map_search_eq_none_iff]
  intro hkey
  have hin := get_cni_config_names_of_key w.g_store hwf list.name hkey
  obtain ⟨bp, msg, rest, hbp, hlist, _, _, _⟩ := conf_bridge_some k w req list hconf
  obtain ⟨bridge_name, ipam, msg2, hfind, _, hbpe⟩ := conf_bridge_plugin_some k w req bp msg hbp
  cases hreq : req.name with
  | some n =>
    have hn : list.name = n := by
      rw [hlist]
      simp [hreq]
    rw [hn] at hin
    have hused : util_string_array_contain (get_cni_config w.g_store get_config_net_name) n =
        true := by
      simp [util_string_array_contain, hin]
    simp only [check_bridge, hreq, hused, if_true] at hchk
    exact k.EINVALIDARGS_ne_zero hchk
  | none =>
    have hn : list.name = bridge_name := by
      rw [hlist, hbpe]
      simp [hreq]
    rw [hn] at hin
    unfold find_bridge_name_in at hfind
    simp only at hfind
    cases hifs : w.interface_names with
    | none => simp [hifs] at hfind
    | some ifs =>
      simp only [hifs, find_bridge_name] at hfind
      cases hloop : find_bridge_name_loop (get_cni_config w.g_store get_config_net_name)
          (get_cni_config w.g_store get_config_bridge_name) ifs MAX_BRIDGE_ID 0 with
      | none => simp [hloop] at hfind
      | some nm =>
        simp only [hloop, Option.some.injEq] at hfind
        obtain ⟨j, _, _, hj, hfree, _⟩ := find_bridge_name_loop_some _ _ _ _ _ _ hloop
        apply hfree
        left
        rw [← hj, hfind]
        exact hin

theorem store_wf_create (k : build_consts) (f : io_faults) (w : world)
    (req : network_create_request) (hwf : store_wf w.g_store) :
    store_wf (native_config_create k f w req).2.g_store := by
  by_cases h : (native_config_create k f w req).1.ret = 0
  · obtain ⟨list, json, path, _, _, _, hfresh, hworld⟩ :=
      native_config_create_fresh k f w req hwf h
    rw [hworld]
    exact (store_wf_add w.g_store ⟨list, some json⟩ hwf hfresh).1
  · rw [native_config_create_fail_store k f w req h]
    exact hwf

theorem store_wf_step (k : build_consts) (w : world) (c : native_call)
    (hwf : store_wf w.g_store) : store_wf (native_step k w c).g_store := by
  cases c with
  | create f request => exact store_wf_create k f w request hwf
  | remove f name => exact store_wf_remove k f w name hwf
  | attach inv conf => exact store_wf_attach inv w conf hwf
  | detach inv conf => exact store_wf_detach inv w conf hwf
  | environment files dirs interface_names host_net_ip => exact hwf

theorem store_wf_run (k : build_consts) (calls : List native_call) :
    ∀ w, store_wf w.g_store → store_wf (native_run k w calls).g_store := by
  induction calls with
  | nil => intro w h; exact h
  | cons c rest ih =>
    intro w h
    exact ih _ (store_wf_step k w c h)

theorem store_wf_load_loop (tmp : List (Option cni_network_list_conf)) :
    ∀ store, store_wf store → store_wf (load_store_map_loop store tmp) := by
  induction tmp with
  | nil => intro store h; exact h
  | cons e rest ih =>
    intro store h
    cases e with
    | none => exact ih store h
    | some c =>
      simp only [load_store_map_loop]
      split
      · exact ih store h
      · rename_i hs
        have hnone : map_search store.name_to_network c.list.name = none := by
          cases hm : map_search store.name_to_network c.list.name with
          | none => rfl
          | some r => simp [hm] at hs
        exact ih _ (store_wf_add store c h hnone).1

theorem store_wf_zero (conf_dir : String) (bin_paths : List String) :
    store_wf ⟨[], 0, conf_dir, bin_paths⟩ := by
  unfold store_wf keys_are_names
  simp

theorem store_wf_init (k : build_consts) (max_count : Nat) (conf_dir : String)
    (bin_paths : List String) (dir : List (String × Option cni_network_list_conf)) :
    store_wf (native_init k max_count conf_dir bin_paths dir).2 := by
  unfold native_init
  simp only
  split
  · exact store_wf_zero _ _
  · have hl : store_wf (load_store_map ⟨[], 0, "", []⟩
        (get_net_conflist_from_dir k max_count dir)).2 := by
      unfold load_store_map
      cases get_net_conflist_from_dir k max_count dir with
      | none => exact store_wf_zero _ _
      | some tmp => exact store_wf_load_loop tmp _ (store_wf_zero _ _)
    exact ⟨hl.1, hl.2.1, hl.2.2⟩


/-! ### Load at init -/

theorem map_search_append (m : List (String × native_network)) (key X : String)
    (v : native_network) :
    map_search (m ++ [(key, v)]) X =
      match map_search m X with
      | some r => some r
      | none => if key = X then some v else none := by
  induction m with
  | nil => simp [map_search]
  | cons kv rest ih =>
    rcases kv with ⟨k0, v0⟩
    by_cases hk : k0 = X
    · simp [map_search, hk]
    · simp [map_search, hk, ih]

theorem load_store_map_loop_search (X : String) (tmp : List (Option cni_network_list_conf)) :
    ∀ store, map_search (load_store_map_loop store tmp).name_to_network X =
      match map_search store.name_to_network X with
      | some r => some r
      | none =>
        ((tmp.filterMap id).find? (fun c => c.list.name = X)).map native_network_init := by
  induction tmp with
  | nil =>
    intro store
    cases h : map_search store.name_to_network X <;> simp [load_store_map_loop, h]
  | cons e rest ih =>
    intro store
    cases e with
    | none => simpa [load_store_map_loop] using ih store
    | some c =>
      simp only [load_store_map_loop]
      cases hc : map_search store.name_to_network c.list.name with
      | some r0 =>
        simp only [Option.isSome_some, if_true]
        rw [ih store]
        cases hX : map_search store.name_to_network X with
        | some r => rfl
        | none =>
          have hne : ¬ c.list.name = X := by
            intro e
            rw [e, hX] at hc
            cases hc
          simp [List.find?, hne]
      | none =>
        simp only [Option.isSome_none, Bool.false_eq_true, if_false]
        rw [ih]
        have hmap : (native_store_add_network store c).name_to_network =
            store.name_to_network ++ [(c.list.name, native_network_init c)] := by
          simp only [native_store_add_network, native_network_init]
          exact map_replace_fresh _ _ _ ((map_search_eq_none_iff _ _).mp hc)
        rw [hmap, map_search_append]
        cases hX : map_search store.name_to_network X with
        | some r => rfl
        | none =>
          by_cases hn : c.list.name = X
          · simp [List.find?, hn]
          · simp [List.find?, hn]

theorem load_store_map_loop_all (P : String × native_network → Prop)
    (hP : ∀ c, P (c.list.name, native_network_init c))
    (tmp : List (Option cni_network_list_conf)) :
    ∀ store, (∀ kv ∈ store.name_to_network, P kv) →
      ∀ kv ∈ (load_store_map_loop store tmp).name_to_network, P kv := by
  induction tmp with
  | nil => intro store h; exact h
  | cons e rest ih =>
    intro store h
    cases e with
    | none => exact ih store h
    | some c =>
      simp only [load_store_map_loop]
      split
      · exact ih store h
      · apply ih
        intro kv hkv
        simp only [native_store_add_network] at hkv
        rcases mem_map_replace _ _ _ _ hkv with h1 | h1
        · exact h kv h1
        · rw [h1]
          exact hP c

/-- C23: `load_store_map` on the conflists of the directory scan, from the
empty store: it returns 0; under every name the map holds the record of the
first conflist of the scan that carries that name (entries that did not
parse are skipped, later conflists of the same name are ignored), and has no
entry for a name no conflist carries; no key occurs twice; and
`network_len` is the number of entries, which is the number of distinct
names among the parsed conflists. A failed scan returns -1 and leaves the
store as it was. -/
theorem load_store_map_first_of_each_name (conf_dir : String) (bin_paths : List String)
    (tmp : List (Option cni_network_list_conf)) :
    (load_store_map ⟨[], 0, conf_dir, bin_paths⟩ (some tmp)).1 = 0 ∧
    (∀ X, map_search (load_store_map ⟨[], 0, conf_dir, bin_paths⟩ (some tmp)).2.name_to_network X =
      ((tmp.filterMap id).find? (fun c => c.list.name = X)).map native_network_init) ∧
    ((load_store_map ⟨[], 0, conf_dir, bin_paths⟩ (some tmp)).2.name_to_network.map
      (fun kv => kv.1)).Nodup ∧
    (∀ kv ∈ (load_store_map ⟨[], 0, conf_dir, bin_paths⟩ (some tmp)).2.name_to_network,
      kv.1 = kv.2.conflist.list.name ∧ kv.2.containers_list = []) ∧
    (load_store_map ⟨[], 0, conf_dir, bin_paths⟩ (some tmp)).2.network_len =
      (load_store_map ⟨[], 0, conf_dir, bin_paths⟩ (some tmp)).2.name_to_network.length ∧
    (load_store_map ⟨[], 0, conf_dir, bin_paths⟩ (some tmp)).2.network_len =
      ((tmp.filterMap id).map (fun c => c.list.name)).toFinset.card ∧
    load_store_map ⟨[], 0, conf_dir, bin_paths⟩ none = (-1, ⟨[], 0, conf_dir, bin_paths⟩) := by
  have hwf := store_wf_load_loop tmp _ (store_wf_zero conf_dir bin_paths)
  have hsearch : ∀ X,
      map_search (load_store_map_loop ⟨[], 0, conf_dir, bin_paths⟩ tmp).name_to_network X =
        ((tmp.filterMap id).find? (fun c => c.list.name = X)).map native_network_init := by
    intro X
    rw [load_store_map_loop_search]
    rfl
  refine ⟨rfl, hsearch, hwf.2.2, ?_, hwf.2.1, ?_, rfl⟩
  · intro kv hkv
    refine ⟨hwf.1 kv hkv, ?_⟩
    exact load_store_map_loop_all (fun kv => kv.2.containers_list = []) (fun _ => rfl) tmp _
      (fun _ h => by cases h) kv hkv
  · have hlen : (load_store_map_loop ⟨[], 0, conf_dir, bin_paths⟩ tmp).network_len =
        ((load_store_map_loop ⟨[], 0, conf_dir, bin_paths⟩ tmp).name_to_network.map
          (fun kv => kv.1)).length := by
      rw [hwf.2.1, List.length_map]
    show (load_store_map_loop ⟨[], 0, conf_dir, bin_paths⟩ tmp).network_len = _
    rw [hlen, ← List.toFinset_card_of_nodup hwf.2.2]
    congr 1
    ext X
    simp only [List.mem_toFinset]
    have hiff : X ∈ (load_store_map_loop ⟨[], 0, conf_dir, bin_paths⟩ tmp).name_to_network.map
        (fun kv => kv.1) ↔
        map_search (load_store_map_loop ⟨[], 0, conf_dir, bin_paths⟩ tmp).name_to_network X ≠
          none := by
      rw [Ne, map_search_eq_none_iff, not_not]
    rw [hiff, hsearch X]
    simp only [ne_eq, Option.map_eq_none', List.find?_eq_none, decide_eq_true_eq, not_forall,
      not_not, List.mem_map]
    constructor
    · rintro ⟨c, hc, e⟩
      exact ⟨c, hc, e⟩
    · rintro ⟨c, hc, e⟩
      exact ⟨c, hc, e⟩


/-! ### Invariants of the reachable states -/

theorem conflist_file_stem_of_name (k : build_consts) (name : String) :
    conflist_file_stem k (k.ISULAD_CNI_NETWORK_CONF_FILE_PRE ++ name ++ ".conflist") =
      some name := by
  unfold conflist_file_stem
  simp only [String.data_append, List.append_assoc, List.drop_left, List.length_append]
  have h1 : k.ISULAD_CNI_NETWORK_CONF_FILE_PRE.data.isPrefixOf
      (k.ISULAD_CNI_NETWORK_CONF_FILE_PRE.data ++ (name.data ++ ".conflist".data)) = true := by
    simp
  have h2 : ".conflist".data.isSuffixOf (name.data ++ ".conflist".data) = true := by
    simp
  have h3 : k.ISULAD_CNI_NETWORK_CONF_FILE_PRE.data.length +
      (name.data.length + ".conflist".data.length) -
        k.ISULAD_CNI_NETWORK_CONF_FILE_PRE.data.length - ".conflist".data.length =
      name.data.length := by omega
  rw [h3]
  simp [h1, h2]

/-- C29: in every state reached from init by Create, Remove, Attach and
Detach calls (with any change of the host in between), `network_len` is the
number of map entries; `native_ready` is true exactly when the map is not
empty; and a Create that succeeds there adds its entry under a name that was
not a key, behind the entries the map had, which all stay, and counts one
more. -/
theorem reachable_counter_matches_map (k : build_consts) (max_count : Nat) (conf_dir : String)
    (bin_paths : List String) (dir : List (String × Option cni_network_list_conf))
    (files dirs : List String) (interface_names host_net_ip : Option (List String))
    (calls : List native_call) (w : world)
    (hw : w = native_run k ⟨(native_init k max_count conf_dir bin_paths dir).2, files, dirs,
      interface_names, host_net_ip⟩ calls) :
    w.g_store.network_len = w.g_store.name_to_network.length ∧
    (w.g_store.name_to_network.map (fun kv => kv.1)).Nodup ∧
    (native_ready w = true ↔ w.g_store.name_to_network ≠ []) ∧
    (∀ f request,
      (native_config_create k f w request).1.ret = 0 →
      ∃ name record,
        (native_config_create k f w request).1.name = some name ∧
        map_search w.g_store.name_to_network name = none ∧
        (native_config_create k f w request).2.g_store.name_to_network =
          w.g_store.name_to_network ++ [(name, record)] ∧
        (native_config_create k f w request).2.g_store.network_len =
          w.g_store.network_len + 1) := by
  have hwf := store_wf_run k calls
    ⟨(native_init k max_count conf_dir bin_paths dir).2, files, dirs, interface_names,
      host_net_ip⟩ (store_wf_init k max_count conf_dir bin_paths dir)
  rw [← hw] at hwf
  refine ⟨hwf.2.1, hwf.2.2, ?_, ?_⟩
  · unfold native_ready
    rw [hwf.2.1]
    simp only [gt_iff_lt, decide_eq_true_eq, ne_eq]
    rw [List.length_pos]
  · intro f request hret
    obtain ⟨list, json, path, hname, _, _, hfresh, hworld⟩ :=
      native_config_create_fresh k f w request hwf hret
    refine ⟨list.name, native_network_init ⟨list, some json⟩, hname, hfresh, ?_, ?_⟩
    · rw [hworld]
      exact (store_wf_add w.g_store ⟨list, some json⟩ hwf hfresh).2
    · rw [hworld]
      rfl

theorem add_container_loop_conf_dir (pod : String) (extras : List attach_net_conf) :
    ∀ store, (add_container_loop pod store extras).2.conf_dir = store.conf_dir := by
  induction extras with
  | nil => intro store; rfl
  | cons e rest ih =>
    intro store
    have hd : (do_add_container_list store e.name pod).2.conf_dir = store.conf_dir := by
      unfold do_add_container_list
      cases e.name with
      | none => rfl
      | some X =>
        simp only
        cases map_search store.name_to_network X <;> rfl
    simp only [add_container_loop]
    split
    · exact hd
    · rw [ih, hd]

theorem remove_container_loop_conf_dir (pod : String) (extras : List attach_net_conf) :
    ∀ store, (remove_container_loop pod store extras).conf_dir = store.conf_dir := by
  induction extras with
  | nil => intro store; rfl
  | cons e rest ih =>
    intro store
    have hd : (do_remove_container_list store e.name pod).conf_dir = store.conf_dir := by
      unfold do_remove_container_list
      cases e.name with
      | none => rfl
      | some X =>
        simp only
        cases map_search store.name_to_network X <;> rfl
    simp only [remove_container_loop]
    rw [ih, hd]

theorem native_step_conf_dir (k : build_consts) (w : world) (c : native_call)
    (hwf : store_wf w.g_store) : (native_step k w c).g_store.conf_dir = w.g_store.conf_dir := by
  cases c with
  | create f request =>
    simp only [native_step]
    by_cases h : (native_config_create k f w request).1.ret = 0
    · obtain ⟨list, json, path, _, _, _, _, hworld⟩ :=
        native_config_create_fresh k f w request hwf h
      rw [hworld]
      rfl
    · rw [native_config_create_fail_store k f w request h]
  | remove f name =>
    simp only [native_step]
    unfold native_config_remove
    rcases hg : get_network_by_name w.g_store name with ⟨_ | network, msg⟩
    · rfl
    · simp only
      split
      · rfl
      · simp only
        unfold remove_entry_step
        simp only
        split
        · rw [remove_driver_step_store]
        · simp only
          rw [remove_driver_step_store]
  | attach inv conf =>
    simp only [native_step]
    unfold native_attach_networks
    split
    · rfl
    · simp only
      split
      · rfl
      · split
        · rfl
        · exact add_container_loop_conf_dir _ _ _
  | detach inv conf => exact remove_container_loop_conf_dir _ _ _
  | environment files dirs interface_names host_net_ip => rfl

theorem native_run_conf_dir (k : build_consts) (calls : List native_call) :
    ∀ w, store_wf w.g_store → (native_run k w calls).g_store.conf_dir = w.g_store.conf_dir := by
  induction calls with
  | nil => intro w _; rfl
  | cons c rest ih =>
    intro w h
    have := ih (native_step k w c) (store_wf_step k w c h)
    simp only [native_run, List.foldl] at this ⊢
    rw [this, native_step_conf_dir k w c h]

/-- C24 (amended): in every state reached from a successful init by Create, Remove,
Attach and Detach calls (with any change of the host in between), every
record is stored under the name of its conflist, and the directory is the one
given to init; a Create that succeeds there stores its record under the name
it returns and writes the file `<conf_dir>/<prefix><name>.conflist`, new on
disk, whose stem is that name. -/
theorem reachable_keys_are_names (k : build_consts) (max_count : Nat) (conf_dir : String)
    (bin_paths : List String) (dir : List (String × Option cni_network_list_conf))
    (files dirs : List String) (interface_names host_net_ip : Option (List String))
    (calls : List native_call) (w : world)
    (hinit : (native_init k max_count conf_dir bin_paths dir).1 = 0)
    (hw : w = native_run k ⟨(native_init k max_count conf_dir bin_paths dir).2, files, dirs,
      interface_names, host_net_ip⟩ calls) :
    keys_are_names w.g_store ∧
    w.g_store.conf_dir = conf_dir ∧
    (∀ f request,
      (native_config_create k f w request).1.ret = 0 →
      ∃ name record,
        (native_config_create k f w request).1.name = some name ∧
        map_search (native_config_create k f w request).2.g_store.name_to_network name =
          some record ∧
        record.conflist.list.name = name ∧
        keys_are_names (native_config_create k f w request).2.g_store ∧
        conf_dir ++ "/" ++ k.ISULAD_CNI_NETWORK_CONF_FILE_PRE ++ name ++ ".conflist" ∉ w.files ∧
        (native_config_create k f w request).2.files = w.files ++
          [conf_dir ++ "/" ++ k.ISULAD_CNI_NETWORK_CONF_FILE_PRE ++ name ++ ".conflist"] ∧
        conflist_file_stem k (k.ISULAD_CNI_NETWORK_CONF_FILE_PRE ++ name ++ ".conflist") =
          some name) := by
  have hwf := store_wf_run k calls
    ⟨(native_init k max_count conf_dir bin_paths dir).2, files, dirs, interface_names,
      host_net_ip⟩ (store_wf_init k max_count conf_dir bin_paths dir)
  have hdir : (native_run k ⟨(native_init k max_count conf_dir bin_paths dir).2, files, dirs,
      interface_names, host_net_ip⟩ calls).g_store.conf_dir = conf_dir := by
    rw [native_run_conf_dir k calls _ (store_wf_init k max_count conf_dir bin_paths dir)]
    unfold native_init at hinit ⊢
    simp only at hinit ⊢
    split
    · rename_i hne
      simp [hne] at hinit
    · rfl
  rw [← hw] at hwf hdir
  refine ⟨hwf.1, hdir, ?_⟩
  intro f request hret
  obtain ⟨list, json, path, hname, hpath, hnot, hfresh, hworld⟩ :=
    native_config_create_fresh k f w request hwf hret
  have hp : path = conf_dir ++ "/" ++ k.ISULAD_CNI_NETWORK_CONF_FILE_PRE ++ list.name ++
      ".conflist" := by
    unfold get_file_path_by_name at hpath
    simp only at hpath
    split at hpath
    · cases hpath
    · rw [hdir] at hpath
      injection hpath with hpath
      exact hpath.symm
  refine ⟨list.name, native_network_init ⟨list, some json⟩, hname, ?_, rfl, ?_, ?_, ?_,
    conflist_file_stem_of_name k list.name⟩
  · rw [hworld]
    exact map_search_map_replace _ _ _
  · have := store_wf_create k f w request hwf
    exact this.1
  · rw [← hp]
    exact hnot
  · rw [hworld, hp]


/-- C24 (amended), after init on a directory with one conflist file and a run
of Create, Attach, Detach and Remove. -/
theorem reachable_keys_are_names_witness :
    ∃ w : world,
      (native_init sample_consts 200 "/etc/cni/net.d" ["/opt/cni/bin"] sample_dir).1 = 0 ∧
      w = native_run sample_consts
        ⟨(native_init sample_consts 200 "/etc/cni/net.d" ["/opt/cni/bin"] sample_dir).2,
          ["/etc/cni/net.d/isulad-net1.conflist", "/etc/cni/net.d/README"], ["/etc/cni/net.d"],
          some ["lo"], some ["127.0.0.1"]⟩ sample_calls ∧
      keys_are_names w.g_store ∧
      w.g_store.conf_dir = "/etc/cni/net.d" ∧
      (∀ f request,
        (native_config_create sample_consts f w request).1.ret = 0 →
        ∃ name record,
          (native_config_create sample_consts f w request).1.name = some name ∧
          map_search (native_config_create sample_consts f w request).2.g_store.name_to_network
            name = some record ∧
          record.conflist.list.name = name ∧
          keys_are_names (native_config_create sample_consts f w request).2.g_store ∧
          "/etc/cni/net.d" ++ "/" ++ sample_consts.ISULAD_CNI_NETWORK_CONF_FILE_PRE ++ name ++
            ".conflist" ∉ w.files ∧
          (native_config_create sample_consts f w request).2.files = w.files ++
            ["/etc/cni/net.d" ++ "/" ++ sample_consts.ISULAD_CNI_NETWORK_CONF_FILE_PRE ++ name ++
              ".conflist"] ∧
          conflist_file_stem sample_consts
            (sample_consts.ISULAD_CNI_NETWORK_CONF_FILE_PRE ++ name ++ ".conflist") =
              some name) :=
  ⟨_, by decide, rfl,
    reachable_keys_are_names sample_consts 200 "/etc/cni/net.d" ["/opt/cni/bin"] sample_dir
      ["/etc/cni/net.d/isulad-net1.conflist", "/etc/cni/net.d/README"] ["/etc/cni/net.d"]
      (some ["lo"]) (some ["127.0.0.1"]) sample_calls _ (by decide) rfl⟩

/-- C24 (as stated) fails at init: the directory holds the file
`isulad-foo.conflist` whose conflist is named `bar`. Init loads the record
under the key `bar` with the name `bar`, while the stem of its file is `foo`;
the path that Remove works out for it names no file, so Remove drops the
record, leaves the file where it is and warns. -/
theorem init_loads_name_unlike_file_stem :
    is_native_config_file sample_consts "isulad-foo.conflist" = true ∧
    conflist_file_stem sample_consts "isulad-foo.conflist" = some "foo" ∧
    native_init sample_consts 200 "/etc/cni/net.d" ["/opt/cni/bin"]
        [("isulad-foo.conflist", some (sample_conflist "bar"))] =
      (0, ⟨[("bar", ⟨sample_conflist "bar", []⟩)], 1, "/etc/cni/net.d", ["/opt/cni/bin"]⟩) ∧
    (sample_conflist "bar").list.name = "bar" ∧
    get_file_path_by_name sample_consts
        ⟨⟨[("bar", ⟨sample_conflist "bar", []⟩)], 1, "/etc/cni/net.d", ["/opt/cni/bin"]⟩,
          ["/etc/cni/net.d/isulad-foo.conflist"], ["/etc/cni/net.d"], some ["lo"],
          some ["127.0.0.1"]⟩ "bar" = some "/etc/cni/net.d/isulad-bar.conflist" ∧
    native_config_remove sample_consts no_faults
        ⟨⟨[("bar", ⟨sample_conflist "bar", []⟩)], 1, "/etc/cni/net.d", ["/opt/cni/bin"]⟩,
          ["/etc/cni/net.d/isulad-foo.conflist"], ["/etc/cni/net.d"], some ["lo"],
          some ["127.0.0.1"]⟩ "bar" =
      (⟨0, some "bar", some "Failed to delete /etc/cni/net.d/isulad-bar.conflist."⟩,
        ⟨⟨[], 0, "/etc/cni/net.d", ["/opt/cni/bin"]⟩, ["/etc/cni/net.d/isulad-foo.conflist"],
          ["/etc/cni/net.d"], some ["lo"], some ["127.0.0.1"]⟩) := by
  decide


/-- C29, after init on an empty directory and a run of Create, Attach, Detach
and Remove. -/
theorem reachable_counter_matches_map_witness :
    ∃ w : world,
      w = native_run sample_consts
        ⟨(native_init sample_consts 200 "/etc/cni/net.d" ["/opt/cni/bin"] []).2, [], [],
          some ["lo"], some ["127.0.0.1"]⟩ sample_calls ∧
      w.g_store.network_len = w.g_store.name_to_network.length ∧
      (w.g_store.name_to_network.map (fun kv => kv.1)).Nodup ∧
      (native_ready w = true ↔ w.g_store.name_to_network ≠ []) ∧
      (∀ f request,
        (native_config_create sample_consts f w request).1.ret = 0 →
        ∃ name record,
          (native_config_create sample_consts f w request).1.name = some name ∧
          map_search w.g_store.name_to_network name = none ∧
          (native_config_create sample_consts f w request).2.g_store.name_to_network =
            w.g_store.name_to_network ++ [(name, record)] ∧
          (native_config_create sample_consts f w request).2.g_store.network_len =
            w.g_store.network_len + 1) :=
  ⟨_, rfl,
    reachable_counter_matches_map sample_consts 200 "/etc/cni/net.d" ["/opt/cni/bin"] [] [] []
      (some ["lo"]) (some ["127.0.0.1"]) sample_calls _ rfl⟩


/-! ### The traversal of the extra networks -/

theorem processed_extras_cons (store : native_store) (e : attach_net_conf)
    (rest : List attach_net_conf) :
    processed_extras store (e :: rest) =
      match e.name, e.interface with
      | some name, some _ =>
        if (map_search store.name_to_network name).isSome then e :: processed_extras store rest
        else processed_extras store rest
      | _, _ => processed_extras store rest := by
  unfold processed_extras
  rcases e with ⟨_ | name, _ | ifname⟩ <;> simp [List.filter]
  cases (map_search store.name_to_network name).isSome <;> simp

theorem do_foreach_loop_calls (store : native_store) (conf : network_api_conf)
    (ignore_nofound : Bool)
    (op : Nat → cni_manager → cni_network_list_conf → Int × Option String)
    (extras : List attach_net_conf) :
    ∀ (i : Nat) (ua : Bool) (list : List network_api_result) (calls : List cni_manager),
      ∃ n,
        (do_foreach_network_op_loop store conf ignore_nofound op extras i ua list calls).calls =
          calls ++ (expected_managers conf ua (processed_extras store extras)).take n ∧
        ((do_foreach_network_op_loop store conf ignore_nofound op extras i ua list calls).ret = 0 →
          (do_foreach_network_op_loop store conf ignore_nofound op extras i ua list calls).calls =
            calls ++ expected_managers conf ua (processed_extras store extras)) := by
  induction extras with
  | nil =>
    intro i ua list calls
    exact ⟨0, by simp [do_foreach_network_op_loop], by
      simp [do_foreach_network_op_loop, processed_extras, expected_managers]⟩
  | cons e rest ih =>
    intro i ua list calls
    rw [processed_extras_cons]
    rcases e with ⟨_ | name, _ | ifname⟩
    · simpa [do_foreach_network_op_loop] using ih (i + 1) ua list calls
    · simpa [do_foreach_network_op_loop] using ih (i + 1) ua list calls
    · simpa [do_foreach_network_op_loop] using ih (i + 1) ua list calls
    · simp only [do_foreach_network_op_loop]
      cases hs : map_search store.name_to_network name with
      | none =>
        simp only [Option.isSome_none, Bool.false_eq_true, if_false]
        cases ignore_nofound with
        | true => simpa using ih (i + 1) ua list calls
        | false =>
          refine ⟨0, by simp, ?_⟩
          intro h
          simp at h
      | some network =>
        simp only [Option.isSome_some, if_true, expected_managers, Option.getD_some]
        by_cases hop : (op i ⟨conf.pod_id, conf.netns_path, conf.args, ifname,
            if (!ua) = true then conf.annotations else none⟩ network.conflist).1 = 0
        · simp only [hop, ne_eq, not_true_eq_false, if_false]
          obtain ⟨n, h1, h2⟩ := ih (i + 1) true
            (match (op i ⟨conf.pod_id, conf.netns_path, conf.args, ifname,
                if (!ua) = true then conf.annotations else none⟩ network.conflist).2 with
              | none => list
              | some cni_result => list ++ [⟨name, ifname, cni_result⟩])
            (calls ++ [⟨conf.pod_id, conf.netns_path, conf.args, ifname,
              if (!ua) = true then conf.annotations else none⟩])
          refine ⟨n + 1, ?_, ?_⟩
          · rw [h1]
            simp
          · intro h
            rw [h2 h]
            simp
        · simp only [hop, ne_eq, not_false_eq_true, if_true]
          refine ⟨1, by simp, ?_⟩
          intro h
          simp at h

theorem expected_managers_get (conf : network_api_conf) (extras : List attach_net_conf) :
    ∀ (ua : Bool) (j : Nat),
      (expected_managers conf ua extras)[j]? =
        (extras[j]?).map (fun e =>
          ⟨conf.pod_id, conf.netns_path, conf.args, e.interface.getD "",
            if j = 0 ∧ ua = false then conf.annotations else none⟩) := by
  induction extras with
  | nil => intro ua j; simp [expected_managers]
  | cons e rest ih =>
    intro ua j
    cases j with
    | zero => cases ua <;> simp [expected_managers]
    | succ j =>
      simp only [expected_managers, List.getElem?_cons_succ]
      rw [ih true j]
      simp


theorem processed_extras_mem (store : native_store) (extras : List attach_net_conf)
    (e : attach_net_conf) (h : e ∈ processed_extras store extras) :
    e ∈ extras ∧ ∃ name ifname network, e = ⟨some name, some ifname⟩ ∧
      map_search store.name_to_network name = some network := by
  unfold processed_extras at h
  rw [List.mem_filter] at h
  refine ⟨h.1, ?_⟩
  rcases e with ⟨_ | name, _ | ifname⟩
  · simp at h
  · simp at h
  · simp at h
  · cases hs : map_search store.name_to_network name with
    | none => simp [hs] at h
    | some network => exact ⟨name, ifname, network, rfl, hs⟩

theorem expected_managers_length (conf : network_api_conf) (extras : List attach_net_conf) :
    ∀ ua, (expected_managers conf ua extras).length = extras.length := by
  induction extras with
  | nil => intro ua; rfl
  | cons e rest ih =>
    intro ua
    simp [expected_managers, ih]

/-- C27 (amended): in a traversal of the extra networks the invoker is called for the
processed entries (name and interface present, network in the store), in the
order of `extral_nets`, as long as no call fails, and for all of them when the
traversal returns 0; the manager of each call has the interface of its entry;
the manager of the first call carries the annotations of the request and the
manager of every later call carries none. Attach and Detach hand out the
calls of their traversal, or make none. -/
theorem traversal_annotations_first_call (store : native_store) (conf : network_api_conf)
    (ignore_nofound : Bool)
    (op : Nat → cni_manager → cni_network_list_conf → Int × Option String) :
    (do_foreach_network_op store conf ignore_nofound op).calls.length ≤
      (processed_extras store conf.extral_nets).length ∧
    ((do_foreach_network_op store conf ignore_nofound op).ret = 0 →
      (do_foreach_network_op store conf ignore_nofound op).calls.length =
        (processed_extras store conf.extral_nets).length) ∧
    (∀ j, j < (do_foreach_network_op store conf ignore_nofound op).calls.length →
      ∃ name ifname network,
        (processed_extras store conf.extral_nets)[j]? = some ⟨some name, some ifname⟩ ∧
        map_search store.name_to_network name = some network ∧
        (do_foreach_network_op store conf ignore_nofound op).calls[j]? =
          some ⟨conf.pod_id, conf.netns_path, conf.args, ifname,
            if j = 0 then conf.annotations else none⟩) ∧
    (∀ (inv : cni_invoker) (w : world),
      ((native_attach_networks inv w conf).1.calls = [] ∨
        (native_attach_networks inv w conf).1.calls =
          (do_foreach_network_op w.g_store conf false inv.attach_network_plane).calls) ∧
      ((native_detach_networks inv w conf).1.calls = [] ∨
        (native_detach_networks inv w conf).1.calls =
          (do_foreach_network_op w.g_store conf true inv.detach_network_plane).calls)) := by
  obtain ⟨n, hn, hfull⟩ :=
    do_foreach_loop_calls store conf ignore_nofound op conf.extral_nets 0 false [] []
  simp only [List.nil_append] at hn hfull
  have hcalls : (do_foreach_network_op store conf ignore_nofound op).calls =
      (expected_managers conf false (processed_extras store conf.extral_nets)).take n := hn
  refine ⟨?_, ?_, ?_, ?_⟩
  · rw [hcalls, List.length_take, expected_managers_length]
    omega
  · intro h
    have := hfull h
    unfold do_foreach_network_op
    rw [this, expected_managers_length]
  · intro j hj
    rw [hcalls, List.length_take, expected_managers_length] at hj
    have hjl : j < (processed_extras store conf.extral_nets).length := by omega
    have hjn : j < n := by omega
    have hmem : (processed_extras store conf.extral_nets)[j] ∈
        processed_extras store conf.extral_nets := List.getElem_mem hjl
    obtain ⟨_, name, ifname, network, he, hs⟩ := processed_extras_mem store _ _ hmem
    refine ⟨name, ifname, network, ?_, hs, ?_⟩
    · rw [List.getElem?_eq_getElem hjl, he]
    · rw [hcalls, List.getElem?_take_of_lt hjn, expected_managers_get,
        List.getElem?_eq_getElem hjl, he]
      simp
  · intro inv w
    constructor
    · unfold native_attach_networks
      split
      · exact Or.inl rfl
      · simp only
        split
        · exact Or.inl rfl
        · split
          · exact Or.inr rfl
          · exact Or.inr rfl
    · unfold native_detach_networks
      simp only
      split
      · exact Or.inl rfl
      · split
        · exact Or.inl rfl
        · exact Or.inr rfl

/-- C27 (as stated) fails when the first entry is passed over: the
store holds `net1` only and Detach is called with the extras `ghost`, `net1`.
The call returns 0, the invoker is called once, for `net1`, which is the
second entry, and its manager carries the annotations of the request. -/
theorem detach_annotations_on_second_extra :
    native_detach_networks sample_invoker
        ⟨⟨[("net1", ⟨sample_conflist "net1", ["c1"]⟩)], 1, "/etc/cni/net.d", ["/opt/cni/bin"]⟩,
          [], [], some ["lo"], some ["127.0.0.1"]⟩
        ⟨"c1", "/proc/1/ns/net", [], some [("bandwidth", "1000")],
          [⟨some "ghost", some "eth0"⟩, ⟨some "net1", some "eth1"⟩]⟩ =
      (⟨0, [], none, [⟨"c1", "/proc/1/ns/net", [], "eth1", some [("bandwidth", "1000")]⟩]⟩,
        ⟨⟨[("net1", ⟨sample_conflist "net1", []⟩)], 1, "/etc/cni/net.d", ["/opt/cni/bin"]⟩,
          [], [], some ["lo"], some ["127.0.0.1"]⟩) ∧
    (do_foreach_network_op
        ⟨[("net1", ⟨sample_conflist "net1", []⟩)], 1, "/etc/cni/net.d", ["/opt/cni/bin"]⟩
        ⟨"c1", "/proc/1/ns/net", [], some [("bandwidth", "1000")],
          [⟨some "net1", none⟩, ⟨some "net1", some "eth1"⟩]⟩ false
        sample_invoker.attach_network_plane).calls =
      [⟨"c1", "/proc/1/ns/net", [], "eth1", some [("bandwidth", "1000")]⟩] := by
  decide


/-! ### Container lists under attach and detach -/

theorem map_search_map_modify_ne (m : List (String × native_network)) (X Y : String)
    (g : native_network → native_network) (h : X ≠ Y) :
    map_search (map_modify m Y g) X = map_search m X := by
  induction m with
  | nil => rfl
  | cons kv rest ih =>
    rcases kv with ⟨key, v⟩
    by_cases hk : key = Y
    · subst hk
      have hkx : ¬ key = X := fun e => h e.symm
      simp [map_modify, map_search, hkx]
    · by_cases hkx : key = X
      · subst hkx
        simp [map_modify, map_search, hk]
      · simp [map_modify, map_search, hk, hkx, ih]

theorem extras_naming_cons (X : String) (e : attach_net_conf) (rest : List attach_net_conf) :
    extras_naming X (e :: rest) =
      (if e.name = some X then 1 else 0) + extras_naming X rest := by
  unfold extras_naming
  by_cases h : e.name = some X
  · simp [List.filter, h]
    omega
  · simp [List.filter, h]

theorem do_remove_container_list_search (store : native_store) (name : Option String)
    (pod X : String) :
    map_search (do_remove_container_list store name pod).name_to_network X =
      (map_search store.name_to_network X).map (fun r =>
        if name = some X then ⟨r.conflist, r.containers_list.erase pod⟩ else r) := by
  unfold do_remove_container_list
  cases name with
  | none => simp
  | some Y =>
    simp only
    by_cases hxy : Y = X
    · subst hxy
      cases hs : map_search store.name_to_network Y with
      | none => simp [hs]
      | some r =>
        simp only [map_search_map_modify, hs]
        simp
    · have hne : X ≠ Y := fun e => hxy e.symm
      cases hs : map_search store.name_to_network Y with
      | none => simp [hxy]
      | some r =>
        simp only [map_search_map_modify_ne _ _ _ _ hne]
        simp [hxy]

theorem remove_container_loop_search (pod X : String) (extras : List attach_net_conf) :
    ∀ store, map_search (remove_container_loop pod store extras).name_to_network X =
      (map_search store.name_to_network X).map (fun r =>
        ⟨r.conflist, (fun l => l.erase pod)^[extras_naming X extras] r.containers_list⟩) := by
  induction extras with
  | nil =>
    intro store
    simp [remove_container_loop, extras_naming]
  | cons e rest ih =>
    intro store
    simp only [remove_container_loop]
    rw [ih, do_remove_container_list_search, extras_naming_cons, Option.map_map]
    congr 1
    funext r
    by_cases h : e.name = some X
    · simp only [Function.comp, h, if_true]
      rw [Nat.add_comm, Function.iterate_succ_apply]
    · simp [Function.comp, h]

theorem do_add_container_list_search (store : native_store) (name : Option String)
    (pod X : String) :
    map_search (do_add_container_list store name pod).2.name_to_network X =
      (map_search store.name_to_network X).map (fun r =>
        if name = some X then ⟨r.conflist, r.containers_list ++ [pod]⟩ else r) := by
  unfold do_add_container_list
  cases name with
  | none => simp
  | some Y =>
    simp only
    by_cases hxy : Y = X
    · subst hxy
      cases hs : map_search store.name_to_network Y with
      | none => simp [hs]
      | some r =>
        simp only [map_search_map_modify, hs]
        simp
    · have hne : X ≠ Y := fun e => hxy e.symm
      cases hs : map_search store.name_to_network Y with
      | none => simp [hxy]
      | some r =>
        simp only [map_search_map_modify_ne _ _ _ _ hne]
        simp [hxy]

theorem add_container_loop_search (pod X : String) (extras : List attach_net_conf) :
    ∀ store, (add_container_loop pod store extras).1 = 0 →
      map_search (add_container_loop pod store extras).2.name_to_network X =
        (map_search store.name_to_network X).map (fun r =>
          ⟨r.conflist, r.containers_list ++ List.replicate (extras_naming X extras) pod⟩) := by
  induction extras with
  | nil =>
    intro store _
    simp [add_container_loop, extras_naming]
  | cons e rest ih =>
    intro store h
    simp only [add_container_loop] at h ⊢
    by_cases hd : (do_add_container_list store e.name pod).1 = 0
    · simp only [hd, ne_eq, not_true_eq_false, if_false] at h ⊢
      rw [ih _ h, do_add_container_list_search, extras_naming_cons, Option.map_map]
      congr 1
      funext r
      by_cases hn : e.name = some X
      · simp [Function.comp, hn, List.replicate_succ, Nat.add_comm 1]
      · simp [Function.comp, hn]
    · simp only [hd, ne_eq, not_false_eq_true, if_true] at h

theorem add_container_loop_ok (pod : String) (extras : List attach_net_conf) :
    ∀ store, (∀ e ∈ extras, ∃ name, e.name = some name ∧
        map_search store.name_to_network name ≠ none) →
      (add_container_loop pod store extras).1 = 0 := by
  induction extras with
  | nil => intro store _; rfl
  | cons e rest ih =>
    intro store h
    obtain ⟨name, hn, hs⟩ := h e (List.mem_cons_self _ _)
    cases hr : map_search store.name_to_network name with
    | none => exact absurd hr hs
    | some r =>
      have hd := do_add_container_list_found store name pod r hr
      simp only [add_container_loop, hn, hd, ne_eq, not_true_eq_false, if_false]
      apply ih
      intro e2 he2
      obtain ⟨name2, hn2, hs2⟩ := h e2 (List.mem_cons_of_mem _ he2)
      refine ⟨name2, hn2, ?_⟩
      have := do_add_container_list_search store (some name) pod name2
      rw [hd] at this
      simp only at this
      rw [this]
      cases hm : map_search store.name_to_network name2 with
      | none => exact absurd hm hs2
      | some r2 => simp

theorem erase_iterate_appended (pod : String) (n : Nat) :
    ∀ l : List String, pod ∉ l →
      (fun l => l.erase pod)^[n] (l ++ List.replicate n pod) = l := by
  induction n with
  | zero => intro l _; simp
  | succ n ih =>
    intro l hl
    rw [Function.iterate_succ_apply, List.replicate_succ]
    have : (l ++ pod :: List.replicate n pod).erase pod = l ++ List.replicate n pod := by
      rw [List.erase_append_right _ hl]
      simp
    simp only [this]
    exact ih l hl

theorem erase_iterate_perm (pod : String) (n : Nat) :
    ∀ l : List String,
      ((fun l => l.erase pod)^[n] (l ++ List.replicate n pod)).Perm l := by
  induction n with
  | zero => intro l; simp
  | succ n ih =>
    intro l
    rw [Function.iterate_succ_apply, List.replicate_succ]
    by_cases hl : pod ∈ l
    · have h1 : (l ++ pod :: List.replicate n pod).erase pod =
          l.erase pod ++ pod :: List.replicate n pod := List.erase_append_left _ hl
      simp only [h1]
      have h2 : l.erase pod ++ pod :: List.replicate n pod =
          (l.erase pod ++ [pod]) ++ List.replicate n pod := by simp
      rw [h2]
      refine (ih (l.erase pod ++ [pod])).trans ?_
      exact (List.perm_append_comm).trans (List.perm_cons_erase hl).symm
    · have : (l ++ pod :: List.replicate n pod).erase pod = l ++ List.replicate n pod := by
        rw [List.erase_append_right _ hl]
        simp
      simp only [this]
      exact ih l


theorem do_foreach_loop_ignore_ok (store : native_store) (conf : network_api_conf)
    (op : Nat → cni_manager → cni_network_list_conf → Int × Option String)
    (hop : ∀ i m c, (op i m c).1 = 0) (extras : List attach_net_conf) :
    ∀ (i : Nat) (ua : Bool) (list : List network_api_result) (calls : List cni_manager),
      (do_foreach_network_op_loop store conf true op extras i ua list calls).ret = 0 := by
  induction extras with
  | nil => intro i ua list calls; rfl
  | cons e rest ih =>
    intro i ua list calls
    rcases e with ⟨_ | name, _ | ifname⟩
    · simpa [do_foreach_network_op_loop] using ih (i + 1) ua list calls
    · simpa [do_foreach_network_op_loop] using ih (i + 1) ua list calls
    · simpa [do_foreach_network_op_loop] using ih (i + 1) ua list calls
    · simp only [do_foreach_network_op_loop]
      cases hs : map_search store.name_to_network name with
      | none => simpa using ih (i + 1) ua list calls
      | some network =>
        simp only [hop, ne_eq, not_true_eq_false, if_false]
        exact ih _ _ _ _

theorem remove_container_loop_frame (pod : String) (extras : List attach_net_conf) :
    ∀ store,
      (remove_container_loop pod store extras).name_to_network.map (fun kv => kv.1) =
        store.name_to_network.map (fun kv => kv.1) ∧
      (remove_container_loop pod store extras).network_len = store.network_len ∧
      (remove_container_loop pod store extras).bin_paths = store.bin_paths := by
  induction extras with
  | nil => intro store; exact ⟨rfl, rfl, rfl⟩
  | cons e rest ih =>
    intro store
    have hd : (do_remove_container_list store e.name pod).name_to_network.map (fun kv => kv.1) =
          store.name_to_network.map (fun kv => kv.1) ∧
        (do_remove_container_list store e.name pod).network_len = store.network_len ∧
        (do_remove_container_list store e.name pod).bin_paths = store.bin_paths := by
      unfold do_remove_container_list
      cases e.name with
      | none => exact ⟨rfl, rfl, rfl⟩
      | some X =>
        simp only
        cases map_search store.name_to_network X with
        | none => exact ⟨rfl, rfl, rfl⟩
        | some r => exact ⟨map_modify_fst _ _ _, rfl, rfl⟩
    simp only [remove_container_loop]
    obtain ⟨h1, h2, h3⟩ := ih (do_remove_container_list store e.name pod)
    exact ⟨h1.trans hd.1, h2.trans hd.2.1, h3.trans hd.2.2⟩

/-- C22: Detach, whatever the invoker answers (loopback detach, CNI delete)
and whatever status the call returns, leaves under every name the record it
found there with the first entry equal to `pod_id` taken out of the container
list once for each entry of `extral_nets` that names the network, every other
entry keeping its place; the keys, the counter and the host are untouched.
An entry that names no stored network is passed over: on a non-empty store
the call returns 0 when the loopback detach and every CNI delete succeed, as
for the extras `net1`, `ghost` when only `net1` exists. -/
theorem detach_erases_first_match_per_extra (inv : cni_invoker) (w : world)
    (conf : network_api_conf) :
    (∀ X, map_search (native_detach_networks inv w conf).2.g_store.name_to_network X =
      (map_search w.g_store.name_to_network X).map (fun r =>
        ⟨r.conflist,
          (fun l => l.erase conf.pod_id)^[extras_naming X conf.extral_nets] r.containers_list⟩)) ∧
    (∀ l : List String,
      (conf.pod_id ∉ l → l.erase conf.pod_id = l) ∧
      (conf.pod_id ∈ l → ∃ l1 l2, conf.pod_id ∉ l1 ∧ l = l1 ++ conf.pod_id :: l2 ∧
        l.erase conf.pod_id = l1 ++ l2)) ∧
    (native_detach_networks inv w conf).2.g_store.name_to_network.map (fun kv => kv.1) =
      w.g_store.name_to_network.map (fun kv => kv.1) ∧
    (native_detach_networks inv w conf).2.g_store.network_len = w.g_store.network_len ∧
    (native_detach_networks inv w conf).2.files = w.files ∧
    (native_detach_networks inv w conf).2.interface_names = w.interface_names ∧
    (w.g_store.network_len ≠ 0 → inv.detach_loopback conf.pod_id conf.netns_path = 0 →
      (∀ i m c, (inv.detach_network_plane i m c).1 = 0) →
      (native_detach_networks inv w conf).1.ret = 0) ∧
    native_detach_networks sample_invoker
        ⟨⟨[("net1", ⟨sample_conflist "net1", ["c0", "c1", "c2", "c1"]⟩)], 1, "/etc/cni/net.d",
          ["/opt/cni/bin"]⟩, [], [], some ["lo"], some ["127.0.0.1"]⟩
        ⟨"c1", "/proc/1/ns/net", [], none,
          [⟨some "net1", some "eth0"⟩, ⟨some "ghost", some "eth1"⟩]⟩ =
      (⟨0, [], none, [⟨"c1", "/proc/1/ns/net", [], "eth0", none⟩]⟩,
        ⟨⟨[("net1", ⟨sample_conflist "net1", ["c0", "c2", "c1"]⟩)], 1, "/etc/cni/net.d",
          ["/opt/cni/bin"]⟩, [], [], some ["lo"], some ["127.0.0.1"]⟩) ∧
    native_detach_networks ⟨fun _ _ => 0, fun _ _ => -1, fun _ _ _ => (0, none),
          fun _ _ _ => (-1, none)⟩
        ⟨⟨[("net1", ⟨sample_conflist "net1", ["c0", "c1", "c2", "c1"]⟩)], 1, "/etc/cni/net.d",
          ["/opt/cni/bin"]⟩, [], [], some ["lo"], some ["127.0.0.1"]⟩
        ⟨"c1", "/proc/1/ns/net", [], none,
          [⟨some "net1", some "eth0"⟩, ⟨some "ghost", some "eth1"⟩]⟩ =
      (⟨-1, [], none, []⟩,
        ⟨⟨[("net1", ⟨sample_conflist "net1", ["c0", "c2", "c1"]⟩)], 1, "/etc/cni/net.d",
          ["/opt/cni/bin"]⟩, [], [], some ["lo"], some ["127.0.0.1"]⟩) := by
  refine ⟨?_, ?_, ?_, ?_, rfl, rfl, ?_, by decide, by decide⟩
  · intro X
    exact remove_container_loop_search conf.pod_id X conf.extral_nets w.g_store
  · intro l
    exact ⟨fun h => List.erase_of_not_mem h, fun h => List.exists_erase_eq h⟩
  · exact (remove_container_loop_frame conf.pod_id conf.extral_nets w.g_store).1
  · exact (remove_container_loop_frame conf.pod_id conf.extral_nets w.g_store).2.1
  · intro hlen hlo hop
    unfold native_detach_networks
    simp only [hlen, if_false, hlo, ne_eq, not_true_eq_false]
    exact do_foreach_loop_ignore_ok w.g_store conf inv.detach_network_plane hop _ _ _ _ _


theorem add_container_loop_frame (pod : String) (extras : List attach_net_conf) :
    ∀ store,
      (add_container_loop pod store extras).2.name_to_network.map (fun kv => kv.1) =
        store.name_to_network.map (fun kv => kv.1) ∧
      (add_container_loop pod store extras).2.network_len = store.network_len := by
  induction extras with
  | nil => intro store; exact ⟨rfl, rfl⟩
  | cons e rest ih =>
    intro store
    have hd : (do_add_container_list store e.name pod).2.name_to_network.map (fun kv => kv.1) =
          store.name_to_network.map (fun kv => kv.1) ∧
        (do_add_container_list store e.name pod).2.network_len = store.network_len := by
      unfold do_add_container_list
      cases e.name with
      | none => exact ⟨rfl, rfl⟩
      | some X =>
        simp only
        cases map_search store.name_to_network X with
        | none => exact ⟨rfl, rfl⟩
        | some r => exact ⟨map_modify_fst _ _ _, rfl⟩
    simp only [add_container_loop]
    split
    · exact hd
    · obtain ⟨h1, h2⟩ := ih (do_add_container_list store e.name pod).2
      exact ⟨h1.trans hd.1, h2.trans hd.2⟩

theorem native_attach_networks_ok (inv : cni_invoker) (w : world) (conf : network_api_conf)
    (hlen : w.g_store.network_len ≠ 0) (h : (native_attach_networks inv w conf).1.ret = 0) :
    (add_container_loop conf.pod_id w.g_store conf.extral_nets).1 = 0 ∧
    (do_foreach_network_op w.g_store conf false inv.attach_network_plane).ret = 0 ∧
    (native_attach_networks inv w conf).2 =
      ⟨(add_container_loop conf.pod_id w.g_store conf.extral_nets).2, w.files, w.dirs,
        w.interface_names, w.host_net_ip⟩ := by
  unfold native_attach_networks at h ⊢
  simp only [hlen, if_false] at h ⊢
  by_cases hlo : inv.attach_loopback conf.pod_id conf.netns_path = 0
  · simp only [hlo, ne_eq, not_true_eq_false, if_false] at h ⊢
    by_cases hr : (do_foreach_network_op w.g_store conf false inv.attach_network_plane).ret = 0
    · simp only [hr, not_true_eq_false, if_false] at h ⊢
      exact ⟨h, trivial, trivial⟩
    · simp only [hr, not_false_eq_true, if_true] at h
  · simp only [hlo, ne_eq, not_false_eq_true, if_true] at h

/-- C30: on a store whose counter is the number of its entries, when every
entry of `extral_nets` has a name and an interface and names a stored
network, an Attach that returns 0 leaves under every name the record it found
with `pod_id` appended at the tail of the container list once for each entry
that names the network; a Detach with the same request after it gives back,
under every name, the record of before the Attach when `pod_id` was not in
its list, and otherwise a record with the same conflist whose list is a
rearrangement of the list of before; records that no entry names are the same
after each of the two calls; keys and counter do not change. -/
theorem attach_then_detach_restores (inv inv2 : cni_invoker) (w : world)
    (conf : network_api_conf)
    (hcount : w.g_store.network_len = w.g_store.name_to_network.length)
    (hextras : ∀ e ∈ conf.extral_nets, ∃ name ifname network,
      e = ⟨some name, some ifname⟩ ∧ map_search w.g_store.name_to_network name = some network)
    (hattach : (native_attach_networks inv w conf).1.ret = 0) :
    (∀ X, map_search (native_attach_networks inv w conf).2.g_store.name_to_network X =
      (map_search w.g_store.name_to_network X).map (fun r =>
        ⟨r.conflist,
          r.containers_list ++ List.replicate (extras_naming X conf.extral_nets) conf.pod_id⟩)) ∧
    (∀ X r, map_search w.g_store.name_to_network X = some r → conf.pod_id ∉ r.containers_list →
      map_search (native_detach_networks inv2 (native_attach_networks inv w conf).2
        conf).2.g_store.name_to_network X = some r) ∧
    (∀ X r, map_search w.g_store.name_to_network X = some r →
      ∃ r2, map_search (native_detach_networks inv2 (native_attach_networks inv w conf).2
          conf).2.g_store.name_to_network X = some r2 ∧
        r2.conflist = r.conflist ∧ r2.containers_list.Perm r.containers_list) ∧
    (∀ X, extras_naming X conf.extral_nets = 0 →
      map_search (native_attach_networks inv w conf).2.g_store.name_to_network X =
        map_search w.g_store.name_to_network X ∧
      map_search (native_detach_networks inv2 (native_attach_networks inv w conf).2
        conf).2.g_store.name_to_network X = map_search w.g_store.name_to_network X) ∧
    (∀ X, map_search w.g_store.name_to_network X = none →
      map_search (native_detach_networks inv2 (native_attach_networks inv w conf).2
        conf).2.g_store.name_to_network X = none) ∧
    (native_detach_networks inv2 (native_attach_networks inv w conf).2
      conf).2.g_store.name_to_network.map (fun kv => kv.1) =
        w.g_store.name_to_network.map (fun kv => kv.1) ∧
    (native_detach_networks inv2 (native_attach_networks inv w conf).2
      conf).2.g_store.network_len = w.g_store.network_len := by
  have hA : ∀ X, map_search (native_attach_networks inv w conf).2.g_store.name_to_network X =
      (map_search w.g_store.name_to_network X).map (fun r =>
        ⟨r.conflist, r.containers_list ++
          List.replicate (extras_naming X conf.extral_nets) conf.pod_id⟩) := by
    intro X
    by_cases hlen : w.g_store.network_len = 0
    · have hnil : w.g_store.name_to_network = [] := by
        rw [hcount] at hlen
        exact List.length_eq_zero.mp hlen
      have hex : conf.extral_nets = [] := by
        cases hc : conf.extral_nets with
        | nil => rfl
        | cons e rest =>
          obtain ⟨name, _, network, _, hs⟩ := hextras e (by rw [hc]; exact List.mem_cons_self _ _)
          rw [hnil] at hs
          cases hs
      simp [native_attach_networks, hlen, hnil, map_search]
    · obtain ⟨hadd, _, hworld⟩ := native_attach_networks_ok inv w conf hlen hattach
      rw [hworld]
      exact add_container_loop_search conf.pod_id X conf.extral_nets w.g_store hadd
  have hD : ∀ X, map_search (native_detach_networks inv2 (native_attach_networks inv w conf).2
      conf).2.g_store.name_to_network X =
      (map_search w.g_store.name_to_network X).map (fun r =>
        ⟨r.conflist, (fun l => l.erase conf.pod_id)^[extras_naming X conf.extral_nets]
          (r.containers_list ++
            List.replicate (extras_naming X conf.extral_nets) conf.pod_id)⟩) := by
    intro X
    have := remove_container_loop_search conf.pod_id X conf.extral_nets
      (native_attach_networks inv w conf).2.g_store
    simp only [native_detach_networks]
    rw [this, hA X, Option.map_map]
    rfl
  have hkeysA : (native_attach_networks inv w conf).2.g_store.name_to_network.map
        (fun kv => kv.1) = w.g_store.name_to_network.map (fun kv => kv.1) ∧
      (native_attach_networks inv w conf).2.g_store.network_len = w.g_store.network_len := by
    unfold native_attach_networks
    split
    · exact ⟨rfl, rfl⟩
    · simp only
      split
      · exact ⟨rfl, rfl⟩
      · split
        · exact ⟨rfl, rfl⟩
        · exact add_container_loop_frame _ _ _
  refine ⟨hA, ?_, ?_, ?_, ?_, ?_, ?_⟩
  · intro X r hr hnot
    rw [hD X, hr]
    simp only [Option.map_some', erase_iterate_appended conf.pod_id _ _ hnot]
  · intro X r hr
    rw [hD X, hr]
    exact ⟨_, rfl, rfl, erase_iterate_perm conf.pod_id _ _⟩
  · intro X h0
    rw [hA X, hD X, h0]
    cases map_search w.g_store.name_to_network X <;> simp
  · intro X hnone
    rw [hD X, hnone]
    rfl
  · exact ((remove_container_loop_frame conf.pod_id conf.extral_nets _).1).trans hkeysA.1
  · exact ((remove_container_loop_frame conf.pod_id conf.extral_nets _).2.1).trans hkeysA.2


/-- C30, on the store of two networks with a request that names the first
network twice and the second once: the lists grow by two and by one entry,
and the Detach gives back the state of before the Attach. -/
theorem attach_then_detach_restores_witness :
    sample_world.g_store.network_len = sample_world.g_store.name_to_network.length ∧
    (native_attach_networks sample_invoker sample_world
          sample_attach_conf).1.ret = 0 ∧
    (native_attach_networks sample_invoker sample_world
        sample_attach_conf).2.g_store.name_to_network =
      [("net1", ⟨sample_conflist "net1", ["c0", "c1", "c1"]⟩),
        ("net2", ⟨sample_conflist "net2", ["c1"]⟩)] ∧
    (native_detach_networks sample_invoker
        (native_attach_networks sample_invoker sample_world
          sample_attach_conf).2
        sample_attach_conf).2 = sample_world ∧
    ((∀ X, map_search (native_attach_networks sample_invoker sample_world
          sample_attach_conf).2.g_store.name_to_network X =
      (map_search sample_world.g_store.name_to_network X).map (fun r =>
        ⟨r.conflist,
          r.containers_list ++ List.replicate (extras_naming X sample_attach_conf.extral_nets)
            sample_attach_conf.pod_id⟩)) ∧
    (∀ X r, map_search sample_world.g_store.name_to_network X = some r →
      sample_attach_conf.pod_id ∉ r.containers_list →
      map_search (native_detach_networks sample_invoker (native_attach_networks sample_invoker sample_world
          sample_attach_conf).2
        sample_attach_conf).2.g_store.name_to_network X = some r) ∧
    (∀ X r, map_search sample_world.g_store.name_to_network X = some r →
      ∃ r2, map_search (native_detach_networks sample_invoker (native_attach_networks sample_invoker sample_world
          sample_attach_conf).2
          sample_attach_conf).2.g_store.name_to_network X = some r2 ∧
        r2.conflist = r.conflist ∧ r2.containers_list.Perm r.containers_list) ∧
    (∀ X, extras_naming X sample_attach_conf.extral_nets = 0 →
      map_search (native_attach_networks sample_invoker sample_world
          sample_attach_conf).2.g_store.name_to_network X =
        map_search sample_world.g_store.name_to_network X ∧
      map_search (native_detach_networks sample_invoker (native_attach_networks sample_invoker sample_world
          sample_attach_conf).2
        sample_attach_conf).2.g_store.name_to_network X =
          map_search sample_world.g_store.name_to_network X) ∧
    (∀ X, map_search sample_world.g_store.name_to_network X = none →
      map_search (native_detach_networks sample_invoker (native_attach_networks sample_invoker sample_world
          sample_attach_conf).2
        sample_attach_conf).2.g_store.name_to_network X = none) ∧
    (native_detach_networks sample_invoker (native_attach_networks sample_invoker sample_world
          sample_attach_conf).2
      sample_attach_conf).2.g_store.name_to_network.map (fun kv => kv.1) =
        sample_world.g_store.name_to_network.map (fun kv => kv.1) ∧
    (native_detach_networks sample_invoker (native_attach_networks sample_invoker sample_world
          sample_attach_conf).2
      sample_attach_conf).2.g_store.network_len = sample_world.g_store.network_len) :=
  ⟨by decide, by decide, by decide, by decide,
    attach_then_detach_restores sample_invoker sample_invoker sample_world sample_attach_conf
      (by decide)
      (by
        intro e he
        simp only [sample_attach_conf, List.mem_cons, List.mem_singleton, List.not_mem_nil,
          or_false] at he
        rcases he with rfl | rfl | rfl
        · exact ⟨"net1", "eth0", _, rfl, rfl⟩
        · exact ⟨"net2", "eth1", _, rfl, rfl⟩
        · exact ⟨"net1", "eth2", _, rfl, rfl⟩)
      (by decide)⟩


/-- C21 (amended): an Attach whose entries of `extral_nets` all have a name and an
interface and that does not return 0 (a network is missing, or the loopback
attach or a CNI add fails) leaves the whole state as it was: `pod_id` is
appended to the container lists only after the CNI add of every entry has
succeeded, so nothing was appended for the entries before the failing one. -/
theorem failed_attach_appends_nothing (inv : cni_invoker) (w : world) (conf : network_api_conf)
    (hextras : ∀ e ∈ conf.extral_nets, ∃ name ifname, e = ⟨some name, some ifname⟩)
    (hfail : (native_attach_networks inv w conf).1.ret ≠ 0) :
    (native_attach_networks inv w conf).2 = w := by
  unfold native_attach_networks at hfail ⊢
  split
  · rfl
  · simp only
    split
    · rfl
    · split
      · rfl
      · rename_i hlen hlo hr
        exfalso
        simp only [hlen, if_false, hlo, hr] at hfail
        apply hfail
        apply add_container_loop_ok
        intro e he
        obtain ⟨name, ifname, heq⟩ := hextras e he
        refine ⟨name, by rw [heq], ?_⟩
        have hret : (do_foreach_network_op w.g_store conf false inv.attach_network_plane).ret =
            0 := by
          by_contra hne
          exact hr hne
        exact do_foreach_loop_ok_found w.g_store conf inv.attach_network_plane conf.extral_nets
          0 false [] [] hret e he name ifname (by rw [heq]) (by rw [heq])

/-- C21 (amended), on the store of two networks with the extras `net1`,
`ghost`: the call fails and the state is the one before it. -/
theorem failed_attach_appends_nothing_witness :
    (native_attach_networks sample_invoker sample_world
      ⟨"c1", "/proc/1/ns/net", [], none,
        [⟨some "net1", some "eth0"⟩, ⟨some "ghost", some "eth1"⟩]⟩).1.ret ≠ 0 ∧
    (native_attach_networks sample_invoker sample_world
      ⟨"c1", "/proc/1/ns/net", [], none,
        [⟨some "net1", some "eth0"⟩, ⟨some "ghost", some "eth1"⟩]⟩).2 = sample_world :=
  ⟨by decide,
    failed_attach_appends_nothing sample_invoker sample_world
      ⟨"c1", "/proc/1/ns/net", [], none,
        [⟨some "net1", some "eth0"⟩, ⟨some "ghost", some "eth1"⟩]⟩
      (by
        intro e he
        simp only [List.mem_cons, List.mem_singleton, List.not_mem_nil, or_false] at he
        rcases he with rfl | rfl
        · exact ⟨"net1", "eth0", rfl⟩
        · exact ⟨"ghost", "eth1", rfl⟩)
      (by decide)⟩

/-- C21 (as stated) fails: the store holds `net2` with an empty
container list and Attach is called for `c1` with the extras `net2`, `ghost`.
The CNI add for `net2` succeeds (its result is in the answer), the call fails
at `ghost`, and the container list of `net2` is still empty. The same when
the CNI add of the second entry fails instead. -/
theorem failed_attach_leaves_earlier_list_unchanged :
    native_attach_networks sample_invoker sample_world
        ⟨"c1", "/proc/1/ns/net", [], none,
          [⟨some "net2", some "eth0"⟩, ⟨some "ghost", some "eth1"⟩]⟩ =
      (⟨-1, [⟨"net2", "eth0", "ok"⟩], some "Cannot found net: ghost",
          [⟨"c1", "/proc/1/ns/net", [], "eth0", none⟩]⟩, sample_world) ∧
    map_search sample_world.g_store.name_to_network "net2" =
      some ⟨sample_conflist "net2", []⟩ ∧
    native_attach_networks
        ⟨fun _ _ => 0, fun _ _ => 0,
          fun i _ _ => if i = 1 then (-1, none) else (0, some "ok"), fun _ _ _ => (0, none)⟩
        sample_world
        ⟨"c1", "/proc/1/ns/net", [], none,
          [⟨some "net2", some "eth0"⟩, ⟨some "net1", some "eth1"⟩]⟩ =
      (⟨-1, [⟨"net2", "eth0", "ok"⟩], none,
          [⟨"c1", "/proc/1/ns/net", [], "eth0", none⟩,
            ⟨"c1", "/proc/1/ns/net", [], "eth1", none⟩]⟩, sample_world) := by
  decide


/-! ### Lock discipline -/

theorem lock_discipline_run_append (a b : List lock_event) :
    ∀ s, lock_discipline_run s (a ++ b) =
      (lock_discipline_run s a).bind (fun s1 => lock_discipline_run s1 b) := by
  induction a with
  | nil => intro s; rfl
  | cons e rest ih =>
    intro s
    simp only [List.cons_append, lock_discipline_run]
    cases lock_discipline_step s e with
    | none => rfl
    | some s1 => exact ih s1

theorem lock_run_closed_append (a b : List lock_event) (s : lock_state)
    (ha : lock_discipline_run s a = some s) (hb : lock_discipline_run s b = some s) :
    lock_discipline_run s (a ++ b) = some s := by
  rw [lock_discipline_run_append, ha]
  exact hb

theorem lock_run_wrap (exclusive : Bool) (body : List lock_event)
    (h : lock_discipline_run ⟨true, none⟩ body = some ⟨true, none⟩) :
    lock_discipline_run ⟨false, none⟩
      (lock_event.store_lock exclusive :: body ++ [lock_event.store_unlock]) =
        some ⟨false, none⟩ := by
  have hsplit : lock_event.store_lock exclusive :: body ++ [lock_event.store_unlock] =
      [lock_event.store_lock exclusive] ++ (body ++ [lock_event.store_unlock]) := rfl
  have hfirst : lock_discipline_run ⟨false, none⟩ [lock_event.store_lock exclusive] =
      some ⟨true, none⟩ := rfl
  rw [hsplit, lock_discipline_run_append, hfirst]
  show lock_discipline_run ⟨true, none⟩ (body ++ [lock_event.store_unlock]) = _
  rw [lock_discipline_run_append, h]
  rfl

theorem lock_run_record (exclusive write : Bool) (name : String) (store_held : Bool)
    (hs : store_held = true) (hw : write = true → exclusive = true) :
    lock_discipline_run ⟨store_held, none⟩
      [lock_event.network_lock exclusive name, lock_event.list_access write name,
        lock_event.network_unlock name] = some ⟨store_held, none⟩ := by
  subst hs
  cases write <;> cases exclusive <;> simp [lock_discipline_run, lock_discipline_step] at hw ⊢

theorem lock_run_cni_calls (n : Nat) (s : lock_state) (hs : s.network_held = none) :
    lock_discipline_run s (List.replicate n lock_event.cni_call) = some s := by
  induction n with
  | zero => rfl
  | succ n ih =>
    simp only [List.replicate_succ, lock_discipline_run, lock_discipline_step, hs,
      Option.isSome_none, Bool.false_eq_true, if_false]
    exact ih

theorem get_cni_config_events_closed :
    lock_discipline_run ⟨false, none⟩ get_cni_config_events = some ⟨false, none⟩ := rfl

theorem check_bridge_events_closed (w : world) (request : network_create_request) :
    lock_discipline_run ⟨false, none⟩ (check_bridge_events w request) = some ⟨false, none⟩ := by
  unfold check_bridge_events
  repeat' split
  all_goals rfl

theorem conf_bridge_events_closed (w : world) (request : network_create_request) :
    lock_discipline_run ⟨false, none⟩ (conf_bridge_events w request) = some ⟨false, none⟩ := by
  unfold conf_bridge_events
  repeat' split
  all_goals rfl

theorem native_config_create_events_closed (k : build_consts) (f : io_faults) (w : world)
    (request : network_create_request) :
    lock_discipline_run ⟨false, none⟩ (native_config_create_events k f w request) =
      some ⟨false, none⟩ := by
  have h1 := check_bridge_events_closed w request
  have h2 := lock_run_closed_append _ _ _ h1 (conf_bridge_events_closed w request)
  have h3 := lock_run_closed_append _ [lock_event.store_lock true, lock_event.store_unlock] _ h2
    rfl
  unfold native_config_create_events
  repeat' split
  all_goals first
    | rfl
    | exact h1
    | exact h2
    | exact h3

theorem native_config_remove_events_closed (w : world) (name : String) :
    lock_discipline_run ⟨false, none⟩ (native_config_remove_events w name) =
      some ⟨false, none⟩ := by
  unfold native_config_remove_events
  split
  · rfl
  · exact lock_run_wrap true _ (lock_run_record false false _ true rfl (by simp))

theorem do_add_container_list_events_inner (store : native_store) (name : Option String) :
    lock_discipline_run ⟨true, none⟩ (do_add_container_list_events store name) =
      some ⟨true, none⟩ := by
  unfold do_add_container_list_events
  repeat' split
  all_goals first
    | rfl
    | exact lock_run_record true true _ true rfl (fun _ => rfl)

theorem do_remove_container_list_events_inner (store : native_store) (name : Option String) :
    lock_discipline_run ⟨true, none⟩ (do_remove_container_list_events store name) =
      some ⟨true, none⟩ := by
  unfold do_remove_container_list_events
  repeat' split
  all_goals first
    | rfl
    | exact lock_run_record true true _ true rfl (fun _ => rfl)

theorem add_container_loop_events_inner (pod : String) (extras : List attach_net_conf) :
    ∀ store, lock_discipline_run ⟨true, none⟩ (add_container_loop_events pod store extras) =
      some ⟨true, none⟩ := by
  induction extras with
  | nil => intro store; rfl
  | cons e rest ih =>
    intro store
    simp only [add_container_loop_events]
    split
    · exact do_add_container_list_events_inner store e.name
    · exact lock_run_closed_append _ _ _ (do_add_container_list_events_inner store e.name)
        (ih _)

theorem remove_container_loop_events_inner (pod : String) (extras : List attach_net_conf) :
    ∀ store, lock_discipline_run ⟨true, none⟩ (remove_container_loop_events pod store extras) =
      some ⟨true, none⟩ := by
  induction extras with
  | nil => intro store; rfl
  | cons e rest ih =>
    intro store
    simp only [remove_container_loop_events]
    exact lock_run_closed_append _ _ _ (do_remove_container_list_events_inner store e.name)
      (ih _)

theorem do_foreach_network_op_events_eq (store : native_store) (conf : network_api_conf)
    (ignore_nofound : Bool)
    (op : Nat → cni_manager → cni_network_list_conf → Int × Option String) :
    do_foreach_network_op_events store conf ignore_nofound op =
      List.replicate (do_foreach_network_op store conf ignore_nofound op).calls.length
        lock_event.cni_call := by
  unfold do_foreach_network_op_events
  generalize (do_foreach_network_op store conf ignore_nofound op).calls = calls
  induction calls with
  | nil => rfl
  | cons c rest ih => simp [List.replicate_succ, ih]

theorem native_attach_networks_events_closed (inv : cni_invoker) (w : world)
    (conf : network_api_conf) :
    lock_discipline_run ⟨false, none⟩ (native_attach_networks_events inv w conf) =
      some ⟨false, none⟩ := by
  unfold native_attach_networks_events
  apply lock_run_wrap
  have hc : ∀ n, lock_discipline_run ⟨true, none⟩ (List.replicate n lock_event.cni_call) =
      some ⟨true, none⟩ := fun n => lock_run_cni_calls n _ rfl
  split
  · rfl
  · split
    · exact hc 1
    · split
      · rw [do_foreach_network_op_events_eq]
        exact hc (_ + 1)
      · rw [do_foreach_network_op_events_eq]
        have := lock_run_closed_append _ _ _ (hc
          ((do_foreach_network_op w.g_store conf false inv.attach_network_plane).calls.length + 1))
          (add_container_loop_events_inner conf.pod_id conf.extral_nets w.g_store)
        simpa [List.replicate_succ] using this

theorem native_detach_networks_events_closed (inv : cni_invoker) (w : world)
    (conf : network_api_conf) :
    lock_discipline_run ⟨false, none⟩ (native_detach_networks_events inv w conf) =
      some ⟨false, none⟩ := by
  unfold native_detach_networks_events
  have hc : ∀ n, lock_discipline_run ⟨true, none⟩ (List.replicate n lock_event.cni_call) =
      some ⟨true, none⟩ := fun n => lock_run_cni_calls n _ rfl
  have hr := remove_container_loop_events_inner conf.pod_id conf.extral_nets w.g_store
  simp only
  rw [List.append_assoc]
  rw [show ∀ (b r t : List lock_event), lock_event.store_lock false :: b ++ (r ++ t) =
    lock_event.store_lock false :: (b ++ r) ++ t from fun b r t => by simp]
  apply lock_run_wrap
  apply lock_run_closed_append _ _ _ _ hr
  split
  · rfl
  · split
    · exact hc 1
    · rw [do_foreach_network_op_events_eq]
      exact hc (_ + 1)


theorem add_container_loop_events_shape (pod : String) (extras : List attach_net_conf) :
    ∀ store, ∃ names : List String,
      add_container_loop_events pod store extras = (names.map locked_list_change).flatten := by
  induction extras with
  | nil => intro store; exact ⟨[], rfl⟩
  | cons e rest ih =>
    intro store
    have hd : ∃ names : List String,
        do_add_container_list_events store e.name = (names.map locked_list_change).flatten := by
      unfold do_add_container_list_events
      cases e.name with
      | none => exact ⟨[], rfl⟩
      | some X =>
        simp only
        cases map_search store.name_to_network X with
        | none => exact ⟨[], rfl⟩
        | some r => exact ⟨[X], rfl⟩
    obtain ⟨n1, h1⟩ := hd
    simp only [add_container_loop_events]
    split
    · exact ⟨n1, h1⟩
    · obtain ⟨n2, h2⟩ := ih (do_add_container_list store e.name pod).2
      exact ⟨n1 ++ n2, by rw [h1, h2]; simp⟩

theorem remove_container_loop_events_shape (pod : String) (extras : List attach_net_conf) :
    ∀ store, ∃ names : List String,
      remove_container_loop_events pod store extras =
        (names.map locked_list_change).flatten := by
  induction extras with
  | nil => intro store; exact ⟨[], rfl⟩
  | cons e rest ih =>
    intro store
    have hd : ∃ names : List String,
        do_remove_container_list_events store e.name =
          (names.map locked_list_change).flatten := by
      unfold do_remove_container_list_events
      cases e.name with
      | none => exact ⟨[], rfl⟩
      | some X =>
        simp only
        cases map_search store.name_to_network X with
        | none => exact ⟨[], rfl⟩
        | some r => exact ⟨[X], rfl⟩
    obtain ⟨n1, h1⟩ := hd
    obtain ⟨n2, h2⟩ := ih (do_remove_container_list store e.name pod)
    simp only [remove_container_loop_events]
    exact ⟨n1 ++ n2, by rw [h1, h2]; simp⟩

/-- C25: the lock and unlock calls of every public operation, in program
order, keep the discipline and end with no lock held: a record lock is taken
only while the store lock is held and no other record lock is held, the store
lock is never taken while a record lock is held, a container list is changed
only under the exclusive lock of its record, and the CNI invoker is never
called while a record lock is held. Attach and Detach take the store lock
shared, make all their invoker calls, and only then take record locks, each
exclusive, around one change of a container list. `native_destory` takes the
store lock and keeps it. Runs that break the discipline are told apart. -/
theorem public_operations_keep_lock_discipline :
    (∀ k f w request,
      lock_discipline_run ⟨false, none⟩ (native_config_create_events k f w request) =
        some ⟨false, none⟩) ∧
    (∀ w name,
      lock_discipline_run ⟨false, none⟩ (native_config_remove_events w name) =
        some ⟨false, none⟩) ∧
    (∀ inv w conf,
      lock_discipline_run ⟨false, none⟩ (native_attach_networks_events inv w conf) =
        some ⟨false, none⟩) ∧
    (∀ inv w conf,
      lock_discipline_run ⟨false, none⟩ (native_detach_networks_events inv w conf) =
        some ⟨false, none⟩) ∧
    (∀ w name,
      lock_discipline_run ⟨false, none⟩ (native_network_add_container_list_events w name) =
        some ⟨false, none⟩) ∧
    lock_discipline_run ⟨false, none⟩ native_ready_events = some ⟨false, none⟩ ∧
    lock_discipline_run ⟨false, none⟩ native_config_inspect_events = some ⟨false, none⟩ ∧
    lock_discipline_run ⟨false, none⟩ native_config_list_events = some ⟨false, none⟩ ∧
    lock_discipline_run ⟨false, none⟩ native_network_exist_events = some ⟨false, none⟩ ∧
    lock_discipline_run ⟨false, none⟩ native_destory_events = some ⟨true, none⟩ ∧
    (∀ inv w conf, ∃ (n : Nat) (names : List String),
      native_attach_networks_events inv w conf =
        lock_event.store_lock false :: List.replicate n lock_event.cni_call ++
          (names.map locked_list_change).flatten ++ [lock_event.store_unlock]) ∧
    (∀ inv w conf, ∃ (n : Nat) (names : List String),
      native_detach_networks_events inv w conf =
        lock_event.store_lock false :: List.replicate n lock_event.cni_call ++
          (names.map locked_list_change).flatten ++ [lock_event.store_unlock]) ∧
    lock_discipline_run ⟨false, none⟩
        [lock_event.network_lock true "net1", lock_event.list_access true "net1",
          lock_event.network_unlock "net1"] = none ∧
    lock_discipline_run ⟨false, none⟩
        [lock_event.store_lock false, lock_event.network_lock true "net1",
          lock_event.network_lock true "net2"] = none ∧
    lock_discipline_run ⟨false, none⟩
        [lock_event.store_lock false, lock_event.network_lock true "net1",
          lock_event.cni_call] = none ∧
    lock_discipline_run ⟨false, none⟩
        [lock_event.store_lock false, lock_event.network_lock false "net1",
          lock_event.list_access true "net1"] = none ∧
    lock_discipline_run ⟨true, some (true, "net1")⟩ [lock_event.store_lock false] = none := by
  refine ⟨native_config_create_events_closed, native_config_remove_events_closed,
    native_attach_networks_events_closed, native_detach_networks_events_closed, ?_, rfl, rfl,
    rfl, rfl, rfl, ?_, ?_, by decide, by decide, by decide, by decide, by decide⟩
  · intro w name
    exact lock_run_wrap false _ (do_add_container_list_events_inner w.g_store (some name))
  · intro inv w conf
    unfold native_attach_networks_events
    simp only
    split
    · exact ⟨0, [], rfl⟩
    · split
      · exact ⟨1, [], rfl⟩
      · split
        · rw [do_foreach_network_op_events_eq]
          exact ⟨(do_foreach_network_op w.g_store conf false
            inv.attach_network_plane).calls.length + 1, [], by simp [List.replicate_succ]⟩
        · rw [do_foreach_network_op_events_eq]
          obtain ⟨names, hn⟩ :=
            add_container_loop_events_shape conf.pod_id conf.extral_nets w.g_store
          exact ⟨(do_foreach_network_op w.g_store conf false
            inv.attach_network_plane).calls.length + 1, names, by
              rw [hn]; simp [List.replicate_succ]⟩
  · intro inv w conf
    unfold native_detach_networks_events
    simp only
    obtain ⟨names, hn⟩ :=
      remove_container_loop_events_shape conf.pod_id conf.extral_nets w.g_store
    rw [hn]
    split
    · exact ⟨0, names, by simp⟩
    · split
      · exact ⟨1, names, by simp⟩
      · rw [do_foreach_network_op_events_eq]
        exact ⟨(do_foreach_network_op w.g_store conf true
          inv.detach_network_plane).calls.length + 1, names, by simp [List.replicate_succ]⟩

end NativeNet
